import Mathlib

/-!
# Channel selection and retry orchestration (service/channel_select.go)

A shallow embedding of `RetryParam` and `CacheGetRandomSatisfiedChannel`.

* The request-scoped store (`gin.Context`) is a record with one optional slot per key
  the selector touches; a slot holds a dynamically typed value (`CtxValue`).
* Go `int` values are `Int`, read as 64-bit two's complement: the increments
  `*p.Retry++` and `p.CurrentPriorityIndex++` wrap around (`wrapInt`).  The group index
  `i + 1` stays below the length of the group list and cannot wrap.  The setting
  `common.RetryTimes` is a Go `int`, so `Env` carries that it lies in the 64-bit range.
* The registry `model.GetRandomSatisfiedChannel`, the resolver `GetUserAutoGroup`, the
  configured list `setting.GetAutoGroups()` and the settings `common.RetryTimes`,
  `common.RetryPriorityMode` live outside this file of the repository; they are the
  fields of `Env`.  The registry picks at random, so its answer may differ between two
  identical queries: it is given the queries made earlier in the request as well.
* Every registry query is appended to a trace, so that the number, order and arguments
  of the queries can be stated.
* `logger.LogDebug` has no effect on the state and is left out.
-/

/-!
# Token tier pricing (setting/operation_setting/token_tier_pricing.go)

A shallow embedding of the rule matching of `ResolveTokenTierPrice`.

* Token counts and bounds are Go `int`, here `Int`; they are only compared.
* Prices and ratios are `float64` in the source.  `ResolveTokenTierPrice` only compares
  them with 0 and copies them, so a finite value is represented by the rational it
  denotes (`ℚ`).
* The package variable `tokenTierPricingConfig` is a parameter; its read lock is left
  out.  `ModelConfigs` is a Go map, ranged over in an unspecified order: it is given as
  the list of its entries in the order the `range` of the call visits them.
* Go strings are lists of characters here; `strings.Split`, `strings.TrimSpace`,
  `strings.HasSuffix`, `strings.TrimSuffix` and `strings.HasPrefix` are written out.
-/

namespace TokenTierPricing

/-- TokenTierRule: one tier rule; a maximum of 0 means no upper limit. -/
structure TokenTierRule where
  Name : String
  MaxInputTokens : Int
  MinInputTokens : Int
  MaxOutputTokens : Int
  MinOutputTokens : Int
  InputPrice : ℚ
  OutputPrice : ℚ
  InputRatio : ℚ
  CompletionRatio : ℚ
deriving DecidableEq

/-- ModelTierPricing: the tier configuration of one model list. -/
structure ModelTierPricing where
  Enabled : Bool
  Models : String
  Rules : List TokenTierRule
deriving DecidableEq

/-- TokenTierPricingConfig: the global switch and the configurations by name. -/
structure TokenTierPricingConfig where
  GlobalEnabled : Bool
  ModelConfigs : List (String × ModelTierPricing)
deriving DecidableEq

/-- TokenTierPriceResult: the result of the rule matching. -/
structure TokenTierPriceResult where
  Matched : Bool
  RuleName : String
  InputPrice : ℚ
  OutputPrice : ℚ
  UseRatio : Bool
  InputRatio : ℚ
  CompletionRatio : ℚ
deriving DecidableEq

/-- The zero value `TokenTierPriceResult{}`. -/
def zeroResult : TokenTierPriceResult := ⟨false, "", 0, 0, false, 0, 0⟩

/-- White space in the sense of `unicode.IsSpace`, by code point. -/
def isSpace (c : Char) : Bool :=
  decide (c.toNat ∈ [0x09, 0x0A, 0x0B, 0x0C, 0x0D, 0x20, 0x85, 0xA0, 0x1680, 0x2028, 0x2029,
    0x202F, 0x205F, 0x3000]) || (decide (0x2000 ≤ c.toNat) && decide (c.toNat ≤ 0x200A))

/-- The function strings.TrimSpace. -/
def trimSpace (s : List Char) : List Char :=
  ((s.dropWhile isSpace).reverse.dropWhile isSpace).reverse

/-- The function strings.Split with separator ",": the pieces between the commas. -/
def splitComma : List Char → List (List Char)
  | [] => [[]]
  | c :: cs =>
    if c = ',' then [] :: splitComma cs
    else
      match splitComma cs with
      | [] => [[c]]
      | piece :: pieces => (c :: piece) :: pieces

/-- matchModelPattern: exact match, or a pattern ending in `*` whose part before that
`*` starts the model name. -/
def matchModelPattern (modelName pattern : List Char) : Bool :=
  if modelName = pattern then true
  else if pattern.getLast? = some '*' then pattern.dropLast.isPrefixOf modelName
  else false

/-- The loop of matchModels over the split patterns. -/
def matchAnyPattern (modelName : List Char) : List (List Char) → Bool
  | [] => false
  | pattern :: rest =>
    if trimSpace pattern = [] then matchAnyPattern modelName rest
    else if matchModelPattern modelName (trimSpace pattern) then true
    else matchAnyPattern modelName rest

/-- matchModels: whether the model name matches the comma-separated list. -/
def matchModels (modelName modelsStr : String) : Bool :=
  if modelsStr = "" then false
  else matchAnyPattern modelName.data (splitComma modelsStr.data)

/-- findModelPricing: the first configuration, in the order the map is ranged over,
whose model list matches; `(ModelTierPricing{}, false)` when there is none. -/
def findModelPricing (cfg : TokenTierPricingConfig) (modelName : String) :
    ModelTierPricing × Bool :=
  match cfg.ModelConfigs.find? (fun e => matchModels modelName e.2.Models) with
  | some e => (e.2, true)
  | none => (⟨false, "", []⟩, false)

/-- matchRule: whether the token counts lie in the ranges of the rule. -/
def matchRule (rule : TokenTierRule) (inputTokens outputTokens : Int) : Bool :=
  if inputTokens < rule.MinInputTokens then false
  else if rule.MaxInputTokens > 0 ∧ inputTokens > rule.MaxInputTokens then false
  else if outputTokens < rule.MinOutputTokens then false
  else if rule.MaxOutputTokens > 0 ∧ outputTokens > rule.MaxOutputTokens then false
  else true

/-- The result built from a matching rule (lines 114-132): price mode when a price is
positive, else ratio mode with a completion ratio of 0 replaced by 1. -/
def resultOfRule (rule : TokenTierRule) : TokenTierPriceResult :=
  if rule.InputPrice > 0 ∨ rule.OutputPrice > 0 then
    ⟨true, rule.Name, rule.InputPrice, rule.OutputPrice, false, 0, 0⟩
  else
    ⟨true, rule.Name, 0, 0, true, rule.InputRatio,
      if rule.CompletionRatio = 0 then 1 else rule.CompletionRatio⟩

/-- The loop `for _, rule := range modelPricing.Rules` of ResolveTokenTierPrice. -/
def resolveRules (inputTokens outputTokens : Int) : List TokenTierRule → TokenTierPriceResult
  | [] => zeroResult
  | rule :: rest =>
    if !matchRule rule inputTokens outputTokens then resolveRules inputTokens outputTokens rest
    else resultOfRule rule

/-- ResolveTokenTierPrice: the tier price for a model and token counts. -/
def ResolveTokenTierPrice (cfg : TokenTierPricingConfig) (modelName : String)
    (inputTokens outputTokens : Int) : TokenTierPriceResult :=
  if !cfg.GlobalEnabled then zeroResult
  else
    match findModelPricing cfg modelName with
    | (modelPricing, found) =>
      if !found || !modelPricing.Enabled then zeroResult
      else resolveRules inputTokens outputTokens modelPricing.Rules

/-- The first default rule: input <= 32000, output <= 200. -/
def tierT1 : TokenTierRule :=
  { Name := "T1_input_le_32k_output_le_200",
    MinInputTokens := 0, MaxInputTokens := 32000,
    MinOutputTokens := 0, MaxOutputTokens := 200,
    InputPrice := 0, OutputPrice := 0,
    InputRatio := 0.4, CompletionRatio := 1.0 }

/-- The second default rule: input <= 32000, output > 200. -/
def tierT2 : TokenTierRule :=
  { Name := "T2_input_le_32k_output_gt_200",
    MinInputTokens := 0, MaxInputTokens := 32000,
    MinOutputTokens := 201, MaxOutputTokens := 0,
    InputPrice := 0, OutputPrice := 0,
    InputRatio := 0.4, CompletionRatio := 1.5 }

/-- The third default rule: input from 32001 to 128000. -/
def tierT3 : TokenTierRule :=
  { Name := "T3_input_32k_to_128k",
    MinInputTokens := 32001, MaxInputTokens := 128000,
    MinOutputTokens := 0, MaxOutputTokens := 0,
    InputPrice := 0, OutputPrice := 0,
    InputRatio := 0.6, CompletionRatio := 1.0 }

/-- The fourth default rule: input > 128000. -/
def tierT4 : TokenTierRule :=
  { Name := "T4_input_gt_128k",
    MinInputTokens := 128001, MaxInputTokens := 0,
    MinOutputTokens := 0, MaxOutputTokens := 0,
    InputPrice := 0, OutputPrice := 0,
    InputRatio := 1.2, CompletionRatio := 1.0 }

/-- GetDefaultTierRules: the default four-tier template (ratio mode). -/
def GetDefaultTierRules : List TokenTierRule :=
  [tierT1, tierT2, tierT3, tierT4]

/-- A configuration with the default rules enabled for every model `gpt-*`. -/
def cfgDefault : TokenTierPricingConfig :=
  ⟨true, [("default", ⟨true, "claude-3, gpt-*", GetDefaultTierRules⟩)]⟩

end TokenTierPricing

namespace ChannelSelect

/-- A dynamically typed value of the request-scoped store. -/
inductive CtxValue where
  | int (n : Int)
  | str (s : String)
  | bool (b : Bool)
deriving DecidableEq, Repr

/-- The keys of the request-scoped store read or written by the selector; `none` is an
absent key. -/
structure Context where
  ContextKeyUserGroup : Option CtxValue
  ContextKeyTokenCrossGroupRetry : Option CtxValue
  ContextKeyAutoGroup : Option CtxValue
  ContextKeyAutoGroupIndex : Option CtxValue
  ContextKeyAutoGroupRetryIndex : Option CtxValue
deriving DecidableEq, Repr

/-- Reading a string key: the empty string when the key is absent or not a string. -/
def GetContextKeyString (v : Option CtxValue) : String :=
  match v with
  | some (CtxValue.str s) => s
  | _ => ""

/-- Reading a boolean key: false when the key is absent or not a boolean. -/
def GetContextKeyBool (v : Option CtxValue) : Bool :=
  match v with
  | some (CtxValue.bool b) => b
  | _ => false

/-- A backend; the selector only passes it on, the identifier is what the used-channel
set records. -/
structure Channel where
  Id : Int
deriving DecidableEq, Repr

/-- The largest Go `int` (math.MaxInt64). -/
def maxInt : Int := 9223372036854775807

/-- The smallest Go `int` (math.MinInt64). -/
def minInt : Int := -9223372036854775808

/-- The value a Go `int` holds after an arithmetic result `x`: `x` modulo 2^64, taken in
the range from math.MinInt64 to math.MaxInt64. -/
def wrapInt (x : Int) : Int :=
  (x + 9223372036854775808) % 18446744073709551616 - 9223372036854775808

/-- RetryParam contains the parameters for channel retry logic. -/
structure RetryParam where
  Ctx : Context
  TokenGroup : String
  ModelName : String
  Retry : Option Int
  resetNextTry : Bool
  UsedChannelIds : Option (Finset Int)
  CurrentPriorityIndex : Int
deriving DecidableEq

namespace RetryParam

/-- GetRetry returns the current retry count, 0 if the counter is not initialised. -/
def GetRetry (p : RetryParam) : Int :=
  match p.Retry with
  | none => 0
  | some r => r

/-- SetRetry sets the retry count to the specified value. -/
def SetRetry (p : RetryParam) (retry : Int) : RetryParam :=
  { p with Retry := some retry }

/-- IncreaseRetry increments the retry counter by 1; if the resetNextTry flag is set it
clears the flag instead of incrementing. -/
def IncreaseRetry (p : RetryParam) : RetryParam :=
  if p.resetNextTry then
    { p with resetNextTry := false }
  else
    match p.Retry with
    | none => { p with Retry := some (wrapInt (0 + 1)) }
    | some r => { p with Retry := some (wrapInt (r + 1)) }

/-- ResetRetryNextTry sets the flag consumed by the next IncreaseRetry. -/
def ResetRetryNextTry (p : RetryParam) : RetryParam :=
  { p with resetNextTry := true }

/-- AddUsedChannel adds a channel id to the set of used channels. -/
def AddUsedChannel (p : RetryParam) (channelId : Int) : RetryParam :=
  match p.UsedChannelIds with
  | none => { p with UsedChannelIds := some (insert channelId ∅) }
  | some s => { p with UsedChannelIds := some (insert channelId s) }

/-- IsChannelUsed checks whether a channel id is in the used set. -/
def IsChannelUsed (p : RetryParam) (channelId : Int) : Bool :=
  match p.UsedChannelIds with
  | none => false
  | some s => decide (channelId ∈ s)

/-- IncreasePriorityIndex moves to the next priority level. -/
def IncreasePriorityIndex (p : RetryParam) : RetryParam :=
  { p with CurrentPriorityIndex := wrapInt (p.CurrentPriorityIndex + 1) }

/-- GetPriorityIndex returns the current priority index. -/
def GetPriorityIndex (p : RetryParam) : Int :=
  p.CurrentPriorityIndex

end RetryParam

/-- The arguments of one call of `model.GetRandomSatisfiedChannel`. -/
structure Query where
  group : String
  modelName : String
  retry : Int
  usedChannelIds : Option (Finset Int)
deriving DecidableEq

/-- The pair `(*model.Channel, error)` the registry returns. -/
structure QueryResult where
  channel : Option Channel
  err : Option String
deriving DecidableEq, Repr

/-- What the selector takes from the rest of the program.  `RetryTimes` is a Go `int`:
it comes with the fact that it lies in the 64-bit range. -/
structure Env where
  RetryTimes : Int
  RetryPriorityMode : String
  GetAutoGroups : List String
  GetUserAutoGroup : String → List String
  GetRandomSatisfiedChannel : List Query → Query → QueryResult
  RetryTimesIsInt : -9223372036854775808 ≤ RetryTimes ∧ RetryTimes ≤ 9223372036854775807

/-- How a call ends: it returns `(channel, selectGroup, err)`, or the index expression
`autoGroups[i]` panics. -/
inductive Outcome where
  | returned (channel : Option Channel) (selectGroup : String) (err : Option String)
  | panicked
deriving DecidableEq, Repr

/-- A finished call: its outcome, the RetryParam (with the store) it leaves, and the
trace of registry queries of the request so far. -/
structure Result where
  outcome : Outcome
  param : RetryParam
  trace : List Query

/-- The tier argument of the query for group index `i`: the retry counter in the group
the call started in, 0 in a group reached by moving on. -/
def priorityRetryAt (startGroupIndex i : Int) (param : RetryParam) : Int :=
  if i > startGroupIndex then 0 else param.GetRetry

/-- The loop `for i := startGroupIndex; i < len(autoGroups); i++` entered at index `i`
with `rest = autoGroups[i:]`; running out of groups falls through to the final
`return channel, selectGroup, nil` with a nil channel. -/
def autoLoop (env : Env) (crossGroupRetry : Bool) (startGroupIndex : Int) (selectGroup : String) :
    List String → Int → RetryParam → List Query → Result
  | [], _, param, trace => ⟨Outcome.returned none selectGroup none, param, trace⟩
  | autoGroup :: rest, i, param, trace =>
    let priorityRetry := priorityRetryAt startGroupIndex i param
    let q : Query := ⟨autoGroup, param.ModelName, priorityRetry, param.UsedChannelIds⟩
    -- channel, _ = model.GetRandomSatisfiedChannel(...): the error is dropped
    match (env.GetRandomSatisfiedChannel trace q).channel with
    | none =>
      if priorityRetry < env.RetryTimes then
        ⟨Outcome.returned none selectGroup none,
          { param with Ctx := { param.Ctx with ContextKeyAutoGroupIndex := some (CtxValue.int i) } },
          trace ++ [q]⟩
      else
        autoLoop env crossGroupRetry startGroupIndex selectGroup rest (i + 1)
          ({ param with Ctx := { param.Ctx with
              ContextKeyAutoGroupIndex := some (CtxValue.int (i + 1)),
              ContextKeyAutoGroupRetryIndex := some (CtxValue.int 0) } }.SetRetry 0)
          (trace ++ [q])
    | some channel =>
      let param1 : RetryParam :=
        { param with Ctx := { param.Ctx with ContextKeyAutoGroup := some (CtxValue.str autoGroup) } }
      if crossGroupRetry && decide (priorityRetry ≥ env.RetryTimes) then
        ⟨Outcome.returned (some channel) autoGroup none,
          ({ param1 with Ctx := { param1.Ctx with
              ContextKeyAutoGroupIndex := some (CtxValue.int (i + 1)) } }.SetRetry 0).ResetRetryNextTry,
          trace ++ [q]⟩
      else
        ⟨Outcome.returned (some channel) autoGroup none,
          { param1 with Ctx := { param1.Ctx with ContextKeyAutoGroupIndex := some (CtxValue.int i) } },
          trace ++ [q]⟩

/-- The start index read back from the store: the stored value when the key exists and
holds an int, else 0. -/
def startGroupIndexOf (ctx : Context) : Int :=
  match ctx.ContextKeyAutoGroupIndex with
  | some (CtxValue.int idx) => idx
  | _ => 0

/-- CacheGetRandomSatisfiedChannel tries to get a random channel that satisfies the
requirements; `trace` holds the registry queries made earlier in the request. -/
def CacheGetRandomSatisfiedChannel (env : Env) (trace : List Query) (param : RetryParam) : Result :=
  let selectGroup := param.TokenGroup
  let userGroup := GetContextKeyString param.Ctx.ContextKeyUserGroup
  if param.TokenGroup = "auto" then
    if env.GetAutoGroups.length = 0 then
      ⟨Outcome.returned none selectGroup (some "auto groups is not enabled"), param, trace⟩
    else
      let autoGroups := env.GetUserAutoGroup userGroup
      let crossGroupRetry := GetContextKeyBool param.Ctx.ContextKeyTokenCrossGroupRetry
      let startGroupIndex := startGroupIndexOf param.Ctx
      if startGroupIndex < 0 then
        -- the loop guard i < len(autoGroups) holds for a negative i, whatever the
        -- length, and autoGroups[i] is then out of range
        ⟨Outcome.panicked, param, trace⟩
      else
        autoLoop env crossGroupRetry startGroupIndex selectGroup
          (autoGroups.drop startGroupIndex.toNat) startGroupIndex param trace
  else
    let retryOrPriority :=
      if env.RetryPriorityMode = "round-robin" then param.GetRetry else param.GetPriorityIndex
    let q : Query := ⟨param.TokenGroup, param.ModelName, retryOrPriority, param.UsedChannelIds⟩
    let r := env.GetRandomSatisfiedChannel trace q
    match r.err with
    | some e => ⟨Outcome.returned none param.TokenGroup (some e), param, trace ++ [q]⟩
    | none => ⟨Outcome.returned r.channel selectGroup none, param, trace ++ [q]⟩

/-- The RetryParam with which the loop enters index `i + 1` after the group at index `i`
ran out of tiers (lines 187-191): index persisted, baseline key set, counter reset. -/
def movedOn (param : RetryParam) (i : Int) : RetryParam :=
  { param with Ctx := { param.Ctx with
      ContextKeyAutoGroupIndex := some (CtxValue.int (i + 1)),
      ContextKeyAutoGroupRetryIndex := some (CtxValue.int 0) } }.SetRetry 0

/-- The RetryParam a none result below the tier budget leaves (line 179): only the
group index is persisted. -/
def keptAt (param : RetryParam) (i : Int) : RetryParam :=
  { param with Ctx := { param.Ctx with ContextKeyAutoGroupIndex := some (CtxValue.int i) } }

/-- The RetryParam a match without hand-over leaves (lines 194 and 214): the selected
group and the current index are persisted. -/
def selectedAt (param : RetryParam) (autoGroup : String) (i : Int) : RetryParam :=
  { param with Ctx := { param.Ctx with
      ContextKeyAutoGroup := some (CtxValue.str autoGroup),
      ContextKeyAutoGroupIndex := some (CtxValue.int i) } }

/-- The RetryParam a match with hand-over leaves (lines 194 and 206-210). -/
def handedOver (param : RetryParam) (autoGroup : String) (i : Int) : RetryParam :=
  { param with
    Ctx := { param.Ctx with
      ContextKeyAutoGroup := some (CtxValue.str autoGroup),
      ContextKeyAutoGroupIndex := some (CtxValue.int (i + 1)) },
    Retry := some 0,
    resetNextTry := true }

/-! ## The selector without the explicit tier reset -/

/-- The loop of the selector with the statement `if i > startGroupIndex { priorityRetry = 0 }`
(lines 158-160) removed: the tier argument is always `param.GetRetry()`.  Everything
else is `autoLoop`. -/
def autoLoopNoReset (env : Env) (crossGroupRetry : Bool) (selectGroup : String) :
    List String → Int → RetryParam → List Query → Result
  | [], _, param, trace => ⟨Outcome.returned none selectGroup none, param, trace⟩
  | autoGroup :: rest, i, param, trace =>
    let priorityRetry := param.GetRetry
    let q : Query := ⟨autoGroup, param.ModelName, priorityRetry, param.UsedChannelIds⟩
    match (env.GetRandomSatisfiedChannel trace q).channel with
    | none =>
      if priorityRetry < env.RetryTimes then
        ⟨Outcome.returned none selectGroup none,
          { param with Ctx := { param.Ctx with ContextKeyAutoGroupIndex := some (CtxValue.int i) } },
          trace ++ [q]⟩
      else
        autoLoopNoReset env crossGroupRetry selectGroup rest (i + 1)
          ({ param with Ctx := { param.Ctx with
              ContextKeyAutoGroupIndex := some (CtxValue.int (i + 1)),
              ContextKeyAutoGroupRetryIndex := some (CtxValue.int 0) } }.SetRetry 0)
          (trace ++ [q])
    | some channel =>
      let param1 : RetryParam :=
        { param with Ctx := { param.Ctx with ContextKeyAutoGroup := some (CtxValue.str autoGroup) } }
      if crossGroupRetry && decide (priorityRetry ≥ env.RetryTimes) then
        ⟨Outcome.returned (some channel) autoGroup none,
          ({ param1 with Ctx := { param1.Ctx with
              ContextKeyAutoGroupIndex := some (CtxValue.int (i + 1)) } }.SetRetry 0).ResetRetryNextTry,
          trace ++ [q]⟩
      else
        ⟨Outcome.returned (some channel) autoGroup none,
          { param1 with Ctx := { param1.Ctx with ContextKeyAutoGroupIndex := some (CtxValue.int i) } },
          trace ++ [q]⟩

/-- CacheGetRandomSatisfiedChannel with the loop replaced by `autoLoopNoReset`. -/
def CacheGetRandomSatisfiedChannelNoReset (env : Env) (trace : List Query) (param : RetryParam) :
    Result :=
  let selectGroup := param.TokenGroup
  let userGroup := GetContextKeyString param.Ctx.ContextKeyUserGroup
  if param.TokenGroup = "auto" then
    if env.GetAutoGroups.length = 0 then
      ⟨Outcome.returned none selectGroup (some "auto groups is not enabled"), param, trace⟩
    else
      let autoGroups := env.GetUserAutoGroup userGroup
      let crossGroupRetry := GetContextKeyBool param.Ctx.ContextKeyTokenCrossGroupRetry
      let startGroupIndex := startGroupIndexOf param.Ctx
      if startGroupIndex < 0 then
        ⟨Outcome.panicked, param, trace⟩
      else
        autoLoopNoReset env crossGroupRetry selectGroup
          (autoGroups.drop startGroupIndex.toNat) startGroupIndex param trace
  else
    let retryOrPriority :=
      if env.RetryPriorityMode = "round-robin" then param.GetRetry else param.GetPriorityIndex
    let q : Query := ⟨param.TokenGroup, param.ModelName, retryOrPriority, param.UsedChannelIds⟩
    let r := env.GetRandomSatisfiedChannel trace q
    match r.err with
    | some e => ⟨Outcome.returned none param.TokenGroup (some e), param, trace ++ [q]⟩
    | none => ⟨Outcome.returned r.channel selectGroup none, param, trace ++ [q]⟩

/-- The RetryParam with the cross-group-retry key of its store set to `v` (`none`: key
absent); nothing else differs. -/
def withCrossGroupRetry (param : RetryParam) (v : Option CtxValue) : RetryParam :=
  { param with Ctx := { param.Ctx with ContextKeyTokenCrossGroupRetry := v } }

/-! ## The outer retry loop and the inputs used in the examples -/

/-- Modelled from the spec: the outer retry loop (the caller of the selector, outside
this file of the repository) in the shape the claims use it: `n` rounds, each a selector
call followed by `IncreaseRetry`.  It returns the RetryParam and the query trace. -/
def outerLoop (env : Env) : Nat → RetryParam → List Query → RetryParam × List Query
  | 0, param, trace => (param, trace)
  | n + 1, param, trace =>
    outerLoop env n (CacheGetRandomSatisfiedChannel env trace param).param.IncreaseRetry
      (CacheGetRandomSatisfiedChannel env trace param).trace

/-- The outcome of the selector call made in round `n` (counted from 0) of the outer loop. -/
def outcomeOfRound (env : Env) (n : Nat) (param : RetryParam) (trace : List Query) : Outcome :=
  (CacheGetRandomSatisfiedChannel env (outerLoop env n param trace).2
    (outerLoop env n param trace).1).outcome

/-- The queries `(group, tier 0), ..., (group, tier T)` in ascending tier order. -/
def tierQueries (modelName : String) (used : Option (Finset Int)) (T : Nat) (group : String) :
    List Query :=
  (List.range (T + 1)).map (fun (t : Nat) => (⟨group, modelName, (t : Int), used⟩ : Query))

/-- The request sits in group index `j` with retry counter `r`, the deferred flag clear:
the state of an auto-mode request between two rounds of the outer loop while the
registry has had nothing to offer. -/
def AtTier (ug : Option CtxValue) (m : String) (u : Option (Finset Int)) (j r : Nat)
    (p : RetryParam) : Prop :=
  p.TokenGroup = "auto" ∧ p.Ctx.ContextKeyUserGroup = ug ∧
  startGroupIndexOf p.Ctx = (j : Int) ∧ p.GetRetry = (r : Int) ∧
  p.resetNextTry = false ∧ p.ModelName = m ∧ p.UsedChannelIds = u

/-- The mutating methods of RetryParam, as the caller of the selector may invoke them
between two selector calls. -/
inductive ParamOp where
  | SetRetry (retry : Int)
  | IncreaseRetry
  | ResetRetryNextTry
  | AddUsedChannel (channelId : Int)
  | IncreasePriorityIndex
deriving DecidableEq, Repr

/-- The effect of one method call on the RetryParam. -/
def ParamOp.apply : ParamOp → RetryParam → RetryParam
  | ParamOp.SetRetry n, p => p.SetRetry n
  | ParamOp.IncreaseRetry, p => p.IncreaseRetry
  | ParamOp.ResetRetryNextTry, p => p.ResetRetryNextTry
  | ParamOp.AddUsedChannel id, p => p.AddUsedChannel id
  | ParamOp.IncreasePriorityIndex, p => p.IncreasePriorityIndex

/-- One step of a request: a selector call or a method call on its RetryParam. -/
inductive Step where
  | call
  | op (o : ParamOp)
deriving DecidableEq, Repr

/-- Modelled from the spec: a request as an arbitrary sequence of selector calls and
RetryParam method calls on one RetryParam (the caller of the selector is outside this
file of the repository).  It returns the RetryParam and the query trace. -/
def runSteps (env : Env) : List Step → RetryParam → List Query → RetryParam × List Query
  | [], param, trace => (param, trace)
  | Step.call :: rest, param, trace =>
    runSteps env rest (CacheGetRandomSatisfiedChannel env trace param).param
      (CacheGetRandomSatisfiedChannel env trace param).trace
  | Step.op o :: rest, param, trace => runSteps env rest (o.apply param) trace

/-- The channel a finished call returned, if any. -/
def Outcome.channel : Outcome → Option Channel
  | Outcome.returned channel _ _ => channel
  | Outcome.panicked => none

/-- Modelled from the spec: the outer retry loop that marks every returned backend as
used (spec section 6: on failure it calls AddUsedChannel, then advances a counter, then
calls the selector again).  One round per element of the list: a selector call,
AddUsedChannel of the returned channel if there is one, then the given method calls.
It returns the RetryParam, the query trace and the channels returned so far, in order. -/
def serveRounds (env : Env) :
    List (List ParamOp) → RetryParam → List Query → List Channel →
      RetryParam × List Query × List Channel
  | [], param, trace, got => (param, trace, got)
  | ops :: rest, param, trace, got =>
    match (CacheGetRandomSatisfiedChannel env trace param).outcome.channel with
    | some ch =>
      serveRounds env rest
        (ops.foldl (fun p o => o.apply p)
          ((CacheGetRandomSatisfiedChannel env trace param).param.AddUsedChannel ch.Id))
        (CacheGetRandomSatisfiedChannel env trace param).trace (got ++ [ch])
    | none =>
      serveRounds env rest
        (ops.foldl (fun p o => o.apply p) (CacheGetRandomSatisfiedChannel env trace param).param)
        (CacheGetRandomSatisfiedChannel env trace param).trace got

/-- Modelled from the spec: the outer retry loop seen from the results: one round per
element of the list, a selector call followed by the given method calls; it returns the
outcomes of the selector calls in order. -/
def roundOutcomes (env : Env) : List (List ParamOp) → RetryParam → List Query → List Outcome
  | [], _, _ => []
  | ops :: rest, param, trace =>
    (CacheGetRandomSatisfiedChannel env trace param).outcome ::
      roundOutcomes env rest
        (ops.foldl (fun p o => o.apply p) (CacheGetRandomSatisfiedChannel env trace param).param)
        (CacheGetRandomSatisfiedChannel env trace param).trace

/-- The request is in auto mode, for the user group key `ug`, with the persisted group
index read back as `j`. -/
def InAuto (ug : Option CtxValue) (j : Nat) (p : RetryParam) : Prop :=
  p.TokenGroup = "auto" ∧ p.Ctx.ContextKeyUserGroup = ug ∧ startGroupIndexOf p.Ctx = (j : Int)

/-- A store with no key set. -/
def emptyCtx : Context := ⟨none, none, none, none, none⟩

/-- A store in which only the cross-group-retry flag is set (to true). -/
def crossCtx : Context := ⟨none, some (CtxValue.bool true), none, none, none⟩

/-- A fresh auto-mode request: counter never set, nothing persisted. -/
def freshAuto : RetryParam := ⟨emptyCtx, "auto", "gpt-4", none, false, none, 0⟩

/-- A fresh auto-mode request of a token with cross-group retry. -/
def freshAutoCross : RetryParam := ⟨crossCtx, "auto", "gpt-4", none, false, none, 0⟩

/-- A registry in which only group B has a backend (id 1), at every tier. -/
def regOnlyB : List Query → Query → QueryResult :=
  fun _ q => if q.group = "B" then ⟨some ⟨1⟩, none⟩ else ⟨none, none⟩

/-- A registry that always has backend 1. -/
def regAlways : List Query → Query → QueryResult :=
  fun _ _ => ⟨some ⟨1⟩, none⟩

/-- A registry with no eligible backend anywhere. -/
def regNone : List Query → Query → QueryResult :=
  fun _ _ => ⟨none, none⟩

/-- A registry whose storage is down: every query fails. -/
def regError : List Query → Query → QueryResult :=
  fun _ _ => ⟨none, some "registry unavailable"⟩

/-- A registry in which every group has exactly two priorities: a backend at tier 0 and
at tier 1, none from tier 2 on. -/
def regTwoTiers : List Query → Query → QueryResult :=
  fun _ q => if 0 ≤ q.retry ∧ q.retry < 2 then ⟨some ⟨q.retry⟩, none⟩ else ⟨none, none⟩

/-- A fresh request for the explicit group A. -/
def freshExplicit : RetryParam := ⟨emptyCtx, "A", "gpt-4", none, false, none, 0⟩

/-- A registry whose tiers 0 and 1 are empty and whose tier 2 holds backend 9. -/
def regThirdTier : List Query → Query → QueryResult :=
  fun _ q => if q.retry = 2 then ⟨some ⟨9⟩, none⟩ else ⟨none, none⟩

/-- Sequential tie-break policy over the registry with a backend at tier 2 only. -/
def envSequential : Env :=
  ⟨1, "sequential", [], fun _ => [], regThirdTier, by decide⟩

/-- A registry that respects the exclusion set: it offers backend 1, then backend 2,
whichever is not excluded, and nothing once both are. -/
def regExcluding : List Query → Query → QueryResult :=
  fun _ q =>
    match q.usedChannelIds with
    | none => ⟨some ⟨1⟩, none⟩
    | some s =>
      if (1 : Int) ∉ s then ⟨some ⟨1⟩, none⟩
      else if (2 : Int) ∉ s then ⟨some ⟨2⟩, none⟩
      else ⟨none, none⟩

/-- Round-robin policy over the registry that respects the exclusion set. -/
def envExcluding : Env :=
  ⟨3, "round-robin", ["A"], fun _ => ["A"], regExcluding, by decide⟩

/-- Groups A, B, C for every user, only B populated, tier budget `T` (as a Go int). -/
def envSkip (T : Int) : Env :=
  ⟨wrapInt T, "round-robin", ["A", "B", "C"], fun _ => ["A", "B", "C"], regOnlyB, by unfold wrapInt; omega⟩

/-- One auto group A, always populated, tier budget `T` (as a Go int). -/
def envSingle (T : Int) : Env :=
  ⟨wrapInt T, "round-robin", ["A"], fun _ => ["A"], regAlways, by unfold wrapInt; omega⟩

/-- Auto groups A and B, both always populated, tier budget `T` (as a Go int). -/
def envPair (T : Int) : Env :=
  ⟨wrapInt T, "round-robin", ["A", "B"], fun _ => ["A", "B"], regAlways, by unfold wrapInt; omega⟩

/-- Auto groups are configured, but the user may use none of them. -/
def envNoUserGroups : Env :=
  ⟨1, "round-robin", ["A"], fun _ => [], regAlways, by decide⟩

/-- No auto group is configured at all. -/
def envNoAutoGroups : Env :=
  ⟨1, "round-robin", [], fun _ => [], regAlways, by decide⟩

/-- One auto group A and a registry that fails. -/
def envRegistryDown : Env :=
  ⟨1, "round-robin", ["A"], fun _ => ["A"], regError, by decide⟩

/-- The given groups for every user, nothing eligible anywhere, tier budget `T` (as a Go int). -/
def envAllNone (T : Int) (groups : List String) : Env :=
  ⟨wrapInt T, "round-robin", groups, fun _ => groups, regNone, by unfold wrapInt; omega⟩

/-- The documented example: GroupA and GroupB with two priorities each, RetryTimes = 3. -/
def envDocExample : Env :=
  ⟨3, "round-robin", ["GroupA", "GroupB"], fun _ => ["GroupA", "GroupB"], regTwoTiers, by decide⟩

/-! ## Basic facts about the embedding -/

/-- A result inside the 64-bit range is kept as it is. -/
theorem wrapInt_eq_self (x : Int) (h1 : -9223372036854775808 ≤ x)
    (h2 : x ≤ 9223372036854775807) : wrapInt x = x := by
  unfold wrapInt; omega

/-- Wrapping never lowers a result that does not exceed math.MaxInt64. -/
theorem le_wrapInt (x : Int) (h2 : x ≤ 9223372036854775807) : x ≤ wrapInt x := by
  unfold wrapInt; omega

/-- One past math.MaxInt64 is math.MinInt64. -/
theorem wrapInt_maxInt_succ : wrapInt (maxInt + 1) = minInt := by
  decide

/-- IncreaseRetry with the deferred flag clear stores the wrapped successor. -/
theorem IncreaseRetry_of_clear (p : RetryParam) (hf : p.resetNextTry = false) :
    p.IncreaseRetry = { p with Retry := some (wrapInt (p.GetRetry + 1)) } := by
  cases hR : p.Retry <;> simp [RetryParam.IncreaseRetry, hf, RetryParam.GetRetry, hR]

/-- IncreaseRetry with the deferred flag set only clears the flag. -/
theorem IncreaseRetry_of_set (p : RetryParam) (hf : p.resetNextTry = true) :
    p.IncreaseRetry = { p with resetNextTry := false } := by
  simp [RetryParam.IncreaseRetry, hf]

theorem startGroupIndexOf_none (ctx : Context) (h : ctx.ContextKeyAutoGroupIndex = none) :
    startGroupIndexOf ctx = 0 := by
  simp [startGroupIndexOf, h]

theorem startGroupIndexOf_int (ctx : Context) (n : Int)
    (h : ctx.ContextKeyAutoGroupIndex = some (CtxValue.int n)) :
    startGroupIndexOf ctx = n := by
  simp [startGroupIndexOf, h]

/-- An auto-mode call with configured auto groups and a non-negative start index is the
loop entered at that index. -/
theorem call_eq_autoLoop (env : Env) (trace : List Query) (p : RetryParam)
    (hauto : p.TokenGroup = "auto") (hen : env.GetAutoGroups ≠ [])
    (hs : 0 ≤ startGroupIndexOf p.Ctx) :
    CacheGetRandomSatisfiedChannel env trace p =
      autoLoop env (GetContextKeyBool p.Ctx.ContextKeyTokenCrossGroupRetry)
        (startGroupIndexOf p.Ctx) "auto"
        ((env.GetUserAutoGroup (GetContextKeyString p.Ctx.ContextKeyUserGroup)).drop
          (startGroupIndexOf p.Ctx).toNat)
        (startGroupIndexOf p.Ctx) p trace := by
  have h1 : ¬ env.GetAutoGroups.length = 0 := by
    simpa [List.length_eq_zero] using hen
  have h2 : ¬ startGroupIndexOf p.Ctx < 0 := not_lt.mpr hs
  simp only [CacheGetRandomSatisfiedChannel, hauto, h1, h2, if_true, if_false]

/-! ## C1: skipping an empty group -/

/-- C1 as stated fails: with tier budget 1, groups [A, B, C], A empty and B populated,
the first call of a fresh request queries A only, returns (nil, "auto", nil) and
persists index 0; it does not return the backend of B. -/
theorem C1_fresh_call_stays_in_empty_group :
    (∀ tr m t u, ((envSkip 1).GetRandomSatisfiedChannel tr ⟨"A", m, t, u⟩).channel = none) ∧
    (∀ tr m u, ((envSkip 1).GetRandomSatisfiedChannel tr ⟨"B", m, 0, u⟩).channel = some ⟨1⟩) ∧
    (CacheGetRandomSatisfiedChannel (envSkip 1) [] freshAuto).outcome
      = Outcome.returned none "auto" none ∧
    (CacheGetRandomSatisfiedChannel (envSkip 1) [] freshAuto).outcome
      ≠ Outcome.returned (some ⟨1⟩) "B" none ∧
    (CacheGetRandomSatisfiedChannel (envSkip 1) [] freshAuto).param.Ctx.ContextKeyAutoGroupIndex
      = some (CtxValue.int 0) ∧
    (CacheGetRandomSatisfiedChannel (envSkip 1) [] freshAuto).trace
      = [⟨"A", "gpt-4", 0, none⟩] := by
  refine ⟨fun _ _ _ _ => rfl, fun _ _ _ => rfl, by decide, by decide, by decide, by decide⟩

/-- C1 (amended): auto mode, any tier budget and model, resolved sequence [A, B, C], no
persisted group index, A empty at every query and B holding b at tier 0.  A call made
while GetRetry() >= RetryTimes (for a fresh request: RetryTimes <= 0) queries A, then B
at tier 0, and returns (b, B, nil); the persisted index is then 1, except that it is 2
when cross-group retry is enabled and RetryTimes <= 0.  A call made while
GetRetry() < RetryTimes queries A only, returns (nil, "auto", nil) and persists 0. -/
theorem C1_skip_empty_group_once_budget_spent (env : Env) (trace : List Query) (p : RetryParam)
    (A B C : String) (b : Channel)
    (hauto : p.TokenGroup = "auto") (hen : env.GetAutoGroups ≠ [])
    (hseq : env.GetUserAutoGroup (GetContextKeyString p.Ctx.ContextKeyUserGroup) = [A, B, C])
    (hidx : p.Ctx.ContextKeyAutoGroupIndex = none)
    (hA : ∀ tr m t u, (env.GetRandomSatisfiedChannel tr ⟨A, m, t, u⟩).channel = none)
    (hB : ∀ tr m u, (env.GetRandomSatisfiedChannel tr ⟨B, m, 0, u⟩).channel = some b) :
    (p.GetRetry < env.RetryTimes →
      (CacheGetRandomSatisfiedChannel env trace p).outcome = Outcome.returned none "auto" none ∧
      (CacheGetRandomSatisfiedChannel env trace p).param.Ctx.ContextKeyAutoGroupIndex
        = some (CtxValue.int 0) ∧
      (CacheGetRandomSatisfiedChannel env trace p).trace
        = trace ++ [⟨A, p.ModelName, p.GetRetry, p.UsedChannelIds⟩]) ∧
    (env.RetryTimes ≤ p.GetRetry →
      (CacheGetRandomSatisfiedChannel env trace p).outcome = Outcome.returned (some b) B none ∧
      (CacheGetRandomSatisfiedChannel env trace p).param.Ctx.ContextKeyAutoGroupIndex
        = some (CtxValue.int
            (if GetContextKeyBool p.Ctx.ContextKeyTokenCrossGroupRetry = true ∧ env.RetryTimes ≤ 0
              then 2 else 1)) ∧
      (CacheGetRandomSatisfiedChannel env trace p).trace
        = trace ++ [⟨A, p.ModelName, p.GetRetry, p.UsedChannelIds⟩,
                    ⟨B, p.ModelName, 0, p.UsedChannelIds⟩]) := by
  have hs : startGroupIndexOf p.Ctx = 0 := startGroupIndexOf_none _ hidx
  rw [call_eq_autoLoop env trace p hauto hen (by omega), hs, hseq]
  constructor
  · intro hlt
    simp [autoLoop, priorityRetryAt, hA, hlt]
  · intro hge
    have hnlt : ¬ p.GetRetry < env.RetryTimes := not_lt.mpr hge
    simp only [Int.toNat_zero, List.drop_zero, autoLoop, priorityRetryAt, hA, hnlt, if_false,
      lt_self_iff_false, zero_add, zero_lt_one, if_true, RetryParam.SetRetry, hB]
    by_cases hc : GetContextKeyBool p.Ctx.ContextKeyTokenCrossGroupRetry = true
    · by_cases ht : env.RetryTimes ≤ 0
      · simp [hc, ht, RetryParam.SetRetry, RetryParam.ResetRetryNextTry]
      · simp [hc, ht]
    · simp [hc]

/-- The amended C1 at tier budget 0: the fresh call skips A and returns backend 1 of B
with persisted index 1. -/
theorem C1_skip_empty_group_witness :
    (envSkip 0).RetryTimes ≤ freshAuto.GetRetry ∧
    (CacheGetRandomSatisfiedChannel (envSkip 0) [] freshAuto).outcome
      = Outcome.returned (some ⟨1⟩) "B" none ∧
    (CacheGetRandomSatisfiedChannel (envSkip 0) [] freshAuto).param.Ctx.ContextKeyAutoGroupIndex
      = some (CtxValue.int 1) :=
  have h := (C1_skip_empty_group_once_budget_spent (envSkip 0) [] freshAuto "A" "B" "C" ⟨1⟩
    rfl (by decide) rfl rfl (fun _ _ _ _ => rfl) (fun _ _ _ => rfl)).2 (by decide)
  ⟨by decide, h.1, h.2.1⟩

/-! ## C2: a match at priorityRetry 1 under tier budget 2 -/

/-- C2 as stated fails: cross-group retry enabled, RetryTimes = 2, group A (index 0)
returns a backend at priorityRetry 1; the call leaves the persisted index at 0 and the
deferred-increment flag clear. -/
theorem C2_no_handoff_at_tier_one :
    GetContextKeyBool (freshAutoCross.SetRetry 1).Ctx.ContextKeyTokenCrossGroupRetry = true ∧
    (envSingle 2).RetryTimes = 2 ∧
    (CacheGetRandomSatisfiedChannel (envSingle 2) [] (freshAutoCross.SetRetry 1)).outcome
      = Outcome.returned (some ⟨1⟩) "A" none ∧
    (CacheGetRandomSatisfiedChannel (envSingle 2) [] (freshAutoCross.SetRetry 1)).trace
      = [⟨"A", "gpt-4", 1, none⟩] ∧
    (CacheGetRandomSatisfiedChannel (envSingle 2) [] (freshAutoCross.SetRetry 1)).param.Ctx.ContextKeyAutoGroupIndex
      = some (CtxValue.int 0) ∧
    (CacheGetRandomSatisfiedChannel (envSingle 2) [] (freshAutoCross.SetRetry 1)).param.resetNextTry
      = false := by
  refine ⟨by decide, by decide, by decide, by decide, by decide, by decide⟩

/-- C2 (amended): auto mode with cross-group retry enabled and RetryTimes = 2, the call
starting in group index i (persisted or defaulted) and the registry returning a backend
for autoGroups[i] at priorityRetry = GetRetry().  If priorityRetry >= 2 the persisted
index is i+1 afterwards and the deferred-increment flag is set; if priorityRetry < 2, in
particular at priorityRetry == 1, the persisted index is i and the flag is unchanged. -/
theorem C2_handoff_at_tier_two (env : Env) (trace : List Query) (p : RetryParam)
    (i : Nat) (b : Channel)
    (hauto : p.TokenGroup = "auto") (hen : env.GetAutoGroups ≠ [])
    (hT : env.RetryTimes = 2)
    (hcross : GetContextKeyBool p.Ctx.ContextKeyTokenCrossGroupRetry = true)
    (hstart : startGroupIndexOf p.Ctx = (i : Int))
    (hi : i < (env.GetUserAutoGroup (GetContextKeyString p.Ctx.ContextKeyUserGroup)).length)
    (hb : (env.GetRandomSatisfiedChannel trace
        ⟨(env.GetUserAutoGroup (GetContextKeyString p.Ctx.ContextKeyUserGroup))[i],
          p.ModelName, p.GetRetry, p.UsedChannelIds⟩).channel = some b) :
    (2 ≤ p.GetRetry →
      (CacheGetRandomSatisfiedChannel env trace p).param.Ctx.ContextKeyAutoGroupIndex
        = some (CtxValue.int (i + 1)) ∧
      (CacheGetRandomSatisfiedChannel env trace p).param.resetNextTry = true) ∧
    (p.GetRetry < 2 →
      (CacheGetRandomSatisfiedChannel env trace p).param.Ctx.ContextKeyAutoGroupIndex
        = some (CtxValue.int i) ∧
      (CacheGetRandomSatisfiedChannel env trace p).param.resetNextTry = p.resetNextTry) := by
  rw [call_eq_autoLoop env trace p hauto hen (by omega), hstart, Int.toNat_ofNat,
    List.drop_eq_getElem_cons hi]
  constructor
  · intro h2
    simp [autoLoop, priorityRetryAt, hb, hT, hcross, h2, RetryParam.SetRetry,
      RetryParam.ResetRetryNextTry]
  · intro h2
    have h3 : ¬ 2 ≤ p.GetRetry := not_le.mpr h2
    simp [autoLoop, priorityRetryAt, hb, hT, hcross, h3]

/-- The amended C2 on one populated group at priorityRetry 2: index 1, flag set. -/
theorem C2_handoff_at_tier_two_witness :
    (CacheGetRandomSatisfiedChannel (envSingle 2) [] (freshAutoCross.SetRetry 2)).param.Ctx.ContextKeyAutoGroupIndex
      = some (CtxValue.int 1) ∧
    (CacheGetRandomSatisfiedChannel (envSingle 2) [] (freshAutoCross.SetRetry 2)).param.resetNextTry
      = true :=
  (C2_handoff_at_tier_two (envSingle 2) [] (freshAutoCross.SetRetry 2) 0 ⟨1⟩
    rfl (by decide) rfl rfl rfl (by decide) rfl).1 (by decide)

/-! ## C3: the resolver returns an empty sequence -/

/-- C3 as stated fails: auto groups are configured but the resolver returns the empty
sequence for the user; the call returns the exhaustion result (nil, "auto", nil), no
error. -/
theorem C3_empty_resolved_sequence_is_exhaustion :
    freshAuto.TokenGroup = "auto" ∧
    envNoUserGroups.GetUserAutoGroup (GetContextKeyString freshAuto.Ctx.ContextKeyUserGroup) = [] ∧
    (CacheGetRandomSatisfiedChannel envNoUserGroups [] freshAuto).outcome
      = Outcome.returned none "auto" none := by
  refine ⟨by decide, by decide, by decide⟩

/-- C3 (amended): for every call with TokenGroup == "auto": if the configured list
setting.GetAutoGroups() is empty, the call returns the error "auto groups is not enabled"
with no channel, makes no registry query and changes no state; if that list is non-empty,
the resolver returns the empty sequence and the persisted group index is absent or not
negative, the call returns (nil, "auto", nil), again with no query and no state change
(with a negative persisted index the loop guard -1 < 0 holds and the indexing panics). -/
theorem C3_error_only_without_configured_groups (env : Env) (trace : List Query) (p : RetryParam)
    (hauto : p.TokenGroup = "auto") :
    (env.GetAutoGroups = [] →
      CacheGetRandomSatisfiedChannel env trace p
        = ⟨Outcome.returned none "auto" (some "auto groups is not enabled"), p, trace⟩) ∧
    (env.GetAutoGroups ≠ [] →
      env.GetUserAutoGroup (GetContextKeyString p.Ctx.ContextKeyUserGroup) = [] →
      0 ≤ startGroupIndexOf p.Ctx →
      CacheGetRandomSatisfiedChannel env trace p
        = ⟨Outcome.returned none "auto" none, p, trace⟩) ∧
    (env.GetAutoGroups ≠ [] →
      startGroupIndexOf p.Ctx < 0 →
      CacheGetRandomSatisfiedChannel env trace p = ⟨Outcome.panicked, p, trace⟩) := by
  refine ⟨?_, ?_, ?_⟩
  · intro h0
    simp [CacheGetRandomSatisfiedChannel, hauto, h0]
  · intro h0 he hidx
    rw [call_eq_autoLoop env trace p hauto h0 hidx, he, List.drop_nil]
    rfl
  · intro h0 hneg
    have h1 : ¬ env.GetAutoGroups.length = 0 := by
      simpa [List.length_eq_zero] using h0
    simp only [CacheGetRandomSatisfiedChannel, hauto, h1, hneg, if_true, if_false]

/-- The amended C3 on a fresh request: with no auto group configured the call fails with
the error; with group A configured and an empty resolved sequence it returns
(nil, "auto", nil). -/
theorem C3_error_only_without_configured_groups_witness :
    CacheGetRandomSatisfiedChannel envNoAutoGroups [] freshAuto
      = ⟨Outcome.returned none "auto" (some "auto groups is not enabled"), freshAuto, []⟩ ∧
    CacheGetRandomSatisfiedChannel envNoUserGroups [] freshAuto
      = ⟨Outcome.returned none "auto" none, freshAuto, []⟩ :=
  ⟨(C3_error_only_without_configured_groups envNoAutoGroups [] freshAuto rfl).1 rfl,
    (C3_error_only_without_configured_groups envNoUserGroups [] freshAuto rfl).2.1
      (by decide) rfl (by decide)⟩

/-! ## C4: a registry error in the auto path -/

/-- C4, the failing input: the registry answers the query for group A with the error
"registry unavailable"; the auto path returns (nil, "auto", nil), the error is lost,
while the explicit-group path on the same registry returns that error. -/
theorem C4_auto_path_drops_registry_error :
    envRegistryDown.GetRandomSatisfiedChannel [] ⟨"A", "gpt-4", 0, none⟩
      = ⟨none, some "registry unavailable"⟩ ∧
    (CacheGetRandomSatisfiedChannel envRegistryDown [] freshAuto).trace
      = [⟨"A", "gpt-4", 0, none⟩] ∧
    (CacheGetRandomSatisfiedChannel envRegistryDown [] freshAuto).outcome
      = Outcome.returned none "auto" none ∧
    (CacheGetRandomSatisfiedChannel envRegistryDown []
        ⟨emptyCtx, "A", "gpt-4", none, false, none, 0⟩).outcome
      = Outcome.returned none "A" (some "registry unavailable") := by
  refine ⟨by decide, by decide, by decide, by decide⟩

/-! ## One iteration of the auto-group loop -/

/-- The registry has nothing and the tier budget is not spent: the loop returns none,
persisting the current index. -/
theorem autoLoop_none_stay (env : Env) (cross : Bool) (s : Int) (sel g : String)
    (rest : List String) (i : Int) (p : RetryParam) (trace : List Query)
    (hq : (env.GetRandomSatisfiedChannel trace
      ⟨g, p.ModelName, priorityRetryAt s i p, p.UsedChannelIds⟩).channel = none)
    (hlt : priorityRetryAt s i p < env.RetryTimes) :
    autoLoop env cross s sel (g :: rest) i p trace =
      ⟨Outcome.returned none sel none,
        { p with Ctx := { p.Ctx with ContextKeyAutoGroupIndex := some (CtxValue.int i) } },
        trace ++ [⟨g, p.ModelName, priorityRetryAt s i p, p.UsedChannelIds⟩]⟩ := by
  simp [autoLoop, hq, hlt]

/-- The registry has nothing and the tier budget is spent: the loop goes on with the
next index, the index persisted and the counter reset. -/
theorem autoLoop_none_move (env : Env) (cross : Bool) (s : Int) (sel g : String)
    (rest : List String) (i : Int) (p : RetryParam) (trace : List Query)
    (hq : (env.GetRandomSatisfiedChannel trace
      ⟨g, p.ModelName, priorityRetryAt s i p, p.UsedChannelIds⟩).channel = none)
    (hge : env.RetryTimes ≤ priorityRetryAt s i p) :
    autoLoop env cross s sel (g :: rest) i p trace =
      autoLoop env cross s sel rest (i + 1)
        ({ p with Ctx := { p.Ctx with
            ContextKeyAutoGroupIndex := some (CtxValue.int (i + 1)),
            ContextKeyAutoGroupRetryIndex := some (CtxValue.int 0) } }.SetRetry 0)
        (trace ++ [⟨g, p.ModelName, priorityRetryAt s i p, p.UsedChannelIds⟩]) := by
  have h : ¬ priorityRetryAt s i p < env.RetryTimes := not_lt.mpr hge
  simp [autoLoop, hq, h]

/-- The registry returns a backend at a spent tier budget with cross-group retry: the
loop returns it and hands over to the next group. -/
theorem autoLoop_match_handoff (env : Env) (s : Int) (sel g : String)
    (rest : List String) (i : Int) (p : RetryParam) (trace : List Query) (b : Channel)
    (hq : (env.GetRandomSatisfiedChannel trace
      ⟨g, p.ModelName, priorityRetryAt s i p, p.UsedChannelIds⟩).channel = some b)
    (hge : env.RetryTimes ≤ priorityRetryAt s i p) :
    autoLoop env true s sel (g :: rest) i p trace =
      ⟨Outcome.returned (some b) g none,
        { p with
          Ctx := { p.Ctx with
            ContextKeyAutoGroup := some (CtxValue.str g),
            ContextKeyAutoGroupIndex := some (CtxValue.int (i + 1)) },
          Retry := some 0,
          resetNextTry := true },
        trace ++ [⟨g, p.ModelName, priorityRetryAt s i p, p.UsedChannelIds⟩]⟩ := by
  simp [autoLoop, hq, hge, RetryParam.SetRetry, RetryParam.ResetRetryNextTry]

/-- The registry returns a backend and no hand-over is due: the loop returns it and
persists the current index. -/
theorem autoLoop_match_stay (env : Env) (cross : Bool) (s : Int) (sel g : String)
    (rest : List String) (i : Int) (p : RetryParam) (trace : List Query) (b : Channel)
    (hq : (env.GetRandomSatisfiedChannel trace
      ⟨g, p.ModelName, priorityRetryAt s i p, p.UsedChannelIds⟩).channel = some b)
    (hno : cross = false ∨ priorityRetryAt s i p < env.RetryTimes) :
    autoLoop env cross s sel (g :: rest) i p trace =
      ⟨Outcome.returned (some b) g none,
        { p with
          Ctx := { p.Ctx with
            ContextKeyAutoGroup := some (CtxValue.str g),
            ContextKeyAutoGroupIndex := some (CtxValue.int i) } },
        trace ++ [⟨g, p.ModelName, priorityRetryAt s i p, p.UsedChannelIds⟩]⟩ := by
  rcases hno with h | h
  · simp [autoLoop, hq, h]
  · have h2 : ¬ env.RetryTimes ≤ priorityRetryAt s i p := not_le.mpr h
    simp [autoLoop, hq, h2]

/-- The loop only appends to the trace. -/
theorem autoLoop_trace_extends (env : Env) (cross : Bool) (s : Int) (sel : String)
    (l : List String) :
    ∀ (i : Int) (p : RetryParam) (trace : List Query),
      ∃ more, (autoLoop env cross s sel l i p trace).trace = trace ++ more := by
  induction l with
  | nil => intro i p trace; exact ⟨[], by simp [autoLoop]⟩
  | cons g rest ih =>
    intro i p trace
    cases hq : (env.GetRandomSatisfiedChannel trace
      ⟨g, p.ModelName, priorityRetryAt s i p, p.UsedChannelIds⟩).channel with
    | none =>
      by_cases hlt : priorityRetryAt s i p < env.RetryTimes
      · exact ⟨_, by rw [autoLoop_none_stay env cross s sel g rest i p trace hq hlt]⟩
      · rw [autoLoop_none_move env cross s sel g rest i p trace hq (not_lt.mp hlt)]
        obtain ⟨more, hm⟩ := ih (i + 1) _ (trace ++
          [⟨g, p.ModelName, priorityRetryAt s i p, p.UsedChannelIds⟩])
        exact ⟨⟨g, p.ModelName, priorityRetryAt s i p, p.UsedChannelIds⟩ :: more, by
          rw [hm]; simp⟩
    | some b =>
      refine ⟨[⟨g, p.ModelName, priorityRetryAt s i p, p.UsedChannelIds⟩], ?_⟩
      simp only [autoLoop, hq]
      split <;> rfl

/-- An iteration starts with the registry query for its group. -/
theorem autoLoop_first_query (env : Env) (cross : Bool) (s : Int) (sel g : String)
    (rest : List String) (i : Int) (p : RetryParam) (trace : List Query) :
    ∃ more, (autoLoop env cross s sel (g :: rest) i p trace).trace
      = trace ++ ⟨g, p.ModelName, priorityRetryAt s i p, p.UsedChannelIds⟩ :: more := by
  cases hq : (env.GetRandomSatisfiedChannel trace
    ⟨g, p.ModelName, priorityRetryAt s i p, p.UsedChannelIds⟩).channel with
  | none =>
    by_cases hlt : priorityRetryAt s i p < env.RetryTimes
    · exact ⟨[], by rw [autoLoop_none_stay env cross s sel g rest i p trace hq hlt]⟩
    · rw [autoLoop_none_move env cross s sel g rest i p trace hq (not_lt.mp hlt)]
      obtain ⟨more, hm⟩ := autoLoop_trace_extends env cross s sel rest (i + 1)
        ({ p with Ctx := { p.Ctx with
            ContextKeyAutoGroupIndex := some (CtxValue.int (i + 1)),
            ContextKeyAutoGroupRetryIndex := some (CtxValue.int 0) } }.SetRetry 0)
        (trace ++ [⟨g, p.ModelName, priorityRetryAt s i p, p.UsedChannelIds⟩])
      exact ⟨more, by rw [hm]; simp⟩
  | some b =>
    refine ⟨[], ?_⟩
    simp only [autoLoop, hq]
    split <;> rfl

/-! ## C6: the example flow of the doc comment -/

/-- C6 as stated fails: groups GroupA and GroupB with two priorities each,
RetryTimes = 3, cross-group retry enabled, IncreaseRetry between calls.  The calls at
Retry = 0 and 1 select GroupA priority 0 and 1, but the call at Retry = 2 queries GroupA
at tier 2 only and returns (nil, "auto", nil); GroupB priority 0 is selected by the
fourth call (Retry = 3) and GroupB priority 1 by a fifth. -/
theorem C6_documented_flow_third_call_returns_none :
    outcomeOfRound envDocExample 0 freshAutoCross []
      = Outcome.returned (some ⟨0⟩) "GroupA" none ∧
    outcomeOfRound envDocExample 1 freshAutoCross []
      = Outcome.returned (some ⟨1⟩) "GroupA" none ∧
    (outerLoop envDocExample 2 freshAutoCross []).1.GetRetry = 2 ∧
    outcomeOfRound envDocExample 2 freshAutoCross []
      = Outcome.returned none "auto" none ∧
    outcomeOfRound envDocExample 3 freshAutoCross []
      = Outcome.returned (some ⟨0⟩) "GroupB" none ∧
    outcomeOfRound envDocExample 4 freshAutoCross []
      = Outcome.returned (some ⟨1⟩) "GroupB" none ∧
    (outerLoop envDocExample 5 freshAutoCross []).2
      = [⟨"GroupA", "gpt-4", 0, none⟩, ⟨"GroupA", "gpt-4", 1, none⟩,
         ⟨"GroupA", "gpt-4", 2, none⟩, ⟨"GroupA", "gpt-4", 3, none⟩,
         ⟨"GroupB", "gpt-4", 0, none⟩, ⟨"GroupB", "gpt-4", 1, none⟩] := by
  refine ⟨by decide, by decide, by decide, by decide, by decide, by decide, by decide⟩

/-! ## C7: hand-over when a backend is found at a spent tier budget -/

/-- C7: in the auto loop with cross-group retry enabled, at every group index i (the
start index or one reached by moving on): if the registry returns a backend b for
autoGroups[i] at priorityRetry and priorityRetry >= RetryTimes, the call returns
(b, autoGroups[i], nil), and afterwards the persisted ContextKeyAutoGroupIndex is i+1,
GetRetry() is 0 and resetNextTry is true.  The facts are stated for the loop entered at
index i; the last part says that a call starting at index i is that run of the loop. -/
theorem C7_handoff_on_match_at_spent_budget (env : Env) (s : Int) (autoGroups : List String)
    (i : Nat) (hi : i < autoGroups.length) (p : RetryParam) (trace : List Query) (b : Channel)
    (hb : (env.GetRandomSatisfiedChannel trace
      ⟨autoGroups[i], p.ModelName, priorityRetryAt s i p, p.UsedChannelIds⟩).channel = some b)
    (hge : env.RetryTimes ≤ priorityRetryAt s i p) :
    (autoLoop env true s "auto" (autoGroups.drop i) i p trace).outcome
      = Outcome.returned (some b) autoGroups[i] none ∧
    (autoLoop env true s "auto" (autoGroups.drop i) i p trace).param.Ctx.ContextKeyAutoGroupIndex
      = some (CtxValue.int (i + 1)) ∧
    (autoLoop env true s "auto" (autoGroups.drop i) i p trace).param.GetRetry = 0 ∧
    (autoLoop env true s "auto" (autoGroups.drop i) i p trace).param.resetNextTry = true ∧
    (p.TokenGroup = "auto" → env.GetAutoGroups ≠ [] →
      env.GetUserAutoGroup (GetContextKeyString p.Ctx.ContextKeyUserGroup) = autoGroups →
      GetContextKeyBool p.Ctx.ContextKeyTokenCrossGroupRetry = true →
      startGroupIndexOf p.Ctx = i → s = i →
      CacheGetRandomSatisfiedChannel env trace p
        = autoLoop env true s "auto" (autoGroups.drop i) i p trace) := by
  refine ⟨?_, ?_, ?_, ?_, ?_⟩
  · rw [List.drop_eq_getElem_cons hi,
      autoLoop_match_handoff env s "auto" autoGroups[i] _ i p trace b hb hge]
  · rw [List.drop_eq_getElem_cons hi,
      autoLoop_match_handoff env s "auto" autoGroups[i] _ i p trace b hb hge]
  · rw [List.drop_eq_getElem_cons hi,
      autoLoop_match_handoff env s "auto" autoGroups[i] _ i p trace b hb hge]
    rfl
  · rw [List.drop_eq_getElem_cons hi,
      autoLoop_match_handoff env s "auto" autoGroups[i] _ i p trace b hb hge]
  · intro hauto hen hseq hcross hstart hsi
    subst hsi
    rw [call_eq_autoLoop env trace p hauto hen (by omega), hstart, Int.toNat_ofNat, hseq,
      hcross]

/-- C7 on groups A, B with tier budget 0 and a fresh request: the call matches in A,
returns (backend 1, "A", nil) and hands over: index 1, retry 0, flag set. -/
theorem C7_handoff_on_match_witness :
    (CacheGetRandomSatisfiedChannel (envPair 0) [] freshAutoCross).outcome
      = Outcome.returned (some ⟨1⟩) "A" none ∧
    (CacheGetRandomSatisfiedChannel (envPair 0) [] freshAutoCross).param.Ctx.ContextKeyAutoGroupIndex
      = some (CtxValue.int ((0 : Nat) + 1)) ∧
    (CacheGetRandomSatisfiedChannel (envPair 0) [] freshAutoCross).param.GetRetry = 0 ∧
    (CacheGetRandomSatisfiedChannel (envPair 0) [] freshAutoCross).param.resetNextTry = true :=
  have h := C7_handoff_on_match_at_spent_budget (envPair 0) (0 : Nat) ["A", "B"] 0 (by decide)
    freshAutoCross [] ⟨1⟩ rfl (by decide)
  have hc := h.2.2.2.2 rfl (by decide) rfl rfl rfl rfl
  ⟨hc ▸ h.1, hc ▸ h.2.1, hc ▸ h.2.2.1, hc ▸ h.2.2.2.1⟩

/-! ## C8: the call after a hand-over -/

/-- C8: in the state a cross-group hand-over leaves (persisted index i+1, retry 0,
resetNextTry set), the next IncreaseRetry() leaves GetRetry() at 0 and clears the flag,
and the selector call that follows, when i+1 is below the sequence length, first
queries autoGroups[i+1] with tier argument 0. -/
theorem C8_call_after_handoff_probes_next_group_at_zero (env : Env) (trace : List Query)
    (p : RetryParam) (i : Nat)
    (hauto : p.TokenGroup = "auto") (hen : env.GetAutoGroups ≠ [])
    (hidx : p.Ctx.ContextKeyAutoGroupIndex = some (CtxValue.int (i + 1)))
    (hretry : p.GetRetry = 0) (hflag : p.resetNextTry = true) :
    p.IncreaseRetry.GetRetry = 0 ∧
    p.IncreaseRetry.resetNextTry = false ∧
    ∀ h : i + 1 < (env.GetUserAutoGroup (GetContextKeyString p.Ctx.ContextKeyUserGroup)).length,
      ∃ more, (CacheGetRandomSatisfiedChannel env trace p.IncreaseRetry).trace
        = trace ++ ⟨(env.GetUserAutoGroup (GetContextKeyString p.Ctx.ContextKeyUserGroup))[i + 1],
            p.ModelName, 0, p.UsedChannelIds⟩ :: more := by
  have hinc : p.IncreaseRetry = { p with resetNextTry := false } := by
    simp [RetryParam.IncreaseRetry, hflag]
  have key : ∀ p2 : RetryParam, p2.Ctx = p.Ctx → p2.TokenGroup = "auto" →
      p2.ModelName = p.ModelName → p2.UsedChannelIds = p.UsedChannelIds → p2.GetRetry = 0 →
      ∀ h : i + 1 < (env.GetUserAutoGroup (GetContextKeyString p.Ctx.ContextKeyUserGroup)).length,
      ∃ more, (CacheGetRandomSatisfiedChannel env trace p2).trace
        = trace ++ ⟨(env.GetUserAutoGroup (GetContextKeyString p.Ctx.ContextKeyUserGroup))[i + 1],
            p.ModelName, 0, p.UsedChannelIds⟩ :: more := by
    intro p2 hctx ha hm hu hr h
    have hs : startGroupIndexOf p2.Ctx = ((i + 1 : Nat) : Int) := by
      rw [hctx, startGroupIndexOf_int _ ((i : Int) + 1) hidx]; simp
    rw [call_eq_autoLoop env trace p2 ha hen (by rw [hs]; exact Int.natCast_nonneg _),
      hs, Int.toNat_ofNat, hctx, List.drop_eq_getElem_cons h]
    obtain ⟨more, hmore⟩ := autoLoop_first_query env
      (GetContextKeyBool p.Ctx.ContextKeyTokenCrossGroupRetry) ((i + 1 : Nat) : Int) "auto"
      ((env.GetUserAutoGroup (GetContextKeyString p.Ctx.ContextKeyUserGroup))[i + 1])
      ((env.GetUserAutoGroup (GetContextKeyString p.Ctx.ContextKeyUserGroup)).drop (i + 1 + 1))
      ((i + 1 : Nat) : Int) p2 trace
    refine ⟨more, ?_⟩
    rw [hmore]
    simp [priorityRetryAt, hr, hm, hu]
  refine ⟨by rw [hinc]; exact hretry, by rw [hinc], ?_⟩
  exact key p.IncreaseRetry (by rw [hinc]) (by rw [hinc]; exact hauto) (by rw [hinc])
    (by rw [hinc]) (by rw [hinc]; exact hretry)

/-- C8 after a real hand-over: the first call on groups A, B with tier budget 0 matches
in A and hands over; IncreaseRetry is absorbed and the next call first queries B at
tier 0. -/
theorem C8_call_after_handoff_witness :
    (CacheGetRandomSatisfiedChannel (envPair 0) [] freshAutoCross).param.IncreaseRetry.GetRetry
      = 0 ∧
    (CacheGetRandomSatisfiedChannel (envPair 0) [] freshAutoCross).param.IncreaseRetry.resetNextTry
      = false ∧
    ∃ more, (CacheGetRandomSatisfiedChannel (envPair 0) [⟨"A", "gpt-4", 0, none⟩]
        (CacheGetRandomSatisfiedChannel (envPair 0) [] freshAutoCross).param.IncreaseRetry).trace
      = [⟨"A", "gpt-4", 0, none⟩] ++ (⟨"B", "gpt-4", 0, none⟩ : Query) :: more :=
  have h := C8_call_after_handoff_probes_next_group_at_zero (envPair 0)
    [⟨"A", "gpt-4", 0, none⟩] (CacheGetRandomSatisfiedChannel (envPair 0) [] freshAutoCross).param
    0 rfl (by decide) rfl rfl rfl
  ⟨h.1, h.2.1, h.2.2 (by decide)⟩

/-! ## C9: moving on when the tier budget of a group is spent -/

/-- C9: in the auto loop, at every group index i at which the registry returns none with
priorityRetry >= RetryTimes: the same invocation goes on with index i+1 in the state
`movedOn p i`, in which the persisted ContextKeyAutoGroupIndex is i+1 and the retry
counter is 0; when i+1 is below the sequence length its next registry query is for
autoGroups[i+1] with tier argument 0, made without returning to the caller; when i+1
equals the sequence length the call returns (nil, "auto", nil) in that state.  The
facts are stated for the loop entered at index i; the last part says that a call
starting at index i is that run of the loop. -/
theorem C9_move_on_when_budget_spent (env : Env) (cross : Bool) (s : Int)
    (autoGroups : List String) (i : Nat) (hi : i < autoGroups.length) (p : RetryParam)
    (trace : List Query)
    (hq : (env.GetRandomSatisfiedChannel trace
      ⟨autoGroups[i], p.ModelName, priorityRetryAt s i p, p.UsedChannelIds⟩).channel = none)
    (hge : env.RetryTimes ≤ priorityRetryAt s i p) :
    autoLoop env cross s "auto" (autoGroups.drop i) i p trace
      = autoLoop env cross s "auto" (autoGroups.drop (i + 1)) ((i : Int) + 1) (movedOn p i)
          (trace ++ [⟨autoGroups[i], p.ModelName, priorityRetryAt s i p, p.UsedChannelIds⟩]) ∧
    (movedOn p i).Ctx.ContextKeyAutoGroupIndex = some (CtxValue.int (i + 1)) ∧
    (movedOn p i).GetRetry = 0 ∧
    (∀ h : i + 1 < autoGroups.length,
      ∃ more, (autoLoop env cross s "auto" (autoGroups.drop i) i p trace).trace
        = trace ++ ⟨autoGroups[i], p.ModelName, priorityRetryAt s i p, p.UsedChannelIds⟩
            :: ⟨autoGroups[i + 1], p.ModelName, 0, p.UsedChannelIds⟩ :: more) ∧
    (i + 1 = autoGroups.length →
      autoLoop env cross s "auto" (autoGroups.drop i) i p trace
        = ⟨Outcome.returned none "auto" none, movedOn p i,
            trace ++ [⟨autoGroups[i], p.ModelName, priorityRetryAt s i p, p.UsedChannelIds⟩]⟩) ∧
    (p.TokenGroup = "auto" → env.GetAutoGroups ≠ [] →
      env.GetUserAutoGroup (GetContextKeyString p.Ctx.ContextKeyUserGroup) = autoGroups →
      GetContextKeyBool p.Ctx.ContextKeyTokenCrossGroupRetry = cross →
      startGroupIndexOf p.Ctx = i → s = i →
      CacheGetRandomSatisfiedChannel env trace p
        = autoLoop env cross s "auto" (autoGroups.drop i) i p trace) := by
  have hstep : autoLoop env cross s "auto" (autoGroups.drop i) i p trace
      = autoLoop env cross s "auto" (autoGroups.drop (i + 1)) ((i : Int) + 1) (movedOn p i)
          (trace ++ [⟨autoGroups[i], p.ModelName, priorityRetryAt s i p, p.UsedChannelIds⟩]) := by
    rw [List.drop_eq_getElem_cons hi,
      autoLoop_none_move env cross s "auto" autoGroups[i] _ i p trace hq hge]
    rfl
  have hr : (movedOn p i).GetRetry = 0 := rfl
  refine ⟨hstep, rfl, hr, ?_, ?_, ?_⟩
  · intro h
    rw [hstep, List.drop_eq_getElem_cons h]
    obtain ⟨more, hm⟩ := autoLoop_first_query env cross s "auto" autoGroups[i + 1]
      (autoGroups.drop (i + 1 + 1)) ((i : Int) + 1) (movedOn p i)
      (trace ++ [⟨autoGroups[i], p.ModelName, priorityRetryAt s i p, p.UsedChannelIds⟩])
    refine ⟨more, ?_⟩
    rw [hm]
    have h0 : priorityRetryAt s ((i : Int) + 1) (movedOn p i) = 0 := by
      simp [priorityRetryAt, hr]
    rw [h0]
    simp [movedOn, RetryParam.SetRetry]
  · intro h
    rw [hstep, List.drop_of_length_le (by omega)]
    rfl
  · intro hauto hen hseq hcross hstart hsi
    subst hsi
    rw [call_eq_autoLoop env trace p hauto hen (by omega), hstart, Int.toNat_ofNat, hseq,
      hcross]

/-- C9 on a fresh request with one empty group A and tier budget 0: the call moves past
A, the sequence is over and the call returns (nil, "auto", nil) with index 1, retry 0. -/
theorem C9_move_on_witness :
    CacheGetRandomSatisfiedChannel (envAllNone 0 ["A"]) [] freshAuto
      = ⟨Outcome.returned none "auto" none, movedOn freshAuto (0 : Nat),
          [] ++ [⟨"A", "gpt-4", 0, none⟩]⟩ :=
  have h := C9_move_on_when_budget_spent (envAllNone 0 ["A"]) false (0 : Nat) ["A"] 0
    (by decide) freshAuto [] rfl (by decide)
  (h.2.2.2.2.2 rfl (by decide) rfl rfl rfl rfl).trans (h.2.2.2.2.1 rfl)

/-! ## C10: staying in the group while tiers remain -/

/-- C10: in the auto loop, at every group index i at which the registry returns none
with priorityRetry < RetryTimes: the call makes no further registry query, persists
ContextKeyAutoGroupIndex = i and returns (nil, "auto", nil), all else as it was when the
loop reached i; for the call that starts at index i this means that the retry counter,
the used set, the priority index and the deferred flag of the RetryParam are unchanged. -/
theorem C10_stay_in_group_while_tiers_remain (env : Env) (cross : Bool) (s : Int)
    (autoGroups : List String) (i : Nat) (hi : i < autoGroups.length) (p : RetryParam)
    (trace : List Query)
    (hq : (env.GetRandomSatisfiedChannel trace
      ⟨autoGroups[i], p.ModelName, priorityRetryAt s i p, p.UsedChannelIds⟩).channel = none)
    (hlt : priorityRetryAt s i p < env.RetryTimes) :
    autoLoop env cross s "auto" (autoGroups.drop i) i p trace
      = ⟨Outcome.returned none "auto" none,
          { p with Ctx := { p.Ctx with ContextKeyAutoGroupIndex := some (CtxValue.int i) } },
          trace ++ [⟨autoGroups[i], p.ModelName, priorityRetryAt s i p, p.UsedChannelIds⟩]⟩ ∧
    (p.TokenGroup = "auto" → env.GetAutoGroups ≠ [] →
      env.GetUserAutoGroup (GetContextKeyString p.Ctx.ContextKeyUserGroup) = autoGroups →
      startGroupIndexOf p.Ctx = i → s = i →
      (CacheGetRandomSatisfiedChannel env trace p).outcome = Outcome.returned none "auto" none ∧
      (CacheGetRandomSatisfiedChannel env trace p).trace
        = trace ++ [⟨autoGroups[i], p.ModelName, p.GetRetry, p.UsedChannelIds⟩] ∧
      (CacheGetRandomSatisfiedChannel env trace p).param.Ctx.ContextKeyAutoGroupIndex
        = some (CtxValue.int i) ∧
      (CacheGetRandomSatisfiedChannel env trace p).param.Retry = p.Retry ∧
      (CacheGetRandomSatisfiedChannel env trace p).param.UsedChannelIds = p.UsedChannelIds ∧
      (CacheGetRandomSatisfiedChannel env trace p).param.CurrentPriorityIndex
        = p.CurrentPriorityIndex ∧
      (CacheGetRandomSatisfiedChannel env trace p).param.resetNextTry = p.resetNextTry) := by
  have hloop : ∀ c : Bool, autoLoop env c s "auto" (autoGroups.drop i) i p trace
      = ⟨Outcome.returned none "auto" none,
          { p with Ctx := { p.Ctx with ContextKeyAutoGroupIndex := some (CtxValue.int i) } },
          trace ++ [⟨autoGroups[i], p.ModelName, priorityRetryAt s i p, p.UsedChannelIds⟩]⟩ := by
    intro c
    rw [List.drop_eq_getElem_cons hi,
      autoLoop_none_stay env c s "auto" autoGroups[i] _ i p trace hq hlt]
  refine ⟨hloop cross, ?_⟩
  intro hauto hen hseq hstart hsi
  subst hsi
  have hpr : priorityRetryAt (i : Int) i p = p.GetRetry := by
    simp [priorityRetryAt]
  rw [call_eq_autoLoop env trace p hauto hen (by omega), hstart, Int.toNat_ofNat, hseq,
    hloop, hpr]
  simp

/-- C10 on a fresh request with one empty group and tier budget 1: the call returns
(nil, "auto", nil) after one query and leaves the counter unset. -/
theorem C10_stay_in_group_witness :
    (CacheGetRandomSatisfiedChannel (envAllNone 1 ["A"]) [] freshAuto).outcome
      = Outcome.returned none "auto" none ∧
    (CacheGetRandomSatisfiedChannel (envAllNone 1 ["A"]) [] freshAuto).trace
      = [] ++ [⟨"A", "gpt-4", 0, none⟩] ∧
    (CacheGetRandomSatisfiedChannel (envAllNone 1 ["A"]) [] freshAuto).param.Retry = none :=
  have h := (C10_stay_in_group_while_tiers_remain (envAllNone 1 ["A"]) false 0 ["A"] 0
    (by decide) freshAuto [] rfl (by decide)).2 rfl (by decide) rfl rfl rfl
  ⟨h.1, h.2.1, h.2.2.2.1⟩

/-! ## Rounds of the outer loop against an empty registry -/

/-- A round below the tier budget: one query for the current group and tier, and the
request stays in the group with the counter one higher. -/
theorem round_stay (env : Env) (ug : Option CtxValue) (m : String) (u : Option (Finset Int))
    (groups : List String) (T : Nat)
    (hnone : ∀ tr q, (env.GetRandomSatisfiedChannel tr q).channel = none)
    (hen : env.GetAutoGroups ≠ [])
    (hres : env.GetUserAutoGroup (GetContextKeyString ug) = groups)
    (hT : env.RetryTimes = (T : Int))
    (j r : Nat) (g : String) (rest : List String) (p : RetryParam) (trace : List Query)
    (hp : AtTier ug m u j r p) (hd : groups.drop j = g :: rest) (hr : r < T) :
    (CacheGetRandomSatisfiedChannel env trace p).trace = trace ++ [⟨g, m, (r : Int), u⟩] ∧
    AtTier ug m u j (r + 1) (CacheGetRandomSatisfiedChannel env trace p).param.IncreaseRetry := by
  obtain ⟨ha, hug, hs, hret, hfl, hm, hu⟩ := hp
  have hpr : priorityRetryAt (j : Int) (j : Int) p = (r : Int) := by
    simp [priorityRetryAt, hret]
  have hlt : priorityRetryAt (j : Int) (j : Int) p < env.RetryTimes := by
    rw [hpr, hT]; exact_mod_cast hr
  rw [call_eq_autoLoop env trace p ha hen (by omega), hs, Int.toNat_ofNat, hug, hres, hd,
    autoLoop_none_stay env _ (j : Int) "auto" g rest (j : Int) p trace (hnone _ _) hlt, hpr]
  refine ⟨by rw [hm, hu], ?_⟩
  have hw : wrapInt ((r : Int) + 1) = (r : Int) + 1 :=
    wrapInt_eq_self _ (by omega) (by have := env.RetryTimesIsInt; omega)
  change AtTier ug m u j (r + 1) (keptAt p (j : Int)).IncreaseRetry
  rw [IncreaseRetry_of_clear _ (show (keptAt p (j : Int)).resetNextTry = false from hfl)]
  refine ⟨ha, hug, rfl, ?_, hfl, hm, hu⟩
  show wrapInt (p.GetRetry + 1) = ((r + 1 : Nat) : Int)
  rw [hret, hw]
  push_cast
  rfl

/-- A round at the tier budget with a further group in the sequence: the call queries
the current group at tier T, moves on, queries the next group at tier 0 and returns;
the request then sits in the next group with counter 1. -/
theorem round_move (env : Env) (ug : Option CtxValue) (m : String) (u : Option (Finset Int))
    (groups : List String) (T : Nat)
    (hnone : ∀ tr q, (env.GetRandomSatisfiedChannel tr q).channel = none)
    (hen : env.GetAutoGroups ≠ [])
    (hres : env.GetUserAutoGroup (GetContextKeyString ug) = groups)
    (hT : env.RetryTimes = (T : Int)) (hT1 : 1 ≤ T)
    (j : Nat) (g g2 : String) (rest : List String) (p : RetryParam) (trace : List Query)
    (hp : AtTier ug m u j T p) (hd : groups.drop j = g :: g2 :: rest) :
    (CacheGetRandomSatisfiedChannel env trace p).trace
      = trace ++ [⟨g, m, (T : Int), u⟩, ⟨g2, m, 0, u⟩] ∧
    AtTier ug m u (j + 1) 1 (CacheGetRandomSatisfiedChannel env trace p).param.IncreaseRetry := by
  obtain ⟨ha, hug, hs, hret, hfl, hm, hu⟩ := hp
  have hpr : priorityRetryAt (j : Int) (j : Int) p = (T : Int) := by
    simp [priorityRetryAt, hret]
  have hge : env.RetryTimes ≤ priorityRetryAt (j : Int) (j : Int) p := by
    rw [hpr, hT]
  have hpr2 : priorityRetryAt (j : Int) ((j : Int) + 1) (movedOn p (j : Int)) = 0 := by
    simp [priorityRetryAt]
  have hlt2 : priorityRetryAt (j : Int) ((j : Int) + 1) (movedOn p (j : Int)) < env.RetryTimes := by
    rw [hpr2, hT]; exact_mod_cast hT1
  rw [call_eq_autoLoop env trace p ha hen (by omega), hs, Int.toNat_ofNat, hug, hres, hd,
    autoLoop_none_move env _ (j : Int) "auto" g (g2 :: rest) (j : Int) p trace (hnone _ _) hge]
  change (autoLoop env _ (j : Int) "auto" (g2 :: rest) ((j : Int) + 1) (movedOn p (j : Int))
      _).trace = _ ∧
    AtTier ug m u (j + 1) 1 (autoLoop env _ (j : Int) "auto" (g2 :: rest) ((j : Int) + 1)
      (movedOn p (j : Int)) _).param.IncreaseRetry
  rw [autoLoop_none_stay env _ (j : Int) "auto" g2 rest ((j : Int) + 1) (movedOn p (j : Int)) _
    (hnone _ _) hlt2, hpr, hpr2]
  refine ⟨by simp [movedOn, RetryParam.SetRetry, hm, hu], ?_⟩
  change AtTier ug m u (j + 1) 1 (keptAt (movedOn p (j : Int)) ((j : Int) + 1)).IncreaseRetry
  rw [IncreaseRetry_of_clear _
    (show (keptAt (movedOn p (j : Int)) ((j : Int) + 1)).resetNextTry = false from hfl)]
  refine ⟨ha, hug, ?_, ?_, hfl, hm, hu⟩
  · show ((j : Int) + 1) = ((j + 1 : Nat) : Int)
    push_cast
    rfl
  · show wrapInt ((0 : Int) + 1) = ((1 : Nat) : Int)
    decide

/-- A round at the tier budget in the last group: the call queries it at tier T, moves
past the end of the sequence and returns with the persisted index equal to the length. -/
theorem round_last (env : Env) (ug : Option CtxValue) (m : String) (u : Option (Finset Int))
    (groups : List String) (T : Nat)
    (hnone : ∀ tr q, (env.GetRandomSatisfiedChannel tr q).channel = none)
    (hen : env.GetAutoGroups ≠ [])
    (hres : env.GetUserAutoGroup (GetContextKeyString ug) = groups)
    (hT : env.RetryTimes = (T : Int))
    (j : Nat) (g : String) (p : RetryParam) (trace : List Query)
    (hp : AtTier ug m u j T p) (hd : groups.drop j = [g]) :
    (CacheGetRandomSatisfiedChannel env trace p).trace = trace ++ [⟨g, m, (T : Int), u⟩] ∧
    startGroupIndexOf (CacheGetRandomSatisfiedChannel env trace p).param.IncreaseRetry.Ctx
      = ((j + 1 : Nat) : Int) := by
  obtain ⟨ha, hug, hs, hret, hfl, hm, hu⟩ := hp
  have hpr : priorityRetryAt (j : Int) (j : Int) p = (T : Int) := by
    simp [priorityRetryAt, hret]
  have hge : env.RetryTimes ≤ priorityRetryAt (j : Int) (j : Int) p := by
    rw [hpr, hT]
  rw [call_eq_autoLoop env trace p ha hen (by omega), hs, Int.toNat_ofNat, hug, hres, hd,
    autoLoop_none_move env _ (j : Int) "auto" g [] (j : Int) p trace (hnone _ _) hge, hpr]
  simp [autoLoop, RetryParam.SetRetry, RetryParam.IncreaseRetry, hfl, hm, hu, startGroupIndexOf]

theorem startGroupIndexOf_eq_of_ne_zero (ctx : Context) (n : Int)
    (h : startGroupIndexOf ctx = n) (hn : n ≠ 0) :
    ctx.ContextKeyAutoGroupIndex = some (CtxValue.int n) := by
  unfold startGroupIndexOf at h
  split at h
  · next idx hidx => rw [hidx, h]
  · exact absurd h.symm hn

theorem tierQueries_eq_cons (m : String) (u : Option (Finset Int)) (T : Nat) (g : String) :
    tierQueries m u T g
      = ⟨g, m, 0, u⟩ :: (List.range' 1 T).map (fun (t : Nat) => (⟨g, m, (t : Int), u⟩ : Query)) := by
  simp [tierQueries, List.range_eq_range', List.range'_succ]

theorem length_tierQueries (m : String) (u : Option (Finset Int)) (T : Nat) (g : String) :
    (tierQueries m u T g).length = T + 1 := by
  simp [tierQueries]

theorem length_flatMap_tierQueries (m : String) (u : Option (Finset Int)) (T : Nat)
    (l : List String) :
    (l.flatMap (tierQueries m u T)).length = l.length * (T + 1) := by
  induction l with
  | nil => simp
  | cons g rest ih =>
    rw [List.flatMap_cons, List.length_append, ih, length_tierQueries, List.length_cons,
      Nat.succ_mul]
    omega

/-- Against a registry with nothing to offer, a request sitting in group `j` at tier `r`
needs `(T - r) + (groups after j) * T + 1` rounds to run through the sequence, and its
queries in these rounds are the tiers `r..T` of group `j` followed by the tiers `0..T` of
every later group. -/
theorem outerLoop_all_none (env : Env) (ug : Option CtxValue) (m : String)
    (u : Option (Finset Int)) (groups : List String) (T : Nat)
    (hnone : ∀ tr q, (env.GetRandomSatisfiedChannel tr q).channel = none)
    (hen : env.GetAutoGroups ≠ [])
    (hres : env.GetUserAutoGroup (GetContextKeyString ug) = groups)
    (hT : env.RetryTimes = (T : Int)) (hT1 : 1 ≤ T) :
    ∀ (n j r e : Nat) (g : String) (rest : List String) (p : RetryParam) (trace : List Query),
      AtTier ug m u j r p → groups.drop j = g :: rest → r + e = T →
      n = e + rest.length * T →
      (outerLoop env (n + 1) p trace).2
        = trace ++ ((List.range' r (e + 1)).map (fun (t : Nat) => (⟨g, m, (t : Int), u⟩ : Query))
            ++ rest.flatMap (tierQueries m u T)) ∧
      startGroupIndexOf (outerLoop env (n + 1) p trace).1.Ctx = (groups.length : Int) ∧
      ∀ k, k ≤ n → startGroupIndexOf (outerLoop env k p trace).1.Ctx < (groups.length : Int) := by
  intro n
  induction n with
  | zero =>
    intro j r e g rest p trace hp hd hre hn
    have he : e = 0 := by omega
    have hrest : rest = [] := by
      cases rest with
      | nil => rfl
      | cons a l =>
        exfalso
        rw [List.length_cons, Nat.succ_mul] at hn
        omega
    subst he hrest
    have hrT : r = T := by omega
    subst hrT
    have hlen : groups.length = j + 1 := by
      have := congrArg List.length hd
      simp at this
      omega
    obtain ⟨h1, h2⟩ := round_last env ug m u groups r hnone hen hres hT j g p trace hp hd
    refine ⟨?_, ?_, ?_⟩
    · simp [outerLoop, h1]
    · simp only [outerLoop]
      rw [h2, hlen]
    · intro k hk
      have hk0 : k = 0 := by omega
      subst hk0
      simp only [outerLoop]
      rw [hp.2.2.1, hlen]
      push_cast
      omega
  | succ n ih =>
    intro j r e g rest p trace hp hd hre hn
    have hjlt : j < groups.length := by
      by_contra hcon
      rw [List.drop_of_length_le (by omega)] at hd
      exact absurd hd (by simp)
    have hk0 : startGroupIndexOf (outerLoop env 0 p trace).1.Ctx < (groups.length : Int) := by
      simp only [outerLoop]
      rw [hp.2.2.1]
      exact_mod_cast hjlt
    cases e with
    | succ e2 =>
      obtain ⟨h1, h2⟩ := round_stay env ug m u groups T hnone hen hres hT j r g rest p trace
        hp hd (by omega)
      obtain ⟨i1, i2, i3⟩ := ih j (r + 1) e2 g rest _
        (CacheGetRandomSatisfiedChannel env trace p).trace h2 hd (by omega) (by omega)
      refine ⟨?_, ?_, ?_⟩
      · rw [outerLoop, i1, h1, List.range'_succ r (e2 + 1)]
        simp
      · rw [outerLoop, i2]
      · intro k hk
        cases k with
        | zero => exact hk0
        | succ k2 =>
          rw [outerLoop]
          exact i3 k2 (by omega)
    | zero =>
      have hrT : r = T := by omega
      subst hrT
      cases rest with
      | nil => simp at hn
      | cons g2 rest2 =>
        rw [List.length_cons, Nat.succ_mul] at hn
        have hd2 : groups.drop (j + 1) = g2 :: rest2 := by
          have := congrArg List.tail hd
          simpa using this
        obtain ⟨h1, h2⟩ := round_move env ug m u groups r hnone hen hres hT hT1 j g g2 rest2
          p trace hp hd
        obtain ⟨i1, i2, i3⟩ := ih (j + 1) 1 (r - 1) g2 rest2 _
          (CacheGetRandomSatisfiedChannel env trace p).trace h2 hd2 (by omega) (by omega)
        refine ⟨?_, ?_, ?_⟩
        · rw [outerLoop, i1, h1, List.flatMap_cons, tierQueries_eq_cons,
            show r - 1 + 1 = r by omega]
          simp [List.range'_succ]
        · rw [outerLoop, i2]
        · intro k hk
          cases k with
          | zero => exact hk0
          | succ k2 =>
            rw [outerLoop]
            exact i3 k2 (by omega)

/-! ## C5: the number of registry queries until every group is exhausted -/

/-- C5 as stated fails: one group A (L = 1), tier budget T = 1, empty registry, fresh
request.  After the first round the persisted index is still below 1; it reaches 1 in the
second round, and by then A has been queried at the two tiers 0 and 1: two queries,
more than L * T = 1. -/
theorem C5_single_group_needs_two_queries :
    startGroupIndexOf (outerLoop (envAllNone 1 ["A"]) 1 freshAuto []).1.Ctx = 0 ∧
    (outerLoop (envAllNone 1 ["A"]) 2 freshAuto []).1.Ctx.ContextKeyAutoGroupIndex
      = some (CtxValue.int 1) ∧
    (outerLoop (envAllNone 1 ["A"]) 2 freshAuto []).2
      = [⟨"A", "gpt-4", 0, none⟩, ⟨"A", "gpt-4", 1, none⟩] ∧
    ¬ ((outerLoop (envAllNone 1 ["A"]) 2 freshAuto []).2.length ≤ ["A"].length * 1) := by
  refine ⟨by decide, by decide, by decide, by decide⟩

/-- C5 (amended): auto mode, resolved sequence `groups` of length L >= 1, tier budget
T = RetryTimes >= 1, a fresh request (retry 0, no persisted index, deferred flag clear), a
registry that returns none for every query and an outer loop that calls IncreaseRetry
after each call.  The persisted autoGroupIndex is below L after each of the first L * T
rounds and equals L after round L * T + 1; the registry queries made until then are, for
each group in sequence order, its tiers 0, 1, ..., T in ascending order: exactly
L * (T + 1) queries, each group being probed at exactly T + 1 tier values. -/
theorem C5_queries_until_all_groups_exhausted (env : Env) (T : Nat) (groups : List String)
    (p : RetryParam) (trace : List Query)
    (hT : env.RetryTimes = (T : Int)) (hT1 : 1 ≤ T)
    (hauto : p.TokenGroup = "auto") (hen : env.GetAutoGroups ≠ [])
    (hres : env.GetUserAutoGroup (GetContextKeyString p.Ctx.ContextKeyUserGroup) = groups)
    (hL : 1 ≤ groups.length)
    (hretry : p.GetRetry = 0) (hidx : p.Ctx.ContextKeyAutoGroupIndex = none)
    (hflag : p.resetNextTry = false)
    (hnone : ∀ tr q, (env.GetRandomSatisfiedChannel tr q).channel = none) :
    (∀ k, k ≤ groups.length * T →
      startGroupIndexOf (outerLoop env k p trace).1.Ctx < (groups.length : Int)) ∧
    (outerLoop env (groups.length * T + 1) p trace).1.Ctx.ContextKeyAutoGroupIndex
      = some (CtxValue.int groups.length) ∧
    (outerLoop env (groups.length * T + 1) p trace).2
      = trace ++ groups.flatMap (tierQueries p.ModelName p.UsedChannelIds T) ∧
    (outerLoop env (groups.length * T + 1) p trace).2.length
      = trace.length + groups.length * (T + 1) := by
  cases hg : groups with
  | nil => rw [hg] at hL; simp at hL
  | cons g rest =>
    have hp : AtTier p.Ctx.ContextKeyUserGroup p.ModelName p.UsedChannelIds 0 0 p :=
      ⟨hauto, rfl, by rw [startGroupIndexOf_none _ hidx]; rfl, by rw [hretry]; rfl, hflag,
        rfl, rfl⟩
    have hn : (g :: rest).length * T = T + rest.length * T := by
      rw [List.length_cons, Nat.succ_mul]; omega
    obtain ⟨h1, h2, h3⟩ := outerLoop_all_none env p.Ctx.ContextKeyUserGroup p.ModelName
      p.UsedChannelIds groups T hnone hen hres hT hT1 (T + rest.length * T) 0 0 T g rest p trace
      hp (by rw [hg]; rfl) (by omega) rfl
    rw [hg] at h2 h3
    rw [hn]
    have htr : (outerLoop env (T + rest.length * T + 1) p trace).2
        = trace ++ (g :: rest).flatMap (tierQueries p.ModelName p.UsedChannelIds T) := by
      rw [h1, List.flatMap_cons]
      simp [tierQueries, List.range_eq_range']
    refine ⟨h3, ?_, htr, ?_⟩
    · exact startGroupIndexOf_eq_of_ne_zero _ _ h2 (by simp; omega)
    · rw [htr, List.length_append, length_flatMap_tierQueries]

/-- The amended C5 on groups A, B with tier budget 1: index 2 is reached in round 3,
after the 4 queries A0, A1, B0, B1. -/
theorem C5_queries_until_all_groups_exhausted_witness :
    (outerLoop (envAllNone 1 ["A", "B"]) (["A", "B"].length * 1 + 1) freshAuto
        []).1.Ctx.ContextKeyAutoGroupIndex = some (CtxValue.int (["A", "B"].length)) ∧
    (outerLoop (envAllNone 1 ["A", "B"]) (["A", "B"].length * 1 + 1) freshAuto []).2.length
      = ([] : List Query).length + ["A", "B"].length * (1 + 1) :=
  have h := C5_queries_until_all_groups_exhausted (envAllNone 1 ["A", "B"]) 1 ["A", "B"]
    freshAuto [] rfl (by decide) rfl (by decide) rfl (by decide) rfl rfl rfl (fun _ _ => rfl)
  ⟨h.2.1, h.2.2.2⟩

/-! ## C11: a match without hand-over -/

/-- C11: in the auto loop, at every group index i (the start index or one reached by
moving on) at which the registry returns a backend b: when cross-group retry is disabled
or priorityRetry < RetryTimes, the call returns (b, autoGroups[i], nil) after that query,
the persisted ContextKeyAutoGroupIndex is i, and the retry counter and the
deferred-increment flag are as they were when the loop reached i.  The facts are stated
for the loop entered at index i; the last part says that a call starting at index i is
that run of the loop. -/
theorem C11_match_stays_in_group (env : Env) (cross : Bool) (s : Int)
    (autoGroups : List String) (i : Nat) (hi : i < autoGroups.length) (p : RetryParam)
    (trace : List Query) (b : Channel)
    (hb : (env.GetRandomSatisfiedChannel trace
      ⟨autoGroups[i], p.ModelName, priorityRetryAt s i p, p.UsedChannelIds⟩).channel = some b)
    (hno : cross = false ∨ priorityRetryAt s i p < env.RetryTimes) :
    (autoLoop env cross s "auto" (autoGroups.drop i) i p trace).outcome
      = Outcome.returned (some b) autoGroups[i] none ∧
    (autoLoop env cross s "auto" (autoGroups.drop i) i p trace).param.Ctx.ContextKeyAutoGroupIndex
      = some (CtxValue.int i) ∧
    (autoLoop env cross s "auto" (autoGroups.drop i) i p trace).param.Retry = p.Retry ∧
    (autoLoop env cross s "auto" (autoGroups.drop i) i p trace).param.resetNextTry
      = p.resetNextTry ∧
    (autoLoop env cross s "auto" (autoGroups.drop i) i p trace).trace
      = trace ++ [⟨autoGroups[i], p.ModelName, priorityRetryAt s i p, p.UsedChannelIds⟩] ∧
    (p.TokenGroup = "auto" → env.GetAutoGroups ≠ [] →
      env.GetUserAutoGroup (GetContextKeyString p.Ctx.ContextKeyUserGroup) = autoGroups →
      GetContextKeyBool p.Ctx.ContextKeyTokenCrossGroupRetry = cross →
      startGroupIndexOf p.Ctx = i → s = i →
      CacheGetRandomSatisfiedChannel env trace p
        = autoLoop env cross s "auto" (autoGroups.drop i) i p trace) := by
  have hloop := autoLoop_match_stay env cross s "auto" autoGroups[i]
    (autoGroups.drop (i + 1)) i p trace b hb hno
  rw [List.drop_eq_getElem_cons hi, hloop]
  refine ⟨rfl, rfl, rfl, rfl, rfl, ?_⟩
  intro hauto hen hseq hcross hstart hsi
  subst hsi
  rw [call_eq_autoLoop env trace p hauto hen (by omega), hstart, Int.toNat_ofNat, hseq,
    hcross, List.drop_eq_getElem_cons hi, hloop]

/-- C11 on groups A, B with tier budget 1 and a fresh request: the call returns
(backend 1, "A", nil), persists index 0 and leaves the counter unset and the flag clear. -/
theorem C11_match_stays_in_group_witness :
    (CacheGetRandomSatisfiedChannel (envPair 1) [] freshAutoCross).outcome
      = Outcome.returned (some ⟨1⟩) "A" none ∧
    (CacheGetRandomSatisfiedChannel (envPair 1) [] freshAutoCross).param.Ctx.ContextKeyAutoGroupIndex
      = some (CtxValue.int (0 : Nat)) ∧
    (CacheGetRandomSatisfiedChannel (envPair 1) [] freshAutoCross).param.Retry = none ∧
    (CacheGetRandomSatisfiedChannel (envPair 1) [] freshAutoCross).param.resetNextTry = false :=
  have h := C11_match_stays_in_group (envPair 1) true (0 : Nat) ["A", "B"] 0 (by decide)
    freshAutoCross [] ⟨1⟩ rfl (Or.inr (by decide))
  have hc := h.2.2.2.2.2 rfl (by decide) rfl rfl rfl rfl
  ⟨hc ▸ h.1, hc ▸ h.2.1, hc ▸ h.2.2.1, hc ▸ h.2.2.2.1⟩

/-! ## C13, C14, C15: the explicit-group path -/

/-- C13: explicit-group path (TokenGroup != "auto"), for every RetryParam: the call
makes exactly one registry query q and returns exactly its outcome: (ch, TokenGroup, nil)
when the registry answers (ch, nil), ch = nil included, and (nil, TokenGroup, e) with the
same e when the registry answers with an error e. -/
theorem C13_explicit_path_returns_registry_outcome (env : Env) (trace : List Query)
    (p : RetryParam) (hne : p.TokenGroup ≠ "auto") :
    ∃ q, (CacheGetRandomSatisfiedChannel env trace p).trace = trace ++ [q] ∧
      ((env.GetRandomSatisfiedChannel trace q).err = none →
        (CacheGetRandomSatisfiedChannel env trace p).outcome
          = Outcome.returned (env.GetRandomSatisfiedChannel trace q).channel p.TokenGroup none) ∧
      (∀ e, (env.GetRandomSatisfiedChannel trace q).err = some e →
        (CacheGetRandomSatisfiedChannel env trace p).outcome
          = Outcome.returned none p.TokenGroup (some e)) := by
  refine ⟨⟨p.TokenGroup, p.ModelName,
    if env.RetryPriorityMode = "round-robin" then p.GetRetry else p.GetPriorityIndex,
    p.UsedChannelIds⟩, ?_, ?_, ?_⟩
  · simp only [CacheGetRandomSatisfiedChannel, hne, if_false]
    split <;> rfl
  · intro h
    simp only [CacheGetRandomSatisfiedChannel, hne, if_false]
    split
    · next e he => rw [h] at he; exact absurd he (by simp)
    · rfl
  · intro e h
    simp only [CacheGetRandomSatisfiedChannel, hne, if_false]
    split
    · next e2 he => rw [h] at he; cases he; rfl
    · next he => rw [h] at he; exact absurd he (by simp)

/-- C13 on the failing registry and the explicit group A: the error is returned. -/
theorem C13_explicit_path_witness :
    ∃ q, (CacheGetRandomSatisfiedChannel envRegistryDown []
        ⟨emptyCtx, "A", "gpt-4", none, false, none, 0⟩).trace = [] ++ [q] ∧
      ((envRegistryDown.GetRandomSatisfiedChannel [] q).err = none →
        (CacheGetRandomSatisfiedChannel envRegistryDown []
            ⟨emptyCtx, "A", "gpt-4", none, false, none, 0⟩).outcome
          = Outcome.returned (envRegistryDown.GetRandomSatisfiedChannel [] q).channel "A" none) ∧
      (∀ e, (envRegistryDown.GetRandomSatisfiedChannel [] q).err = some e →
        (CacheGetRandomSatisfiedChannel envRegistryDown []
            ⟨emptyCtx, "A", "gpt-4", none, false, none, 0⟩).outcome
          = Outcome.returned none "A" (some e)) :=
  C13_explicit_path_returns_registry_outcome envRegistryDown []
    ⟨emptyCtx, "A", "gpt-4", none, false, none, 0⟩ (by decide)

/-- C14: explicit-group path: the one registry query has the arguments TokenGroup,
ModelName, UsedChannelIds and, as tier/counter argument, GetRetry() unmodified when
RetryPriorityMode is "round-robin" and GetPriorityIndex() when it is "sequential" (or
anything else than "round-robin"). -/
theorem C14_explicit_path_query_arguments (env : Env) (trace : List Query) (p : RetryParam)
    (hne : p.TokenGroup ≠ "auto") :
    (env.RetryPriorityMode = "round-robin" →
      (CacheGetRandomSatisfiedChannel env trace p).trace
        = trace ++ [⟨p.TokenGroup, p.ModelName, p.GetRetry, p.UsedChannelIds⟩]) ∧
    (env.RetryPriorityMode = "sequential" →
      (CacheGetRandomSatisfiedChannel env trace p).trace
        = trace ++ [⟨p.TokenGroup, p.ModelName, p.GetPriorityIndex, p.UsedChannelIds⟩]) ∧
    (env.RetryPriorityMode ≠ "round-robin" →
      (CacheGetRandomSatisfiedChannel env trace p).trace
        = trace ++ [⟨p.TokenGroup, p.ModelName, p.GetPriorityIndex, p.UsedChannelIds⟩]) := by
  have hother : env.RetryPriorityMode ≠ "round-robin" →
      (CacheGetRandomSatisfiedChannel env trace p).trace
        = trace ++ [⟨p.TokenGroup, p.ModelName, p.GetPriorityIndex, p.UsedChannelIds⟩] := by
    intro hm
    simp only [CacheGetRandomSatisfiedChannel, hne, hm, if_false]
    split <;> rfl
  refine ⟨?_, ?_, hother⟩
  · intro hm
    simp only [CacheGetRandomSatisfiedChannel, hne, hm, if_false, if_true]
    split <;> rfl
  · intro hm
    exact hother (by rw [hm]; decide)

/-- C14 under the sequential policy with priority index 0 and retry counter 5: tier
argument 0 is passed. -/
theorem C14_explicit_path_query_arguments_witness :
    (CacheGetRandomSatisfiedChannel envSequential [] (freshExplicit.SetRetry 5)).trace
      = [] ++ [⟨(freshExplicit.SetRetry 5).TokenGroup, (freshExplicit.SetRetry 5).ModelName,
          (freshExplicit.SetRetry 5).GetPriorityIndex, (freshExplicit.SetRetry 5).UsedChannelIds⟩] :=
  (C14_explicit_path_query_arguments envSequential [] (freshExplicit.SetRetry 5)
    (by decide)).2.1 rfl

/-- The explicit-group path under a policy other than round-robin, with the registry
answering without error. -/
theorem explicit_call_sequential (env : Env) (trace : List Query) (p : RetryParam)
    (ch : Option Channel)
    (hne : p.TokenGroup ≠ "auto") (hmode : env.RetryPriorityMode ≠ "round-robin")
    (hq : env.GetRandomSatisfiedChannel trace
      ⟨p.TokenGroup, p.ModelName, p.CurrentPriorityIndex, p.UsedChannelIds⟩ = ⟨ch, none⟩) :
    CacheGetRandomSatisfiedChannel env trace p
      = ⟨Outcome.returned ch p.TokenGroup none, p,
          trace ++ [⟨p.TokenGroup, p.ModelName, p.CurrentPriorityIndex, p.UsedChannelIds⟩]⟩ := by
  simp only [CacheGetRandomSatisfiedChannel, hne, hmode, if_false, RetryParam.GetPriorityIndex,
    hq]

/-- C15: sequential tier ordering.  With policy "sequential", a non-auto group whose
registry returns none at tier 0 and at tier 1 and a backend b at tier 2 (no error), and a
fresh RetryParam (priority index 0), three selector calls with IncreasePriorityIndex()
between them return (nil, group, nil), (nil, group, nil), (b, group, nil) in that order,
whatever the retry counter is at each call (it is set to arbitrary values x2, x3 between
the calls, and is arbitrary at the first). -/
theorem C15_sequential_tier_ordering (env : Env) (trace : List Query) (p : RetryParam)
    (b : Channel) (x2 x3 : Int)
    (hne : p.TokenGroup ≠ "auto") (hmode : env.RetryPriorityMode = "sequential")
    (hfresh : p.CurrentPriorityIndex = 0)
    (h0 : ∀ tr u, env.GetRandomSatisfiedChannel tr ⟨p.TokenGroup, p.ModelName, 0, u⟩
      = ⟨none, none⟩)
    (h1 : ∀ tr u, env.GetRandomSatisfiedChannel tr ⟨p.TokenGroup, p.ModelName, 1, u⟩
      = ⟨none, none⟩)
    (h2 : ∀ tr u, env.GetRandomSatisfiedChannel tr ⟨p.TokenGroup, p.ModelName, 2, u⟩
      = ⟨some b, none⟩) :
    roundOutcomes env
        [[ParamOp.IncreasePriorityIndex, ParamOp.SetRetry x2],
         [ParamOp.IncreasePriorityIndex, ParamOp.SetRetry x3], []] p trace
      = [Outcome.returned none p.TokenGroup none, Outcome.returned none p.TokenGroup none,
         Outcome.returned (some b) p.TokenGroup none] := by
  have hm : env.RetryPriorityMode ≠ "round-robin" := by rw [hmode]; decide
  have c1 := explicit_call_sequential env trace p none hne hm (by rw [hfresh]; exact h0 _ _)
  simp only [roundOutcomes, c1, List.foldl, ParamOp.apply]
  have c2 := explicit_call_sequential env
    (trace ++ [⟨p.TokenGroup, p.ModelName, p.CurrentPriorityIndex, p.UsedChannelIds⟩])
    (p.IncreasePriorityIndex.SetRetry x2) none hne hm
    (by
      have : (p.IncreasePriorityIndex.SetRetry x2).CurrentPriorityIndex = 1 := by
        show wrapInt (p.CurrentPriorityIndex + 1) = 1
        rw [hfresh]
        decide
      rw [this]; exact h1 _ _)
  rw [c2]
  have c3 := explicit_call_sequential env
    (trace ++ [⟨p.TokenGroup, p.ModelName, p.CurrentPriorityIndex, p.UsedChannelIds⟩] ++
      [⟨(p.IncreasePriorityIndex.SetRetry x2).TokenGroup,
        (p.IncreasePriorityIndex.SetRetry x2).ModelName,
        (p.IncreasePriorityIndex.SetRetry x2).CurrentPriorityIndex,
        (p.IncreasePriorityIndex.SetRetry x2).UsedChannelIds⟩])
    ((p.IncreasePriorityIndex.SetRetry x2).IncreasePriorityIndex.SetRetry x3) (some b) hne hm
    (by
      have : ((p.IncreasePriorityIndex.SetRetry x2).IncreasePriorityIndex.SetRetry
          x3).CurrentPriorityIndex = 2 := by
        show wrapInt (wrapInt (p.CurrentPriorityIndex + 1) + 1) = 2
        rw [hfresh]
        decide
      rw [this]; exact h2 _ _)
  rw [c3]
  rfl

/-- C15 on the registry with backend 9 at tier 2 only, retry counter set to 7 and 0
between the calls. -/
theorem C15_sequential_tier_ordering_witness :
    roundOutcomes envSequential
        [[ParamOp.IncreasePriorityIndex, ParamOp.SetRetry 7],
         [ParamOp.IncreasePriorityIndex, ParamOp.SetRetry 0], []] freshExplicit []
      = [Outcome.returned none freshExplicit.TokenGroup none,
         Outcome.returned none freshExplicit.TokenGroup none,
         Outcome.returned (some ⟨9⟩) freshExplicit.TokenGroup none] :=
  C15_sequential_tier_ordering envSequential [] freshExplicit ⟨9⟩ 7 0 (by decide) rfl rfl
    (fun _ _ => rfl) (fun _ _ => rfl) (fun _ _ => rfl)

/-! ## C18, C19, C20: the RetryParam methods -/

/-- C18 as stated fails: on a RetryParam with the deferred flag clear and the counter at
math.MaxInt64 the increment of line 50 wraps, and GetRetry() afterwards is math.MinInt64,
not GetRetry() before plus 1. -/
theorem C18_IncreaseRetry_wraps_at_MaxInt64 :
    (freshAuto.SetRetry 9223372036854775807).resetNextTry = false ∧
    (freshAuto.SetRetry 9223372036854775807).GetRetry = 9223372036854775807 ∧
    (freshAuto.SetRetry 9223372036854775807).IncreaseRetry.GetRetry = -9223372036854775808 ∧
    (freshAuto.SetRetry 9223372036854775807).IncreaseRetry.GetRetry
      ≠ (freshAuto.SetRetry 9223372036854775807).GetRetry + 1 := by
  refine ⟨by decide, by decide, by decide, by decide⟩

/-- C18 (amended): IncreaseRetry, for every RetryParam: if resetNextTry is set the call
clears the flag and leaves GetRetry() unchanged; otherwise the flag stays clear and
GetRetry() afterwards is GetRetry() before plus 1 (a never-set counter becomes 1) as long
as GetRetry() before is below math.MaxInt64, while at math.MaxInt64 it wraps to
math.MinInt64; in both cases the used-channel set and the priority index are unchanged. -/
theorem C18_IncreaseRetry (p : RetryParam) :
    (p.resetNextTry = true →
      p.IncreaseRetry.resetNextTry = false ∧ p.IncreaseRetry.GetRetry = p.GetRetry) ∧
    (p.resetNextTry = false → p.IncreaseRetry.resetNextTry = false) ∧
    (p.resetNextTry = false → minInt ≤ p.GetRetry → p.GetRetry < maxInt →
      p.IncreaseRetry.GetRetry = p.GetRetry + 1) ∧
    (p.resetNextTry = false → p.Retry = none → p.IncreaseRetry.GetRetry = 1) ∧
    (p.resetNextTry = false → p.GetRetry = maxInt → p.IncreaseRetry.GetRetry = minInt) ∧
    p.IncreaseRetry.UsedChannelIds = p.UsedChannelIds ∧
    p.IncreaseRetry.CurrentPriorityIndex = p.CurrentPriorityIndex := by
  refine ⟨?_, ?_, ?_, ?_, ?_, ?_, ?_⟩
  · intro h
    simp [RetryParam.IncreaseRetry, h, RetryParam.GetRetry]
  · intro h
    rw [IncreaseRetry_of_clear p h]
    exact h
  · intro h h1 h2
    rw [IncreaseRetry_of_clear p h]
    show wrapInt (p.GetRetry + 1) = p.GetRetry + 1
    unfold minInt at h1
    unfold maxInt at h2
    exact wrapInt_eq_self _ (by omega) (by omega)
  · intro h hR
    rw [IncreaseRetry_of_clear p h]
    show wrapInt (p.GetRetry + 1) = 1
    have h0 : p.GetRetry = 0 := by simp [RetryParam.GetRetry, hR]
    rw [h0]
    decide
  · intro h hmax
    rw [IncreaseRetry_of_clear p h]
    show wrapInt (p.GetRetry + 1) = minInt
    rw [hmax]
    exact wrapInt_maxInt_succ
  · unfold RetryParam.IncreaseRetry
    split
    · rfl
    · split <;> rfl
  · unfold RetryParam.IncreaseRetry
    split
    · rfl
    · split <;> rfl

/-- C19: GetRetry returns 0 on a RetryParam whose counter was never set, and for every
integer n GetRetry() after SetRetry(n) returns n, whatever the counter and the
deferred-increment flag were; SetRetry leaves the flag unchanged. -/
theorem C19_GetRetry_SetRetry (p : RetryParam) (n : Int) :
    ({ p with Retry := none } : RetryParam).GetRetry = 0 ∧
    (p.SetRetry n).GetRetry = n ∧
    (p.SetRetry n).resetNextTry = p.resetNextTry :=
  ⟨rfl, rfl, rfl⟩

/-- C20: the used-channel set.  IsChannelUsed(id) is false for every id when the set is
nil or empty; after AddUsedChannel(id), IsChannelUsed(id) is true and IsChannelUsed(j) is
unchanged for every j != id; AddUsedChannel is idempotent. -/
theorem C20_used_channel_set (p : RetryParam) (id j : Int) :
    ({ p with UsedChannelIds := none } : RetryParam).IsChannelUsed id = false ∧
    ({ p with UsedChannelIds := some ∅ } : RetryParam).IsChannelUsed id = false ∧
    (p.AddUsedChannel id).IsChannelUsed id = true ∧
    (j ≠ id → (p.AddUsedChannel id).IsChannelUsed j = p.IsChannelUsed j) ∧
    (p.AddUsedChannel id).AddUsedChannel id = p.AddUsedChannel id := by
  refine ⟨rfl, ?_, ?_, ?_, ?_⟩
  · simp [RetryParam.IsChannelUsed]
  · cases hU : p.UsedChannelIds <;>
      simp [RetryParam.AddUsedChannel, RetryParam.IsChannelUsed, hU]
  · intro hj
    cases hU : p.UsedChannelIds <;>
      simp [RetryParam.AddUsedChannel, RetryParam.IsChannelUsed, hU, hj]
  · cases hU : p.UsedChannelIds <;>
      simp [RetryParam.AddUsedChannel, hU]

/-! ## The shape of every call -/

/-- The four ways an iteration of the loop can go. -/
theorem autoLoop_cons_cases (env : Env) (cross : Bool) (s : Int) (sel g : String)
    (rest : List String) (i : Int) (p : RetryParam) (trace : List Query) :
    (autoLoop env cross s sel (g :: rest) i p trace
        = ⟨Outcome.returned none sel none, keptAt p i,
            trace ++ [⟨g, p.ModelName, priorityRetryAt s i p, p.UsedChannelIds⟩]⟩ ∧
      priorityRetryAt s i p < env.RetryTimes) ∨
    (autoLoop env cross s sel (g :: rest) i p trace
        = autoLoop env cross s sel rest (i + 1) (movedOn p i)
            (trace ++ [⟨g, p.ModelName, priorityRetryAt s i p, p.UsedChannelIds⟩]) ∧
      env.RetryTimes ≤ priorityRetryAt s i p) ∨
    (∃ b, (env.GetRandomSatisfiedChannel trace
          ⟨g, p.ModelName, priorityRetryAt s i p, p.UsedChannelIds⟩).channel = some b ∧
      autoLoop env cross s sel (g :: rest) i p trace
        = ⟨Outcome.returned (some b) g none, handedOver p g i,
            trace ++ [⟨g, p.ModelName, priorityRetryAt s i p, p.UsedChannelIds⟩]⟩) ∨
    (∃ b, (env.GetRandomSatisfiedChannel trace
          ⟨g, p.ModelName, priorityRetryAt s i p, p.UsedChannelIds⟩).channel = some b ∧
      autoLoop env cross s sel (g :: rest) i p trace
        = ⟨Outcome.returned (some b) g none, selectedAt p g i,
            trace ++ [⟨g, p.ModelName, priorityRetryAt s i p, p.UsedChannelIds⟩]⟩) := by
  cases hq : (env.GetRandomSatisfiedChannel trace
    ⟨g, p.ModelName, priorityRetryAt s i p, p.UsedChannelIds⟩).channel with
  | none =>
    by_cases hlt : priorityRetryAt s i p < env.RetryTimes
    · exact Or.inl ⟨autoLoop_none_stay env cross s sel g rest i p trace hq hlt, hlt⟩
    · exact Or.inr (Or.inl
        ⟨autoLoop_none_move env cross s sel g rest i p trace hq (not_lt.mp hlt), not_lt.mp hlt⟩)
  | some b =>
    by_cases hh : cross = true ∧ env.RetryTimes ≤ priorityRetryAt s i p
    · obtain ⟨hc, hge⟩ := hh
      subst hc
      exact Or.inr (Or.inr (Or.inl
        ⟨b, rfl, autoLoop_match_handoff env s sel g rest i p trace b hq hge⟩))
    · have hno : cross = false ∨ priorityRetryAt s i p < env.RetryTimes := by
        by_cases hc : cross = true
        · exact Or.inr (not_le.mp (fun hge => hh ⟨hc, hge⟩))
        · exact Or.inl (by simpa using hc)
      exact Or.inr (Or.inr (Or.inr
        ⟨b, rfl, autoLoop_match_stay env cross s sel g rest i p trace b hq hno⟩))

/-- The three ways a call can go: the explicit-group path with its one query; an auto
call that ends before the loop; an auto call that runs the loop. -/
theorem call_cases (env : Env) (trace : List Query) (p : RetryParam) :
    (p.TokenGroup ≠ "auto" ∧ ∃ oc,
      CacheGetRandomSatisfiedChannel env trace p
        = ⟨oc, p, trace ++ [⟨p.TokenGroup, p.ModelName,
            if env.RetryPriorityMode = "round-robin" then p.GetRetry else p.GetPriorityIndex,
            p.UsedChannelIds⟩]⟩ ∧
      (oc.channel = none ∨ oc.channel = (env.GetRandomSatisfiedChannel trace
          ⟨p.TokenGroup, p.ModelName,
            if env.RetryPriorityMode = "round-robin" then p.GetRetry else p.GetPriorityIndex,
            p.UsedChannelIds⟩).channel)) ∨
    (p.TokenGroup = "auto" ∧ ∃ oc,
      CacheGetRandomSatisfiedChannel env trace p = ⟨oc, p, trace⟩ ∧ oc.channel = none) ∨
    (p.TokenGroup = "auto" ∧ env.GetAutoGroups ≠ [] ∧ 0 ≤ startGroupIndexOf p.Ctx ∧
      CacheGetRandomSatisfiedChannel env trace p =
        autoLoop env (GetContextKeyBool p.Ctx.ContextKeyTokenCrossGroupRetry)
          (startGroupIndexOf p.Ctx) "auto"
          ((env.GetUserAutoGroup (GetContextKeyString p.Ctx.ContextKeyUserGroup)).drop
            (startGroupIndexOf p.Ctx).toNat)
          (startGroupIndexOf p.Ctx) p trace) := by
  by_cases hauto : p.TokenGroup = "auto"
  · right
    by_cases hen : env.GetAutoGroups = []
    · left
      refine ⟨hauto, Outcome.returned none "auto" (some "auto groups is not enabled"), ?_, rfl⟩
      simp [CacheGetRandomSatisfiedChannel, hauto, hen]
    · by_cases hs : 0 ≤ startGroupIndexOf p.Ctx
      · right
        exact ⟨hauto, hen, hs, call_eq_autoLoop env trace p hauto hen hs⟩
      · left
        have h1 : ¬ env.GetAutoGroups.length = 0 := by
          simpa [List.length_eq_zero] using hen
        have h2 : startGroupIndexOf p.Ctx < 0 := not_le.mp hs
        refine ⟨hauto, Outcome.panicked, ?_, rfl⟩
        simp only [CacheGetRandomSatisfiedChannel, hauto, h1, h2, if_true, if_false]
  · left
    refine ⟨hauto, ?_⟩
    cases he : (env.GetRandomSatisfiedChannel trace
        ⟨p.TokenGroup, p.ModelName,
          if env.RetryPriorityMode = "round-robin" then p.GetRetry else p.GetPriorityIndex,
          p.UsedChannelIds⟩).err with
    | some e =>
      refine ⟨Outcome.returned none p.TokenGroup (some e), ?_, Or.inl rfl⟩
      simp only [CacheGetRandomSatisfiedChannel, hauto, if_false, he]
    | none =>
      refine ⟨Outcome.returned _ p.TokenGroup none, ?_, Or.inr rfl⟩
      simp only [CacheGetRandomSatisfiedChannel, hauto, if_false, he]

theorem startGroupIndexOf_keptAt (p : RetryParam) (i : Int) :
    startGroupIndexOf (keptAt p i).Ctx = i := rfl

theorem startGroupIndexOf_movedOn (p : RetryParam) (i : Int) :
    startGroupIndexOf (movedOn p i).Ctx = i + 1 := rfl

theorem startGroupIndexOf_handedOver (p : RetryParam) (g : String) (i : Int) :
    startGroupIndexOf (handedOver p g i).Ctx = i + 1 := rfl

theorem startGroupIndexOf_selectedAt (p : RetryParam) (g : String) (i : Int) :
    startGroupIndexOf (selectedAt p g i).Ctx = i := rfl

/-- What a run of the loop over the groups `l`, entered at index `i`, does: it appends
queries for the first `k` groups of `l`, in order, each with the model and the
used-channel set of the RetryParam; with no query the RetryParam is untouched, else the
persisted index ends at the last queried index or one past it; the fields the selector
only reads are unchanged; a returned channel is a registry answer to a query with that
used-channel set. -/
theorem autoLoop_spec (env : Env) (cross : Bool) (s : Int) (sel : String) :
    ∀ (l : List String) (i : Int) (p : RetryParam) (trace : List Query),
      ∃ (more : List Query) (k : Nat),
        (autoLoop env cross s sel l i p trace).trace = trace ++ more ∧
        k ≤ l.length ∧ more.map Query.group = l.take k ∧
        (k = 0 → (autoLoop env cross s sel l i p trace).param = p) ∧
        (0 < k →
          i + k - 1 ≤ startGroupIndexOf (autoLoop env cross s sel l i p trace).param.Ctx ∧
          startGroupIndexOf (autoLoop env cross s sel l i p trace).param.Ctx ≤ i + k) ∧
        (∀ q ∈ more, q.usedChannelIds = p.UsedChannelIds ∧ q.modelName = p.ModelName) ∧
        ((autoLoop env cross s sel l i p trace).param.TokenGroup = p.TokenGroup ∧
          (autoLoop env cross s sel l i p trace).param.ModelName = p.ModelName ∧
          (autoLoop env cross s sel l i p trace).param.UsedChannelIds = p.UsedChannelIds ∧
          (autoLoop env cross s sel l i p trace).param.CurrentPriorityIndex
            = p.CurrentPriorityIndex ∧
          (autoLoop env cross s sel l i p trace).param.Ctx.ContextKeyUserGroup
            = p.Ctx.ContextKeyUserGroup ∧
          (autoLoop env cross s sel l i p trace).param.Ctx.ContextKeyTokenCrossGroupRetry
            = p.Ctx.ContextKeyTokenCrossGroupRetry) ∧
        (∀ b, (autoLoop env cross s sel l i p trace).outcome.channel = some b →
          ∃ tr q, q.usedChannelIds = p.UsedChannelIds ∧
            (env.GetRandomSatisfiedChannel tr q).channel = some b) := by
  intro l
  induction l with
  | nil =>
    intro i p trace
    refine ⟨[], 0, by simp [autoLoop], le_refl _, rfl, fun _ => rfl, fun h => absurd h (by simp),
      fun q hq => absurd hq (by simp), ⟨rfl, rfl, rfl, rfl, rfl, rfl⟩, ?_⟩
    intro b hb
    simp [autoLoop, Outcome.channel] at hb
  | cons g rest ih =>
    intro i p trace
    rcases autoLoop_cons_cases env cross s sel g rest i p trace with
      ⟨h, _⟩ | ⟨h, _⟩ | ⟨b, hb, h⟩ | ⟨b, hb, h⟩
    · rw [h]
      refine ⟨[⟨g, p.ModelName, priorityRetryAt s i p, p.UsedChannelIds⟩], 1, rfl, by simp,
        by simp, fun hk => absurd hk (by simp), ?_, ?_, ⟨rfl, rfl, rfl, rfl, rfl, rfl⟩, ?_⟩
      · intro _
        rw [startGroupIndexOf_keptAt]
        constructor <;> push_cast <;> omega
      · intro q hq
        simp only [List.mem_singleton] at hq
        subst hq
        exact ⟨rfl, rfl⟩
      · intro b hb
        simp [Outcome.channel] at hb
    · rw [h]
      obtain ⟨more, k, h1, h2, h3, h4, h5, h6, h7, h8⟩ := ih (i + 1) (movedOn p i)
        (trace ++ [⟨g, p.ModelName, priorityRetryAt s i p, p.UsedChannelIds⟩])
      refine ⟨⟨g, p.ModelName, priorityRetryAt s i p, p.UsedChannelIds⟩ :: more, k + 1,
        by rw [h1]; simp, by simp; omega, by simp [h3],
        fun hk => absurd hk (by simp), ?_, ?_, h7, ?_⟩
      · intro _
        by_cases hk : k = 0
        · rw [h4 hk, startGroupIndexOf_movedOn, hk]
          constructor <;> push_cast <;> omega
        · obtain ⟨a1, a2⟩ := h5 (Nat.pos_of_ne_zero hk)
          constructor <;> push_cast <;> omega
      · intro q hq
        rcases List.mem_cons.mp hq with hq | hq
        · subst hq
          exact ⟨rfl, rfl⟩
        · exact h6 q hq
      · intro b hb
        exact h8 b hb
    · rw [h]
      refine ⟨[⟨g, p.ModelName, priorityRetryAt s i p, p.UsedChannelIds⟩], 1, rfl, by simp,
        by simp, fun hk => absurd hk (by simp), ?_, ?_, ⟨rfl, rfl, rfl, rfl, rfl, rfl⟩, ?_⟩
      · intro _
        rw [startGroupIndexOf_handedOver]
        constructor <;> push_cast <;> omega
      · intro q hq
        simp only [List.mem_singleton] at hq
        subst hq
        exact ⟨rfl, rfl⟩
      · intro b2 hb2
        simp only [Outcome.channel, Option.some.injEq] at hb2
        subst hb2
        exact ⟨trace, _, rfl, hb⟩
    · rw [h]
      refine ⟨[⟨g, p.ModelName, priorityRetryAt s i p, p.UsedChannelIds⟩], 1, rfl, by simp,
        by simp, fun hk => absurd hk (by simp), ?_, ?_, ⟨rfl, rfl, rfl, rfl, rfl, rfl⟩, ?_⟩
      · intro _
        rw [startGroupIndexOf_selectedAt]
        constructor <;> push_cast <;> omega
      · intro q hq
        simp only [List.mem_singleton] at hq
        subst hq
        exact ⟨rfl, rfl⟩
      · intro b2 hb2
        simp only [Outcome.channel, Option.some.injEq] at hb2
        subst hb2
        exact ⟨trace, _, rfl, hb⟩

/-- What every selector call does to the trace and to the RetryParam: it appends
queries that carry the model and the used-channel set of the RetryParam; it leaves the
fields it only reads unchanged; a returned channel is a registry answer to a query with
that used-channel set; the persisted group index, as read back, does not decrease. -/
theorem call_spec (env : Env) (trace : List Query) (p : RetryParam) :
    ∃ more : List Query,
      (CacheGetRandomSatisfiedChannel env trace p).trace = trace ++ more ∧
      (∀ q ∈ more, q.usedChannelIds = p.UsedChannelIds ∧ q.modelName = p.ModelName) ∧
      ((CacheGetRandomSatisfiedChannel env trace p).param.TokenGroup = p.TokenGroup ∧
        (CacheGetRandomSatisfiedChannel env trace p).param.ModelName = p.ModelName ∧
        (CacheGetRandomSatisfiedChannel env trace p).param.UsedChannelIds = p.UsedChannelIds ∧
        (CacheGetRandomSatisfiedChannel env trace p).param.CurrentPriorityIndex
          = p.CurrentPriorityIndex ∧
        (CacheGetRandomSatisfiedChannel env trace p).param.Ctx.ContextKeyUserGroup
          = p.Ctx.ContextKeyUserGroup ∧
        (CacheGetRandomSatisfiedChannel env trace p).param.Ctx.ContextKeyTokenCrossGroupRetry
          = p.Ctx.ContextKeyTokenCrossGroupRetry) ∧
      (∀ b, (CacheGetRandomSatisfiedChannel env trace p).outcome.channel = some b →
        ∃ tr q, q.usedChannelIds = p.UsedChannelIds ∧
          (env.GetRandomSatisfiedChannel tr q).channel = some b) ∧
      startGroupIndexOf p.Ctx
        ≤ startGroupIndexOf (CacheGetRandomSatisfiedChannel env trace p).param.Ctx := by
  rcases call_cases env trace p with ⟨_, oc, h, hoc⟩ | ⟨_, oc, h, hoc⟩ | ⟨_, _, hs, h⟩
  · rw [h]
    refine ⟨[_], rfl, ?_, ⟨rfl, rfl, rfl, rfl, rfl, rfl⟩, ?_, le_refl _⟩
    · intro q hq
      simp only [List.mem_singleton] at hq
      subst hq
      exact ⟨rfl, rfl⟩
    · intro b hb
      rcases hoc with hoc | hoc
      · rw [hoc] at hb; exact absurd hb (by simp)
      · exact ⟨trace, _, rfl, by rw [← hoc]; exact hb⟩
  · rw [h]
    refine ⟨[], by simp, fun q hq => absurd hq (by simp), ⟨rfl, rfl, rfl, rfl, rfl, rfl⟩, ?_,
      le_refl _⟩
    intro b hb
    rw [hoc] at hb
    exact absurd hb (by simp)
  · rw [h]
    obtain ⟨more, k, h1, _, _, h4, h5, h6, h7, h8⟩ := autoLoop_spec env
      (GetContextKeyBool p.Ctx.ContextKeyTokenCrossGroupRetry) (startGroupIndexOf p.Ctx) "auto"
      ((env.GetUserAutoGroup (GetContextKeyString p.Ctx.ContextKeyUserGroup)).drop
        (startGroupIndexOf p.Ctx).toNat) (startGroupIndexOf p.Ctx) p trace
    refine ⟨more, h1, h6, h7, h8, ?_⟩
    by_cases hk : k = 0
    · rw [h4 hk]
    · have := (h5 (Nat.pos_of_ne_zero hk)).1
      omega

theorem IsChannelUsed_iff (p : RetryParam) (id : Int) :
    p.IsChannelUsed id = true ↔ ∃ s, p.UsedChannelIds = some s ∧ id ∈ s := by
  cases hU : p.UsedChannelIds <;> simp [RetryParam.IsChannelUsed, hU]

theorem IsChannelUsed_AddUsedChannel_self (p : RetryParam) (id : Int) :
    (p.AddUsedChannel id).IsChannelUsed id = true := by
  cases hU : p.UsedChannelIds <;>
    simp [RetryParam.AddUsedChannel, RetryParam.IsChannelUsed, hU]

/-- No method of RetryParam removes an id from the used-channel set. -/
theorem IsChannelUsed_apply (o : ParamOp) (p : RetryParam) (id : Int)
    (h : p.IsChannelUsed id = true) : (o.apply p).IsChannelUsed id = true := by
  cases o with
  | SetRetry n => exact h
  | IncreaseRetry =>
    simp only [ParamOp.apply, RetryParam.IncreaseRetry]
    split
    · exact h
    · split <;> exact h
  | ResetRetryNextTry => exact h
  | AddUsedChannel j =>
    cases hU : p.UsedChannelIds with
    | none => simp [RetryParam.IsChannelUsed, hU] at h
    | some s =>
      simp only [RetryParam.IsChannelUsed, hU, decide_eq_true_eq] at h
      simp [ParamOp.apply, RetryParam.AddUsedChannel, RetryParam.IsChannelUsed, hU, h]
  | IncreasePriorityIndex => exact h

theorem IsChannelUsed_foldl (ops : List ParamOp) (id : Int) :
    ∀ p : RetryParam, p.IsChannelUsed id = true →
      (ops.foldl (fun p o => o.apply p) p).IsChannelUsed id = true := by
  induction ops with
  | nil => intro p h; exact h
  | cons o rest ih => intro p h; exact ih _ (IsChannelUsed_apply o p id h)

theorem IsChannelUsed_call (env : Env) (trace : List Query) (p : RetryParam) (id : Int)
    (h : p.IsChannelUsed id = true) :
    (CacheGetRandomSatisfiedChannel env trace p).param.IsChannelUsed id = true := by
  obtain ⟨_, _, _, hf, _, _⟩ := call_spec env trace p
  rw [IsChannelUsed_iff] at h ⊢
  rw [hf.2.2.1]
  exact h

/-- Once an id is in the used-channel set, every query of the rest of the request
carries an exclusion set that contains it. -/
theorem runSteps_queries_exclude (env : Env) (id : Int) :
    ∀ (steps : List Step) (p : RetryParam) (trace : List Query),
      p.IsChannelUsed id = true →
      ∃ more, (runSteps env steps p trace).2 = trace ++ more ∧
        ∀ q ∈ more, ∃ s, q.usedChannelIds = some s ∧ id ∈ s := by
  intro steps
  induction steps with
  | nil => intro p trace _; exact ⟨[], by simp [runSteps], fun q hq => absurd hq (by simp)⟩
  | cons st rest ih =>
    intro p trace h
    cases st with
    | call =>
      obtain ⟨m1, h1, h2, _, _, _⟩ := call_spec env trace p
      obtain ⟨m2, h3, h4⟩ := ih _ (CacheGetRandomSatisfiedChannel env trace p).trace
        (IsChannelUsed_call env trace p id h)
      refine ⟨m1 ++ m2, by rw [runSteps, h3, h1, List.append_assoc], ?_⟩
      intro q hq
      rcases List.mem_append.mp hq with hq | hq
      · rw [(h2 q hq).1]
        exact (IsChannelUsed_iff p id).mp h
      · exact h4 q hq
    | op o =>
      obtain ⟨m2, h3, h4⟩ := ih (o.apply p) trace (IsChannelUsed_apply o p id h)
      exact ⟨m2, by rw [runSteps, h3], h4⟩

/-- With a registry that never offers an excluded channel and a caller that marks every
returned channel as used, the channels returned over the rounds have distinct ids. -/
theorem serveRounds_nodup (env : Env)
    (hreg : ∀ tr q ch s, (env.GetRandomSatisfiedChannel tr q).channel = some ch →
      q.usedChannelIds = some s → ch.Id ∉ s) :
    ∀ (rounds : List (List ParamOp)) (p : RetryParam) (trace : List Query) (got : List Channel),
      (∀ ch ∈ got, p.IsChannelUsed ch.Id = true) → (got.map Channel.Id).Nodup →
      ((serveRounds env rounds p trace got).2.2.map Channel.Id).Nodup := by
  intro rounds
  induction rounds with
  | nil => intro p trace got _ hnd; exact hnd
  | cons ops rest ih =>
    intro p trace got hused hnd
    cases hc : (CacheGetRandomSatisfiedChannel env trace p).outcome.channel with
    | none =>
      simp only [serveRounds, hc]
      exact ih _ _ got
        (fun ch hch => IsChannelUsed_foldl ops ch.Id _
          (IsChannelUsed_call env trace p ch.Id (hused ch hch))) hnd
    | some b =>
      simp only [serveRounds, hc]
      obtain ⟨_, _, _, _, hprov, _⟩ := call_spec env trace p
      obtain ⟨tr, q, hqu, hqb⟩ := hprov b hc
      refine ih _ _ (got ++ [b]) ?_ ?_
      · intro ch hch
        apply IsChannelUsed_foldl
        rcases List.mem_append.mp hch with hch | hch
        · exact IsChannelUsed_apply (ParamOp.AddUsedChannel b.Id) _ ch.Id
            (IsChannelUsed_call env trace p ch.Id (hused ch hch))
        · simp only [List.mem_singleton] at hch
          subst hch
          exact IsChannelUsed_AddUsedChannel_self _ _
      · rw [List.map_append, List.nodup_append]
        refine ⟨hnd, by simp, ?_⟩
        intro x hx1 hx2
        simp only [List.map_cons, List.map_nil, List.mem_singleton] at hx2
        obtain ⟨ch, hch, hid⟩ := List.mem_map.mp hx1
        obtain ⟨s, hs, hmem⟩ := (IsChannelUsed_iff p ch.Id).mp (hused ch hch)
        have := hreg tr q b s hqb (by rw [hqu, hs])
        rw [← hx2, ← hid] at this
        exact this hmem

/-! ## C16: monotonic exclusion -/

/-- C16: monotonic exclusion.  Once AddUsedChannel(id) has been called, every registry
query made by every later selector call of the request, on the explicit or the auto path
and whatever RetryParam methods are called in between, receives an exclusion set that
contains id.  Hence, if the registry never returns a channel whose id is in the exclusion
set it is given and the caller adds every returned channel with AddUsedChannel, the
channels returned over the rounds of a request have pairwise distinct ids: the selector
never returns the same channel twice. -/
theorem C16_monotonic_exclusion (env : Env) :
    (∀ (steps : List Step) (p0 : RetryParam) (id : Int) (trace : List Query),
      ∃ more, (runSteps env steps (p0.AddUsedChannel id) trace).2 = trace ++ more ∧
        ∀ q ∈ more, ∃ s, q.usedChannelIds = some s ∧ id ∈ s) ∧
    ((∀ tr q ch s, (env.GetRandomSatisfiedChannel tr q).channel = some ch →
        q.usedChannelIds = some s → ch.Id ∉ s) →
      ∀ (rounds : List (List ParamOp)) (p : RetryParam) (trace : List Query),
        ((serveRounds env rounds p trace []).2.2.map Channel.Id).Nodup) := by
  constructor
  · intro steps p0 id trace
    exact runSteps_queries_exclude env id steps (p0.AddUsedChannel id) trace
      (IsChannelUsed_AddUsedChannel_self p0 id)
  · intro hreg rounds p trace
    exact serveRounds_nodup env hreg rounds p trace []
      (fun ch hch => absurd hch (by simp)) (by simp)

/-- C16 on a registry that offers backend 1, then backend 2, whichever is not excluded:
over three rounds backends 1 and 2 are returned once each, and the returned ids are
distinct. -/
theorem C16_monotonic_exclusion_witness :
    (serveRounds envExcluding
        [[ParamOp.IncreaseRetry], [ParamOp.IncreaseRetry], [ParamOp.IncreaseRetry]]
        freshAuto [] []).2.2 = [⟨1⟩, ⟨2⟩] ∧
    ((serveRounds envExcluding
        [[ParamOp.IncreaseRetry], [ParamOp.IncreaseRetry], [ParamOp.IncreaseRetry]]
        freshAuto [] []).2.2.map Channel.Id).Nodup :=
  ⟨by decide,
    (C16_monotonic_exclusion envExcluding).2
      (by
        intro tr q ch s h hs
        simp only [envExcluding, regExcluding, hs] at h
        by_cases h1 : (1 : Int) ∈ s
        · by_cases h2 : (2 : Int) ∈ s
          · simp [h1, h2] at h
          · simp only [h1, h2, not_true_eq_false, not_false_eq_true, if_true, if_false,
              Option.some.injEq] at h
            rw [← h]; exact h2
        · simp only [h1, not_false_eq_true, if_true, Option.some.injEq] at h
          rw [← h]; exact h1)
      [[ParamOp.IncreaseRetry], [ParamOp.IncreaseRetry], [ParamOp.IncreaseRetry]] freshAuto []⟩

/-! ## Rounds against an empty registry, from any state -/

theorem outerLoop_add (env : Env) :
    ∀ (a b : Nat) (p : RetryParam) (trace : List Query),
      outerLoop env (a + b) p trace
        = outerLoop env b (outerLoop env a p trace).1 (outerLoop env a p trace).2 := by
  intro a
  induction a with
  | zero => intro b p trace; simp [outerLoop]
  | succ a ih =>
    intro b p trace
    rw [show a + 1 + b = (a + b) + 1 by omega, outerLoop, outerLoop, ih]

theorem InAuto_IncreaseRetry (ug : Option CtxValue) (j : Nat) (p : RetryParam)
    (h : InAuto ug j p) : InAuto ug j p.IncreaseRetry := by
  unfold RetryParam.IncreaseRetry
  split
  · exact h
  · split <;> exact h

/-- With nothing in the registry the loop returns (nil, selectGroup, nil). -/
theorem autoLoop_all_none_outcome (env : Env) (cross : Bool) (s : Int) (sel : String)
    (hnone : ∀ tr q, (env.GetRandomSatisfiedChannel tr q).channel = none) :
    ∀ (l : List String) (i : Int) (p : RetryParam) (trace : List Query),
      (autoLoop env cross s sel l i p trace).outcome = Outcome.returned none sel none := by
  intro l
  induction l with
  | nil => intro i p trace; rfl
  | cons g rest ih =>
    intro i p trace
    rcases autoLoop_cons_cases env cross s sel g rest i p trace with
      ⟨h, _⟩ | ⟨h, _⟩ | ⟨b, hb, _⟩ | ⟨b, hb, _⟩
    · rw [h]
    · rw [h]; exact ih _ _ _
    · rw [hnone] at hb; exact absurd hb (by simp)
    · rw [hnone] at hb; exact absurd hb (by simp)

/-- A selector call of an auto-mode request against an empty registry: it returns
(nil, "auto", nil); the request stays an auto-mode request whose group index has not
decreased and has not passed the end of the sequence; below the tier budget only the
index is persisted; at the tier budget the index moves forward. -/
theorem call_all_none (env : Env) (ug : Option CtxValue) (groups : List String)
    (hnone : ∀ tr q, (env.GetRandomSatisfiedChannel tr q).channel = none)
    (hen : env.GetAutoGroups ≠ [])
    (hres : env.GetUserAutoGroup (GetContextKeyString ug) = groups)
    (j : Nat) (p : RetryParam) (trace : List Query) (hp : InAuto ug j p) :
    (CacheGetRandomSatisfiedChannel env trace p).outcome = Outcome.returned none "auto" none ∧
    (∃ j2 : Nat, InAuto ug j2 (CacheGetRandomSatisfiedChannel env trace p).param ∧ j ≤ j2 ∧
      (j ≤ groups.length → j2 ≤ groups.length) ∧
      (j < groups.length → env.RetryTimes ≤ p.GetRetry → j < j2)) ∧
    (j < groups.length → p.GetRetry < env.RetryTimes →
      (CacheGetRandomSatisfiedChannel env trace p).param = keptAt p j) := by
  obtain ⟨ha, hug, hs⟩ := hp
  have hcall := call_eq_autoLoop env trace p ha hen (by omega)
  rw [hs, Int.toNat_ofNat, hug, hres] at hcall
  have hpr : priorityRetryAt (j : Int) (j : Int) p = p.GetRetry := by
    simp [priorityRetryAt]
  obtain ⟨more, k, _, hk, _, h4, h5, _, h7, _⟩ := autoLoop_spec env
    (GetContextKeyBool p.Ctx.ContextKeyTokenCrossGroupRetry) (j : Int) "auto"
    (groups.drop j) (j : Int) p trace
  rw [← hcall] at h4 h5 h7
  rw [List.length_drop] at hk
  have hidx : (j : Int) ≤ startGroupIndexOf (CacheGetRandomSatisfiedChannel env trace p).param.Ctx
      ∧ (j ≤ groups.length →
        startGroupIndexOf (CacheGetRandomSatisfiedChannel env trace p).param.Ctx
          ≤ (groups.length : Int)) := by
    by_cases hk0 : k = 0
    · rw [h4 hk0, hs]
      exact ⟨le_refl _, fun h => by exact_mod_cast h⟩
    · obtain ⟨a1, a2⟩ := h5 (Nat.pos_of_ne_zero hk0)
      exact ⟨by omega, fun h => by omega⟩
  refine ⟨?_, ?_, ?_⟩
  · rw [hcall]
    exact autoLoop_all_none_outcome env _ _ "auto" hnone _ _ _ _
  · obtain ⟨j2, hj2⟩ := Int.eq_ofNat_of_zero_le (le_trans (Int.natCast_nonneg j) hidx.1)
    refine ⟨j2, ⟨by rw [h7.1]; exact ha, by rw [h7.2.2.2.2.1]; exact hug, hj2⟩, ?_, ?_, ?_⟩
    · have := hidx.1; omega
    · intro h; have := hidx.2 h; omega
    · intro hjL hge
      rw [hcall, List.drop_eq_getElem_cons hjL,
        autoLoop_none_move env _ (j : Int) "auto" groups[j] _ (j : Int) p trace (hnone _ _)
          (by rw [hpr]; exact hge)] at hj2
      obtain ⟨_, k2, _, _, _, g4, g5, _, _, _⟩ := autoLoop_spec env
        (GetContextKeyBool p.Ctx.ContextKeyTokenCrossGroupRetry) (j : Int) "auto"
        (groups.drop (j + 1)) ((j : Int) + 1) (movedOn p (j : Int))
        (trace ++ [⟨groups[j], p.ModelName, priorityRetryAt (j : Int) (j : Int) p,
          p.UsedChannelIds⟩])
      change startGroupIndexOf (autoLoop env _ (j : Int) "auto" (groups.drop (j + 1))
        ((j : Int) + 1) (movedOn p (j : Int)) _).param.Ctx = _ at hj2
      by_cases hk0 : k2 = 0
      · rw [g4 hk0, startGroupIndexOf_movedOn] at hj2
        omega
      · have := (g5 (Nat.pos_of_ne_zero hk0)).1
        omega
  · intro hjL hlt
    rw [hcall, List.drop_eq_getElem_cons hjL,
      autoLoop_none_stay env _ (j : Int) "auto" groups[j] _ (j : Int) p trace (hnone _ _)
        (by rw [hpr]; exact hlt)]
    rfl

/-- Rounds against an empty registry keep the request in auto mode with an index that
has not decreased and has not passed the end of the sequence. -/
theorem outerLoop_all_none_InAuto (env : Env) (ug : Option CtxValue) (groups : List String)
    (hnone : ∀ tr q, (env.GetRandomSatisfiedChannel tr q).channel = none)
    (hen : env.GetAutoGroups ≠ [])
    (hres : env.GetUserAutoGroup (GetContextKeyString ug) = groups) :
    ∀ (n j : Nat) (p : RetryParam) (trace : List Query), InAuto ug j p →
      ∃ j2 : Nat, InAuto ug j2 (outerLoop env n p trace).1 ∧ j ≤ j2 ∧
        (j ≤ groups.length → j2 ≤ groups.length) := by
  intro n
  induction n with
  | zero => intro j p trace hp; exact ⟨j, hp, le_refl _, fun h => h⟩
  | succ n ih =>
    intro j p trace hp
    obtain ⟨_, ⟨j1, h1, h2, h3, _⟩, _⟩ := call_all_none env ug groups hnone hen hres j p trace hp
    obtain ⟨j2, g1, g2, g3⟩ := ih j1 _ (CacheGetRandomSatisfiedChannel env trace p).trace
      (InAuto_IncreaseRetry ug j1 _ h1)
    exact ⟨j2, by rw [outerLoop]; exact g1, by omega, fun h => g3 (h3 h)⟩

/-- Against an empty registry a request that sits in a group of the sequence leaves it
after finitely many rounds. -/
theorem outerLoop_all_none_progress (env : Env) (ug : Option CtxValue) (groups : List String)
    (hnone : ∀ tr q, (env.GetRandomSatisfiedChannel tr q).channel = none)
    (hen : env.GetAutoGroups ≠ [])
    (hres : env.GetUserAutoGroup (GetContextKeyString ug) = groups) (j : Nat)
    (hj : j < groups.length) :
    ∀ (d : Nat) (p : RetryParam) (trace : List Query), InAuto ug j p →
      (env.RetryTimes - p.GetRetry).toNat + (if p.resetNextTry then 1 else 0) = d →
      ∃ (n j2 : Nat), InAuto ug j2 (outerLoop env n p trace).1 ∧ j < j2 ∧
        j2 ≤ groups.length := by
  intro d
  induction d using Nat.strong_induction_on with
  | _ d ih =>
    intro p trace hp hd
    obtain ⟨_, ⟨j1, h1, _, h3, h4⟩, h5⟩ :=
      call_all_none env ug groups hnone hen hres j p trace hp
    by_cases hge : env.RetryTimes ≤ p.GetRetry
    · refine ⟨1, j1, ?_, h4 hj hge, h3 (le_of_lt hj)⟩
      simp only [outerLoop]
      exact InAuto_IncreaseRetry ug j1 _ h1
    · have hlt : p.GetRetry < env.RetryTimes := not_le.mp hge
      have hkept := h5 hj hlt
      have hp1 : InAuto ug j (keptAt p j).IncreaseRetry :=
        InAuto_IncreaseRetry ug j _ ⟨hp.1, hp.2.1, rfl⟩
      have hdec : (env.RetryTimes - (keptAt p j).IncreaseRetry.GetRetry).toNat
          + (if (keptAt p j).IncreaseRetry.resetNextTry then 1 else 0) < d := by
        rw [← hd]
        cases hf : p.resetNextTry with
        | true =>
          have e1 : (keptAt p j).IncreaseRetry.GetRetry = p.GetRetry := by
            simp [RetryParam.IncreaseRetry, keptAt, hf, RetryParam.GetRetry]
          have e2 : (keptAt p j).IncreaseRetry.resetNextTry = false := by
            simp [RetryParam.IncreaseRetry, keptAt, hf]
          rw [e1, e2]; simp
        | false =>
          have e0 := IncreaseRetry_of_clear (keptAt p j)
            (show (keptAt p j).resetNextTry = false from hf)
          have e1 : (keptAt p j).IncreaseRetry.GetRetry = wrapInt (p.GetRetry + 1) := by
            rw [e0]; rfl
          have e2 : (keptAt p j).IncreaseRetry.resetNextTry = false := by
            rw [e0]; exact hf
          have e3 := le_wrapInt (p.GetRetry + 1) (by have := env.RetryTimesIsInt; omega)
          rw [e1, e2]; simp; omega
      obtain ⟨n, j2, g1, g2, g3⟩ := ih _ hdec (keptAt p j).IncreaseRetry
        (CacheGetRandomSatisfiedChannel env trace p).trace hp1 rfl
      refine ⟨n + 1, j2, ?_, g2, g3⟩
      rw [outerLoop, hkept]
      exact g1

/-- Against an empty registry the persisted index reaches the length of the sequence
after finitely many rounds and stays there. -/
theorem outerLoop_all_none_reaches_end (env : Env) (ug : Option CtxValue)
    (groups : List String)
    (hnone : ∀ tr q, (env.GetRandomSatisfiedChannel tr q).channel = none)
    (hen : env.GetAutoGroups ≠ [])
    (hres : env.GetUserAutoGroup (GetContextKeyString ug) = groups) :
    ∀ (c j : Nat) (p : RetryParam) (trace : List Query), InAuto ug j p →
      j + c = groups.length →
      ∃ n, ∀ m, n ≤ m →
        startGroupIndexOf (outerLoop env m p trace).1.Ctx = (groups.length : Int) := by
  intro c
  induction c using Nat.strong_induction_on with
  | _ c ih =>
    intro j p trace hp hc
    by_cases hjL : j = groups.length
    · refine ⟨0, fun m _ => ?_⟩
      obtain ⟨j2, g1, g2, g3⟩ :=
        outerLoop_all_none_InAuto env ug groups hnone hen hres m j p trace hp
      have := g3 (le_of_eq hjL)
      rw [g1.2.2]
      exact_mod_cast (by omega : j2 = groups.length)
    · obtain ⟨n1, j2, g1, g2, g3⟩ := outerLoop_all_none_progress env ug groups hnone hen hres
        j (by omega) _ p trace hp rfl
      obtain ⟨n2, hn2⟩ := ih (groups.length - j2) (by omega) j2 (outerLoop env n1 p trace).1
        (outerLoop env n1 p trace).2 g1 (by omega)
      refine ⟨n1 + n2, fun m hm => ?_⟩
      have := hn2 (m - n1) (by omega)
      rw [← outerLoop_add, show n1 + (m - n1) = m by omega] at this
      exact this

/-! ## C12: termination against an empty registry -/

/-- C12: auto mode, any resolved sequence `groups` of length L (the non-empty ones
included), any tier budget RetryTimes (the values >= 0 included), a registry that returns
none for every query, and an outer loop that calls IncreaseRetry after each call.
Starting from any RetryParam whose persisted group index is absent or lies in [0, L]
(whatever its retry counter and deferred flag; a fresh request in particular), every
selector call returns (nil, "auto", nil), and after finitely many calls the persisted
autoGroupIndex equals L and stays L.  Every call terminates: the selector is a total
function, its loop running at most once per remaining group. -/
theorem C12_all_none_terminates (env : Env) (groups : List String) (p : RetryParam)
    (trace : List Query) (j : Nat)
    (hauto : p.TokenGroup = "auto") (hen : env.GetAutoGroups ≠ [])
    (hres : env.GetUserAutoGroup (GetContextKeyString p.Ctx.ContextKeyUserGroup) = groups)
    (hj : startGroupIndexOf p.Ctx = (j : Int)) (hjL : j ≤ groups.length)
    (hnone : ∀ tr q, (env.GetRandomSatisfiedChannel tr q).channel = none) :
    (∀ k, outcomeOfRound env k p trace = Outcome.returned none "auto" none) ∧
    ∃ n, ∀ m, n ≤ m →
      startGroupIndexOf (outerLoop env m p trace).1.Ctx = (groups.length : Int) ∧
      (groups ≠ [] →
        (outerLoop env m p trace).1.Ctx.ContextKeyAutoGroupIndex
          = some (CtxValue.int groups.length)) := by
  have hp : InAuto p.Ctx.ContextKeyUserGroup j p := ⟨hauto, rfl, hj⟩
  constructor
  · intro k
    obtain ⟨j2, g1, _, _⟩ := outerLoop_all_none_InAuto env p.Ctx.ContextKeyUserGroup groups
      hnone hen hres k j p trace hp
    exact (call_all_none env p.Ctx.ContextKeyUserGroup groups hnone hen hres j2 _
      (outerLoop env k p trace).2 g1).1
  · obtain ⟨n, hn⟩ := outerLoop_all_none_reaches_end env p.Ctx.ContextKeyUserGroup groups
      hnone hen hres (groups.length - j) j p trace hp (by omega)
    refine ⟨n, fun m hm => ⟨hn m hm, fun hne => ?_⟩⟩
    refine startGroupIndexOf_eq_of_ne_zero _ _ (hn m hm) ?_
    have : groups.length ≠ 0 := by
      intro h0
      exact hne (List.length_eq_zero.mp h0)
    exact_mod_cast this

/-- C12 on a fresh request over groups A, B with tier budget 0 and an empty registry. -/
theorem C12_all_none_terminates_witness :
    (∀ k, outcomeOfRound (envAllNone 0 ["A", "B"]) k freshAuto []
      = Outcome.returned none "auto" none) ∧
    ∃ n, ∀ m, n ≤ m →
      startGroupIndexOf (outerLoop (envAllNone 0 ["A", "B"]) m freshAuto []).1.Ctx
        = ((["A", "B"] : List String).length : Int) ∧
      ((["A", "B"] : List String) ≠ [] →
        (outerLoop (envAllNone 0 ["A", "B"]) m freshAuto []).1.Ctx.ContextKeyAutoGroupIndex
          = some (CtxValue.int ((["A", "B"] : List String).length))) :=
  C12_all_none_terminates (envAllNone 0 ["A", "B"]) ["A", "B"] freshAuto [] 0 rfl (by decide)
    rfl rfl (by decide) (fun _ _ => rfl)

/-! ## The order in which groups are queried -/

theorem take_drop_map_some (l : List String) :
    ∀ (k s : Nat), k ≤ (l.drop s).length →
      ((l.drop s).take k).map some = (List.range' s k).map (fun i => l[i]?) := by
  intro k
  induction k with
  | zero => intro s _; simp
  | succ k ih =>
    intro s hk
    have hs : s < l.length := by
      rw [List.length_drop] at hk; omega
    have hk2 : k ≤ (l.drop (s + 1)).length := by
      rw [List.length_drop] at hk ⊢; omega
    rw [List.drop_eq_getElem_cons hs, List.take_succ_cons, List.map_cons, ih (s + 1) hk2,
      List.range'_succ, List.map_cons, List.getElem?_eq_getElem hs]

theorem apply_Ctx (o : ParamOp) (p : RetryParam) : (o.apply p).Ctx = p.Ctx := by
  cases o with
  | SetRetry n => rfl
  | IncreaseRetry =>
    simp only [ParamOp.apply, RetryParam.IncreaseRetry]
    split
    · rfl
    · split <;> rfl
  | ResetRetryNextTry => rfl
  | AddUsedChannel j =>
    simp only [ParamOp.apply, RetryParam.AddUsedChannel]
    split <;> rfl
  | IncreasePriorityIndex => rfl

theorem apply_TokenGroup (o : ParamOp) (p : RetryParam) :
    (o.apply p).TokenGroup = p.TokenGroup := by
  cases o with
  | SetRetry n => rfl
  | IncreaseRetry =>
    simp only [ParamOp.apply, RetryParam.IncreaseRetry]
    split
    · rfl
    · split <;> rfl
  | ResetRetryNextTry => rfl
  | AddUsedChannel j =>
    simp only [ParamOp.apply, RetryParam.AddUsedChannel]
    split <;> rfl
  | IncreasePriorityIndex => rfl

theorem InAuto_apply (ug : Option CtxValue) (j : Nat) (o : ParamOp) (p : RetryParam)
    (h : InAuto ug j p) : InAuto ug j (o.apply p) := by
  obtain ⟨h1, h2, h3⟩ := h
  exact ⟨by rw [apply_TokenGroup]; exact h1, by rw [apply_Ctx]; exact h2,
    by rw [apply_Ctx]; exact h3⟩

theorem runSteps_append (env : Env) :
    ∀ (s1 s2 : List Step) (p : RetryParam) (trace : List Query),
      runSteps env (s1 ++ s2) p trace
        = runSteps env s2 (runSteps env s1 p trace).1 (runSteps env s1 p trace).2 := by
  intro s1
  induction s1 with
  | nil => intro s2 p trace; rfl
  | cons st rest ih =>
    intro s2 p trace
    cases st with
    | call =>
      rw [List.cons_append, runSteps, runSteps]
      exact ih _ _ _
    | op o =>
      rw [List.cons_append, runSteps, runSteps]
      exact ih _ _ _

/-- Over any steps of a request the persisted group index, as read back, does not
decrease. -/
theorem runSteps_index_mono (env : Env) :
    ∀ (steps : List Step) (p : RetryParam) (trace : List Query),
      startGroupIndexOf p.Ctx ≤ startGroupIndexOf (runSteps env steps p trace).1.Ctx := by
  intro steps
  induction steps with
  | nil => intro p trace; exact le_refl _
  | cons st rest ih =>
    intro p trace
    cases st with
    | call =>
      obtain ⟨_, _, _, _, _, h⟩ := call_spec env trace p
      exact le_trans h (ih _ _)
    | op o =>
      have := ih (o.apply p) trace
      rw [apply_Ctx] at this
      exact this

/-- One auto-mode call that starts at index `j` queries the groups at the indices
`j, j+1, ..., j+k-1` for some `k`, all inside the sequence, and leaves the persisted
index at `j+k-1` or beyond (at `j` or beyond when it makes no query). -/
theorem call_group_order (env : Env) (ug : Option CtxValue) (groups : List String)
    (hen : env.GetAutoGroups ≠ [])
    (hres : env.GetUserAutoGroup (GetContextKeyString ug) = groups)
    (j : Nat) (p : RetryParam) (trace : List Query) (hp : InAuto ug j p) :
    ∃ (more : List Query) (k j2 : Nat),
      (CacheGetRandomSatisfiedChannel env trace p).trace = trace ++ more ∧
      more.map (fun q => some q.group) = (List.range' j k).map (fun i => groups[i]?) ∧
      (0 < k → j + k ≤ groups.length) ∧
      InAuto ug j2 (CacheGetRandomSatisfiedChannel env trace p).param ∧
      j ≤ j2 ∧ j + k ≤ j2 + 1 := by
  obtain ⟨ha, hug, hs⟩ := hp
  have hcall := call_eq_autoLoop env trace p ha hen (by omega)
  rw [hs, Int.toNat_ofNat, hug, hres] at hcall
  obtain ⟨more, k, h1, hk, h3, h4, h5, _, h7, _⟩ := autoLoop_spec env
    (GetContextKeyBool p.Ctx.ContextKeyTokenCrossGroupRetry) (j : Int) "auto"
    (groups.drop j) (j : Int) p trace
  rw [← hcall] at h1 h4 h5 h7
  have hidx : (j : Int) ≤ startGroupIndexOf (CacheGetRandomSatisfiedChannel env trace p).param.Ctx
      ∧ (j : Int) + k
        ≤ startGroupIndexOf (CacheGetRandomSatisfiedChannel env trace p).param.Ctx + 1 := by
    by_cases hk0 : k = 0
    · rw [h4 hk0, hs, hk0]
      constructor <;> push_cast <;> omega
    · obtain ⟨a1, _⟩ := h5 (Nat.pos_of_ne_zero hk0)
      constructor <;> omega
  obtain ⟨j2, hj2⟩ := Int.eq_ofNat_of_zero_le (le_trans (Int.natCast_nonneg j) hidx.1)
  refine ⟨more, k, j2, h1, ?_, ?_, ⟨by rw [h7.1]; exact ha, by rw [h7.2.2.2.2.1]; exact hug,
    hj2⟩, by have := hidx.1; omega, by have := hidx.2; omega⟩
  · rw [← take_drop_map_some groups k j hk, ← h3, List.map_map]
    rfl
  · intro hk0
    rw [List.length_drop] at hk
    omega

/-- Over any steps of an auto-mode request the groups are queried at non-decreasing
indices of the resolved sequence. -/
theorem runSteps_group_order (env : Env) (ug : Option CtxValue) (groups : List String)
    (hen : env.GetAutoGroups ≠ [])
    (hres : env.GetUserAutoGroup (GetContextKeyString ug) = groups) :
    ∀ (steps : List Step) (j : Nat) (p : RetryParam) (trace : List Query), InAuto ug j p →
      ∃ (more : List Query) (idxs : List Nat),
        (runSteps env steps p trace).2 = trace ++ more ∧
        more.map (fun q => some q.group) = idxs.map (fun i => groups[i]?) ∧
        idxs.Pairwise (fun a b => a ≤ b) ∧
        ∀ i ∈ idxs, j ≤ i ∧ i < groups.length := by
  intro steps
  induction steps with
  | nil =>
    intro j p trace _
    exact ⟨[], [], by simp [runSteps], rfl, List.Pairwise.nil, fun i hi => absurd hi (by simp)⟩
  | cons st rest ih =>
    intro j p trace hp
    cases st with
    | call =>
      obtain ⟨m1, k, j2, h1, h2, h3, h4, h5, h6⟩ :=
        call_group_order env ug groups hen hres j p trace hp
      obtain ⟨m2, idxs, g1, g2, g3, g4⟩ :=
        ih j2 _ (CacheGetRandomSatisfiedChannel env trace p).trace h4
      refine ⟨m1 ++ m2, List.range' j k ++ idxs, by rw [runSteps, g1, h1, List.append_assoc],
        by rw [List.map_append, List.map_append, h2, g2], ?_, ?_⟩
      · rw [List.pairwise_append]
        refine ⟨?_, g3, ?_⟩
        · exact (List.pairwise_lt_range' j k).imp (fun h => le_of_lt h)
        · intro a ha b hb
          have h7 := (g4 b hb).1
          rw [List.mem_range'_1] at ha
          omega
      · intro i hi
        rcases List.mem_append.mp hi with hi | hi
        · rw [List.mem_range'_1] at hi
          have : 0 < k := by omega
          have := h3 this
          omega
        · have := g4 i hi
          omega
    | op o =>
      obtain ⟨m2, idxs, g1, g2, g3, g4⟩ := ih j (o.apply p) trace (InAuto_apply ug j o p hp)
      exact ⟨m2, idxs, by rw [runSteps, g1], g2, g3, g4⟩

/-! ## C17: group order in auto mode -/

/-- C17: auto mode group order.  (a) One invocation that starts at the persisted index s
queries the groups autoGroups[s], autoGroups[s+1], ..., autoGroups[s+k-1], at consecutive
ascending indices, for some k.  (b) Over any sequence of selector calls and RetryParam
method calls of one request the persisted ContextKeyAutoGroupIndex (as the selector reads
it back) never decreases.  (c) Hence over the whole request the groups are queried at
non-decreasing indices of the resolved sequence, none below the index the request
started from: a group earlier in the sequence is never queried after a later one. -/
theorem C17_group_order (env : Env) :
    (∀ (p : RetryParam) (trace : List Query) (s : Nat),
      p.TokenGroup = "auto" → env.GetAutoGroups ≠ [] → startGroupIndexOf p.Ctx = (s : Int) →
      ∃ (more : List Query) (k : Nat),
        (CacheGetRandomSatisfiedChannel env trace p).trace = trace ++ more ∧
        more.map (fun q => some q.group) = (List.range' s k).map (fun i =>
          (env.GetUserAutoGroup (GetContextKeyString p.Ctx.ContextKeyUserGroup))[i]?) ∧
        (0 < k → s + k
          ≤ (env.GetUserAutoGroup (GetContextKeyString p.Ctx.ContextKeyUserGroup)).length)) ∧
    (∀ (steps1 steps2 : List Step) (p : RetryParam) (trace : List Query),
      startGroupIndexOf (runSteps env steps1 p trace).1.Ctx
        ≤ startGroupIndexOf (runSteps env (steps1 ++ steps2) p trace).1.Ctx) ∧
    (∀ (steps : List Step) (p : RetryParam) (trace : List Query) (s : Nat),
      p.TokenGroup = "auto" → env.GetAutoGroups ≠ [] → startGroupIndexOf p.Ctx = (s : Int) →
      ∃ (more : List Query) (idxs : List Nat),
        (runSteps env steps p trace).2 = trace ++ more ∧
        more.map (fun q => some q.group) = idxs.map (fun i =>
          (env.GetUserAutoGroup (GetContextKeyString p.Ctx.ContextKeyUserGroup))[i]?) ∧
        idxs.Pairwise (fun a b => a ≤ b) ∧
        ∀ i ∈ idxs, s ≤ i ∧
          i < (env.GetUserAutoGroup (GetContextKeyString p.Ctx.ContextKeyUserGroup)).length) := by
  refine ⟨?_, ?_, ?_⟩
  · intro p trace s hauto hen hs
    obtain ⟨more, k, _, h1, h2, h3, _, _, _⟩ := call_group_order env p.Ctx.ContextKeyUserGroup _
      hen rfl s p trace ⟨hauto, rfl, hs⟩
    exact ⟨more, k, h1, h2, h3⟩
  · intro steps1 steps2 p trace
    rw [runSteps_append]
    exact runSteps_index_mono env steps2 _ _
  · intro steps p trace s hauto hen hs
    exact runSteps_group_order env p.Ctx.ContextKeyUserGroup _ hen rfl steps s p trace
      ⟨hauto, rfl, hs⟩

/-- C17 on the documented example: four calls with IncreaseRetry in between query
GroupA four times and then GroupB, at indices 0, 0, 0, 0, 1. -/
theorem C17_group_order_witness :
    (runSteps envDocExample
      [Step.call, Step.op ParamOp.IncreaseRetry, Step.call, Step.op ParamOp.IncreaseRetry,
       Step.call, Step.op ParamOp.IncreaseRetry, Step.call] freshAutoCross []).2.map Query.group
      = ["GroupA", "GroupA", "GroupA", "GroupA", "GroupB"] ∧
    ∃ (more : List Query) (idxs : List Nat),
      (runSteps envDocExample
        [Step.call, Step.op ParamOp.IncreaseRetry, Step.call, Step.op ParamOp.IncreaseRetry,
         Step.call, Step.op ParamOp.IncreaseRetry, Step.call] freshAutoCross []).2
        = [] ++ more ∧
      more.map (fun q => some q.group) = idxs.map (fun i =>
        (envDocExample.GetUserAutoGroup
          (GetContextKeyString freshAutoCross.Ctx.ContextKeyUserGroup))[i]?) ∧
      idxs.Pairwise (fun a b => a ≤ b) ∧
      ∀ i ∈ idxs, 0 ≤ i ∧
        i < (envDocExample.GetUserAutoGroup
          (GetContextKeyString freshAutoCross.Ctx.ContextKeyUserGroup)).length :=
  ⟨by decide,
    (C17_group_order envDocExample).2.2
      [Step.call, Step.op ParamOp.IncreaseRetry, Step.call, Step.op ParamOp.IncreaseRetry,
       Step.call, Step.op ParamOp.IncreaseRetry, Step.call] freshAutoCross [] 0 rfl (by decide)
      rfl⟩

/-! ## C29: the explicit-group path changes no state -/

/-- C29: explicit-group path frame.  For every call with TokenGroup != "auto", whatever
the registry returns, the RetryParam after the call is the RetryParam before it: retry
counter, deferred flag, used-channel set, priority index and the whole request store,
the persisted auto-group keys included, are unchanged. -/
theorem C29_explicit_path_frame (env : Env) (trace : List Query) (p : RetryParam)
    (hne : p.TokenGroup ≠ "auto") :
    (CacheGetRandomSatisfiedChannel env trace p).param = p := by
  rcases call_cases env trace p with ⟨_, oc, h, _⟩ | ⟨ha, _⟩ | ⟨ha, _⟩
  · rw [h]
  · exact absurd ha hne
  · exact absurd ha hne

/-- C29 on the explicit group A with a registry that returns a backend. -/
theorem C29_explicit_path_frame_witness :
    (CacheGetRandomSatisfiedChannel (envPair 1) [] freshExplicit).param = freshExplicit :=
  C29_explicit_path_frame (envPair 1) [] freshExplicit (by decide)

/-! ## C24: at most two queries per call -/

/-- With a tier budget of at least 1, a run of the loop entered past the start index
makes at most one query, at tier 0. -/
theorem autoLoop_past_start_one_query (env : Env) (cross : Bool) (s : Int) (sel : String)
    (hT : 1 ≤ env.RetryTimes) (l : List String) (i : Int) (hi : s < i) (p : RetryParam)
    (trace : List Query) :
    ∃ more, (autoLoop env cross s sel l i p trace).trace = trace ++ more ∧
      more.length ≤ 1 ∧ ∀ q ∈ more, q.retry = 0 := by
  have hpr : priorityRetryAt s i p = 0 := by simp [priorityRetryAt, hi]
  cases l with
  | nil => exact ⟨[], by simp [autoLoop], by simp, fun q hq => absurd hq (by simp)⟩
  | cons g rest =>
    have hq0 : ∀ q ∈ [(⟨g, p.ModelName, priorityRetryAt s i p, p.UsedChannelIds⟩ : Query)],
        q.retry = 0 := by
      intro q hq
      simp only [List.mem_singleton] at hq
      rw [hq]; exact hpr
    rcases autoLoop_cons_cases env cross s sel g rest i p trace with
      ⟨h, _⟩ | ⟨_, hge⟩ | ⟨b, _, h⟩ | ⟨b, _, h⟩
    · exact ⟨_, by rw [h], by simp, hq0⟩
    · rw [hpr] at hge; omega
    · exact ⟨_, by rw [h], by simp, hq0⟩
    · exact ⟨_, by rw [h], by simp, hq0⟩

/-- C24: whenever RetryTimes >= 1, a single invocation of the selector makes at most two
registry queries, and every query after the first is made at tier 0: the call can skip
at most one group, because the group reached by moving on is probed at
priorityRetry 0 < RetryTimes and the call returns whatever the registry answers there. -/
theorem C24_at_most_two_queries (env : Env) (trace : List Query) (p : RetryParam)
    (hT : 1 ≤ env.RetryTimes) :
    ∃ more, (CacheGetRandomSatisfiedChannel env trace p).trace = trace ++ more ∧
      more.length ≤ 2 ∧ ∀ q ∈ more.drop 1, q.retry = 0 := by
  rcases call_cases env trace p with ⟨_, oc, h, _⟩ | ⟨_, oc, h, _⟩ | ⟨_, _, _, h⟩
  · exact ⟨_, by rw [h], by simp, by simp⟩
  · exact ⟨[], by rw [h]; simp, by simp, by simp⟩
  · rw [h]
    cases hl : (env.GetUserAutoGroup (GetContextKeyString p.Ctx.ContextKeyUserGroup)).drop
        (startGroupIndexOf p.Ctx).toNat with
    | nil => exact ⟨[], by simp [autoLoop], by simp, by simp⟩
    | cons g rest =>
      rcases autoLoop_cons_cases env (GetContextKeyBool p.Ctx.ContextKeyTokenCrossGroupRetry)
        (startGroupIndexOf p.Ctx) "auto" g rest (startGroupIndexOf p.Ctx) p trace with
        ⟨h2, _⟩ | ⟨h2, _⟩ | ⟨b, _, h2⟩ | ⟨b, _, h2⟩
      · exact ⟨_, by rw [h2], by simp, by simp⟩
      · obtain ⟨more, h3, h4, h5⟩ := autoLoop_past_start_one_query env
          (GetContextKeyBool p.Ctx.ContextKeyTokenCrossGroupRetry) (startGroupIndexOf p.Ctx)
          "auto" hT rest (startGroupIndexOf p.Ctx + 1) (by omega)
          (movedOn p (startGroupIndexOf p.Ctx))
          (trace ++ [⟨g, p.ModelName,
            priorityRetryAt (startGroupIndexOf p.Ctx) (startGroupIndexOf p.Ctx) p,
            p.UsedChannelIds⟩])
        refine ⟨(⟨g, p.ModelName,
            priorityRetryAt (startGroupIndexOf p.Ctx) (startGroupIndexOf p.Ctx) p,
            p.UsedChannelIds⟩ : Query) :: more, by rw [h2, h3]; simp, by simp; omega, ?_⟩
        simpa using h5
      · exact ⟨_, by rw [h2], by simp, by simp⟩
      · exact ⟨_, by rw [h2], by simp, by simp⟩

/-- C24 on three empty groups with tier budget 1 and the counter at 1: the call queries
A at tier 1 and B at tier 0, and no third group. -/
theorem C24_at_most_two_queries_witness :
    (CacheGetRandomSatisfiedChannel (envAllNone 1 ["A", "B", "C"]) [] (freshAuto.SetRetry 1)).trace
      = [⟨"A", "gpt-4", 1, none⟩, ⟨"B", "gpt-4", 0, none⟩] ∧
    ∃ more, (CacheGetRandomSatisfiedChannel (envAllNone 1 ["A", "B", "C"]) []
        (freshAuto.SetRetry 1)).trace = [] ++ more ∧
      more.length ≤ 2 ∧ ∀ q ∈ more.drop 1, q.retry = 0 :=
  ⟨by decide,
    C24_at_most_two_queries (envAllNone 1 ["A", "B", "C"]) [] (freshAuto.SetRetry 1)
      (by decide)⟩

/-! ## C25: all groups exhausted is absorbing -/

/-- An auto-mode call whose start index is at or past the end of the resolved sequence
returns (nil, "auto", nil) and changes nothing. -/
theorem call_past_end (env : Env) (trace : List Query) (p : RetryParam)
    (hauto : p.TokenGroup = "auto") (hen : env.GetAutoGroups ≠ [])
    (hidx : ((env.GetUserAutoGroup (GetContextKeyString p.Ctx.ContextKeyUserGroup)).length : Int)
      ≤ startGroupIndexOf p.Ctx) :
    CacheGetRandomSatisfiedChannel env trace p = ⟨Outcome.returned none "auto" none, p, trace⟩ := by
  rw [call_eq_autoLoop env trace p hauto hen (by omega), List.drop_of_length_le (by omega)]
  rfl

theorem foldl_apply_Ctx (ops : List ParamOp) :
    ∀ p : RetryParam, (ops.foldl (fun p o => o.apply p) p).Ctx = p.Ctx ∧
      (ops.foldl (fun p o => o.apply p) p).TokenGroup = p.TokenGroup := by
  induction ops with
  | nil => intro p; exact ⟨rfl, rfl⟩
  | cons o rest ih =>
    intro p
    obtain ⟨h1, h2⟩ := ih (o.apply p)
    exact ⟨by rw [List.foldl_cons, h1, apply_Ctx], by rw [List.foldl_cons, h2, apply_TokenGroup]⟩

/-- Past the end of the sequence no step of the request queries the registry or touches
the store. -/
theorem runSteps_past_end (env : Env) (hen : env.GetAutoGroups ≠ []) :
    ∀ (steps : List Step) (p : RetryParam) (trace : List Query),
      p.TokenGroup = "auto" →
      ((env.GetUserAutoGroup (GetContextKeyString p.Ctx.ContextKeyUserGroup)).length : Int)
        ≤ startGroupIndexOf p.Ctx →
      (runSteps env steps p trace).2 = trace ∧ (runSteps env steps p trace).1.Ctx = p.Ctx ∧
        (runSteps env steps p trace).1.TokenGroup = "auto" := by
  intro steps
  induction steps with
  | nil => intro p trace ha _; exact ⟨rfl, rfl, ha⟩
  | cons st rest ih =>
    intro p trace ha hidx
    cases st with
    | call =>
      rw [runSteps, call_past_end env trace p ha hen hidx]
      exact ih p trace ha hidx
    | op o =>
      rw [runSteps]
      obtain ⟨h1, h2, h3⟩ := ih (o.apply p) trace (by rw [apply_TokenGroup]; exact ha)
        (by rw [apply_Ctx]; exact hidx)
      exact ⟨h1, by rw [h2, apply_Ctx], h3⟩

/-- C25: all-exhausted is absorbing.  Once the persisted ContextKeyAutoGroupIndex is >=
the length of the resolved auto-group sequence, an auto-mode selector call returns
(nil, "auto", nil) without any registry query and without changing the RetryParam or the
store; and after any further steps of the request (selector calls, IncreaseRetry,
AddUsedChannel or any other RetryParam method, in any order) the trace and the store are
still the same and the next selector call again returns (nil, "auto", nil) without a
query and without a change. -/
theorem C25_all_exhausted_is_absorbing (env : Env) (trace : List Query) (p : RetryParam)
    (hauto : p.TokenGroup = "auto") (hen : env.GetAutoGroups ≠ [])
    (hidx : ((env.GetUserAutoGroup (GetContextKeyString p.Ctx.ContextKeyUserGroup)).length : Int)
      ≤ startGroupIndexOf p.Ctx) :
    CacheGetRandomSatisfiedChannel env trace p
      = ⟨Outcome.returned none "auto" none, p, trace⟩ ∧
    ∀ steps : List Step,
      (runSteps env steps p trace).2 = trace ∧
      (runSteps env steps p trace).1.Ctx = p.Ctx ∧
      CacheGetRandomSatisfiedChannel env (runSteps env steps p trace).2
          (runSteps env steps p trace).1
        = ⟨Outcome.returned none "auto" none, (runSteps env steps p trace).1,
            (runSteps env steps p trace).2⟩ := by
  refine ⟨call_past_end env trace p hauto hen hidx, fun steps => ?_⟩
  obtain ⟨h1, h2, h3⟩ := runSteps_past_end env hen steps p trace hauto hidx
  exact ⟨h1, h2, call_past_end env _ _ h3 hen (by rw [h2]; exact hidx)⟩

/-- C25 after the single empty group A was exhausted (tier budget 0): the state the
first call leaves has index 1 = L, and calls after IncreaseRetry and AddUsedChannel
return (nil, "auto", nil) with the trace unchanged. -/
theorem C25_all_exhausted_witness :
    (runSteps (envAllNone 0 ["A"])
      [Step.op ParamOp.IncreaseRetry, Step.op (ParamOp.AddUsedChannel 7), Step.call]
      (CacheGetRandomSatisfiedChannel (envAllNone 0 ["A"]) [] freshAuto).param
      (CacheGetRandomSatisfiedChannel (envAllNone 0 ["A"]) [] freshAuto).trace).2
      = (CacheGetRandomSatisfiedChannel (envAllNone 0 ["A"]) [] freshAuto).trace :=
  ((C25_all_exhausted_is_absorbing (envAllNone 0 ["A"])
    (CacheGetRandomSatisfiedChannel (envAllNone 0 ["A"]) [] freshAuto).trace
    (CacheGetRandomSatisfiedChannel (envAllNone 0 ["A"]) [] freshAuto).param
    rfl (by decide) (by decide)).2
    [Step.op ParamOp.IncreaseRetry, Step.op (ParamOp.AddUsedChannel 7), Step.call]).1

/-! ## C26: index safety -/

theorem autoLoop_not_panicked (env : Env) (cross : Bool) (s : Int) (sel : String) :
    ∀ (l : List String) (i : Int) (p : RetryParam) (trace : List Query),
      (autoLoop env cross s sel l i p trace).outcome ≠ Outcome.panicked := by
  intro l
  induction l with
  | nil => intro i p trace; simp [autoLoop]
  | cons g rest ih =>
    intro i p trace
    rcases autoLoop_cons_cases env cross s sel g rest i p trace with
      ⟨h, _⟩ | ⟨h, _⟩ | ⟨b, _, h⟩ | ⟨b, _, h⟩
    · rw [h]; simp
    · rw [h]; exact ih _ _ _
    · rw [h]; simp
    · rw [h]; simp

/-- A call whose start index lies in [0, L] does not panic and leaves the index in
[0, L], the user-group key (hence the resolved sequence) unchanged. -/
theorem call_index_safe (env : Env) (trace : List Query) (p : RetryParam)
    (hlo : 0 ≤ startGroupIndexOf p.Ctx)
    (hhi : startGroupIndexOf p.Ctx
      ≤ ((env.GetUserAutoGroup (GetContextKeyString p.Ctx.ContextKeyUserGroup)).length : Int)) :
    (CacheGetRandomSatisfiedChannel env trace p).outcome ≠ Outcome.panicked ∧
    0 ≤ startGroupIndexOf (CacheGetRandomSatisfiedChannel env trace p).param.Ctx ∧
    startGroupIndexOf (CacheGetRandomSatisfiedChannel env trace p).param.Ctx
      ≤ ((env.GetUserAutoGroup (GetContextKeyString p.Ctx.ContextKeyUserGroup)).length : Int) ∧
    (CacheGetRandomSatisfiedChannel env trace p).param.Ctx.ContextKeyUserGroup
      = p.Ctx.ContextKeyUserGroup := by
  obtain ⟨_, _, _, hf, _, hmono⟩ := call_spec env trace p
  refine ⟨?_, le_trans hlo hmono, ?_, hf.2.2.2.2.1⟩
  · by_cases hauto : p.TokenGroup = "auto"
    · by_cases hen : env.GetAutoGroups = []
      · simp [CacheGetRandomSatisfiedChannel, hauto, hen]
      · rw [call_eq_autoLoop env trace p hauto hen hlo]
        exact autoLoop_not_panicked env _ _ _ _ _ _ _
    · simp only [CacheGetRandomSatisfiedChannel, hauto, if_false]
      split <;> simp
  · rcases call_cases env trace p with ⟨_, oc, h, _⟩ | ⟨_, oc, h, _⟩ | ⟨_, _, _, h⟩
    · rw [h]; exact hhi
    · rw [h]; exact hhi
    · rw [h]
      obtain ⟨_, k, _, hk, _, h4, h5, _, _, _⟩ := autoLoop_spec env
        (GetContextKeyBool p.Ctx.ContextKeyTokenCrossGroupRetry) (startGroupIndexOf p.Ctx)
        "auto" ((env.GetUserAutoGroup (GetContextKeyString p.Ctx.ContextKeyUserGroup)).drop
          (startGroupIndexOf p.Ctx).toNat) (startGroupIndexOf p.Ctx) p trace
      by_cases hk0 : k = 0
      · rw [h4 hk0]; exact hhi
      · have := (h5 (Nat.pos_of_ne_zero hk0)).2
        rw [List.length_drop] at hk
        omega

theorem runSteps_index_safe (env : Env) :
    ∀ (steps : List Step) (p : RetryParam) (trace : List Query),
      0 ≤ startGroupIndexOf p.Ctx →
      startGroupIndexOf p.Ctx
        ≤ ((env.GetUserAutoGroup (GetContextKeyString p.Ctx.ContextKeyUserGroup)).length : Int) →
      0 ≤ startGroupIndexOf (runSteps env steps p trace).1.Ctx ∧
      startGroupIndexOf (runSteps env steps p trace).1.Ctx
        ≤ ((env.GetUserAutoGroup (GetContextKeyString p.Ctx.ContextKeyUserGroup)).length : Int) ∧
      (runSteps env steps p trace).1.Ctx.ContextKeyUserGroup = p.Ctx.ContextKeyUserGroup := by
  intro steps
  induction steps with
  | nil => intro p trace hlo hhi; exact ⟨hlo, hhi, rfl⟩
  | cons st rest ih =>
    intro p trace hlo hhi
    cases st with
    | call =>
      obtain ⟨_, h1, h2, h3⟩ := call_index_safe env trace p hlo hhi
      obtain ⟨g1, g2, g3⟩ := ih _ (CacheGetRandomSatisfiedChannel env trace p).trace h1
        (by rw [h3]; exact h2)
      rw [h3] at g2 g3
      exact ⟨by rw [runSteps]; exact g1, by rw [runSteps]; exact g2, by rw [runSteps]; exact g3⟩
    | op o =>
      obtain ⟨g1, g2, g3⟩ := ih (o.apply p) trace (by rw [apply_Ctx]; exact hlo)
        (by rw [apply_Ctx]; exact hhi)
      rw [apply_Ctx] at g2 g3
      exact ⟨by rw [runSteps]; exact g1, by rw [runSteps]; exact g2, by rw [runSteps]; exact g3⟩

/-- C26: index safety in auto mode.  If the persisted ContextKeyAutoGroupIndex is absent
or lies in [0, L], L the length of the resolved sequence, then a selector call does not
panic on autoGroups[i], the index lies in [0, L] again after it, and the groups it
accesses are those at the indices s, ..., s+k-1 with s+k <= L (s the start index); the
same holds after any further steps of the request: the index stays in [0, L] and no
later selector call panics, so the out-of-range access is unreachable. -/
theorem C26_index_safety (env : Env) (trace : List Query) (p : RetryParam)
    (hlo : 0 ≤ startGroupIndexOf p.Ctx)
    (hhi : startGroupIndexOf p.Ctx
      ≤ ((env.GetUserAutoGroup (GetContextKeyString p.Ctx.ContextKeyUserGroup)).length : Int)) :
    (CacheGetRandomSatisfiedChannel env trace p).outcome ≠ Outcome.panicked ∧
    0 ≤ startGroupIndexOf (CacheGetRandomSatisfiedChannel env trace p).param.Ctx ∧
    startGroupIndexOf (CacheGetRandomSatisfiedChannel env trace p).param.Ctx
      ≤ ((env.GetUserAutoGroup (GetContextKeyString p.Ctx.ContextKeyUserGroup)).length : Int) ∧
    (p.TokenGroup = "auto" → env.GetAutoGroups ≠ [] →
      ∃ (more : List Query) (k : Nat),
        (CacheGetRandomSatisfiedChannel env trace p).trace = trace ++ more ∧
        more.map (fun q => some q.group)
          = (List.range' (startGroupIndexOf p.Ctx).toNat k).map (fun i =>
              (env.GetUserAutoGroup (GetContextKeyString p.Ctx.ContextKeyUserGroup))[i]?) ∧
        (0 < k → (startGroupIndexOf p.Ctx).toNat + k
          ≤ (env.GetUserAutoGroup (GetContextKeyString p.Ctx.ContextKeyUserGroup)).length)) ∧
    (∀ steps : List Step,
      0 ≤ startGroupIndexOf (runSteps env steps p trace).1.Ctx ∧
      startGroupIndexOf (runSteps env steps p trace).1.Ctx
        ≤ ((env.GetUserAutoGroup (GetContextKeyString p.Ctx.ContextKeyUserGroup)).length : Int) ∧
      (CacheGetRandomSatisfiedChannel env (runSteps env steps p trace).2
        (runSteps env steps p trace).1).outcome ≠ Outcome.panicked) := by
  obtain ⟨h1, h2, h3, _⟩ := call_index_safe env trace p hlo hhi
  refine ⟨h1, h2, h3, ?_, ?_⟩
  · intro hauto hen
    obtain ⟨more, k, _, g1, g2, g3, _, _, _⟩ := call_group_order env p.Ctx.ContextKeyUserGroup _
      hen rfl (startGroupIndexOf p.Ctx).toNat p trace
      ⟨hauto, rfl, (Int.toNat_of_nonneg hlo).symm⟩
    exact ⟨more, k, g1, g2, g3⟩
  · intro steps
    obtain ⟨g1, g2, g3⟩ := runSteps_index_safe env steps p trace hlo hhi
    refine ⟨g1, g2, ?_⟩
    exact (call_index_safe env _ _ g1 (by rw [g3]; exact g2)).1

/-- C26 on a fresh request over groups A, B with tier budget 0 and cross-group retry:
after the hand-over call and two more calls the index is 2 = L and nothing panics. -/
theorem C26_index_safety_witness :
    0 ≤ startGroupIndexOf (runSteps (envPair 0) [Step.call, Step.op ParamOp.IncreaseRetry,
      Step.call, Step.op ParamOp.IncreaseRetry] freshAutoCross []).1.Ctx ∧
    startGroupIndexOf (runSteps (envPair 0) [Step.call, Step.op ParamOp.IncreaseRetry,
      Step.call, Step.op ParamOp.IncreaseRetry] freshAutoCross []).1.Ctx
      ≤ (((envPair 0).GetUserAutoGroup
          (GetContextKeyString freshAutoCross.Ctx.ContextKeyUserGroup)).length : Int) ∧
    (CacheGetRandomSatisfiedChannel (envPair 0)
      (runSteps (envPair 0) [Step.call, Step.op ParamOp.IncreaseRetry,
        Step.call, Step.op ParamOp.IncreaseRetry] freshAutoCross []).2
      (runSteps (envPair 0) [Step.call, Step.op ParamOp.IncreaseRetry,
        Step.call, Step.op ParamOp.IncreaseRetry] freshAutoCross []).1).outcome
      ≠ Outcome.panicked :=
  (C26_index_safety (envPair 0) [] freshAutoCross (by decide) (by decide)).2.2.2.2
    [Step.call, Step.op ParamOp.IncreaseRetry, Step.call, Step.op ParamOp.IncreaseRetry]

/-! ## C21: the retry counter across calls -/

/-- A run of the loop leaves the counter as it was or sets it to 0. -/
theorem autoLoop_Retry (env : Env) (cross : Bool) (s : Int) (sel : String) :
    ∀ (l : List String) (i : Int) (p : RetryParam) (trace : List Query),
      (autoLoop env cross s sel l i p trace).param.Retry = p.Retry ∨
      (autoLoop env cross s sel l i p trace).param.Retry = some 0 := by
  intro l
  induction l with
  | nil => intro i p trace; exact Or.inl rfl
  | cons g rest ih =>
    intro i p trace
    rcases autoLoop_cons_cases env cross s sel g rest i p trace with
      ⟨h, _⟩ | ⟨h, _⟩ | ⟨b, _, h⟩ | ⟨b, _, h⟩
    · rw [h]; exact Or.inl rfl
    · rw [h]
      rcases ih (i + 1) (movedOn p i) _ with h2 | h2
      · exact Or.inr (by rw [h2]; rfl)
      · exact Or.inr h2
    · rw [h]; exact Or.inr rfl
    · rw [h]; exact Or.inl rfl

/-- A selector call leaves the counter as it was, unless it is an auto-mode call made
with the tier budget spent (RetryTimes <= GetRetry()), which may set it to 0. -/
theorem call_Retry (env : Env) (trace : List Query) (p : RetryParam) :
    (CacheGetRandomSatisfiedChannel env trace p).param.Retry = p.Retry ∨
    ((CacheGetRandomSatisfiedChannel env trace p).param.Retry = some 0 ∧
      p.TokenGroup = "auto" ∧ env.RetryTimes ≤ p.GetRetry) := by
  rcases call_cases env trace p with ⟨_, oc, h, _⟩ | ⟨_, oc, h, _⟩ | ⟨ha, _, _, h⟩
  · rw [h]; exact Or.inl rfl
  · rw [h]; exact Or.inl rfl
  · rw [h]
    have hpr : priorityRetryAt (startGroupIndexOf p.Ctx) (startGroupIndexOf p.Ctx) p
        = p.GetRetry := by simp [priorityRetryAt]
    by_cases hge : env.RetryTimes ≤ p.GetRetry
    · rcases autoLoop_Retry env (GetContextKeyBool p.Ctx.ContextKeyTokenCrossGroupRetry)
        (startGroupIndexOf p.Ctx) "auto" _ (startGroupIndexOf p.Ctx) p trace with h2 | h2
      · exact Or.inl h2
      · exact Or.inr ⟨h2, ha, hge⟩
    · left
      cases hl : (env.GetUserAutoGroup (GetContextKeyString p.Ctx.ContextKeyUserGroup)).drop
          (startGroupIndexOf p.Ctx).toNat with
      | nil => rfl
      | cons g rest =>
        rcases autoLoop_cons_cases env (GetContextKeyBool p.Ctx.ContextKeyTokenCrossGroupRetry)
          (startGroupIndexOf p.Ctx) "auto" g rest (startGroupIndexOf p.Ctx) p trace with
          ⟨h2, _⟩ | ⟨_, h3⟩ | ⟨b, hb, _⟩ | ⟨b, _, h2⟩
        · rw [h2]; rfl
        · rw [hpr] at h3; exact absurd h3 hge
        · rw [autoLoop_match_stay env _ _ "auto" g rest _ p trace b hb
            (Or.inr (by rw [hpr]; exact not_le.mp hge))]
        · rw [h2]; rfl

/-- C21 as stated fails: with tier budget 1 and groups A, B empty, a selector call made
at GetRetry() = 1 moves on from A and leaves GetRetry() = 0, lower than before, with no
deferred-increment flag involved. -/
theorem C21_selector_call_lowers_counter :
    (freshAuto.SetRetry 1).GetRetry = 1 ∧
    (freshAuto.SetRetry 1).resetNextTry = false ∧
    (CacheGetRandomSatisfiedChannel (envAllNone 1 ["A", "B"]) []
      (freshAuto.SetRetry 1)).param.GetRetry = 0 ∧
    ¬ ((freshAuto.SetRetry 1).GetRetry
      ≤ (CacheGetRandomSatisfiedChannel (envAllNone 1 ["A", "B"]) []
          (freshAuto.SetRetry 1)).param.GetRetry) := by
  refine ⟨by decide, by decide, by decide, by decide⟩

/-- C21 (amended): for every IncreaseRetry call made with GetRetry() below math.MaxInt64
or with the deferred-increment flag set, GetRetry() after the call is >= GetRetry() before
it: it is one more, except that it is unchanged when the deferred-increment flag is set,
the only case in which the increment is withheld (at math.MaxInt64 with the flag clear
the increment wraps to math.MinInt64).  A selector call leaves the counter unchanged,
except that an auto-mode call made with RetryTimes <= GetRetry() may reset it to 0 (by
SetRetry(0) when it moves on to the next group or hands over), so that after a selector
call GetRetry() is the value before or 0; in particular the counter is unchanged by every
explicit-group call and by every auto-mode call made with GetRetry() < RetryTimes. -/
theorem C21_retry_counter_steps (env : Env) (trace : List Query) (p : RetryParam) :
    (p.resetNextTry = true ∨ (minInt ≤ p.GetRetry ∧ p.GetRetry < maxInt) →
      p.GetRetry ≤ p.IncreaseRetry.GetRetry) ∧
    (p.resetNextTry = false → minInt ≤ p.GetRetry → p.GetRetry < maxInt →
      p.IncreaseRetry.GetRetry = p.GetRetry + 1) ∧
    (p.resetNextTry = false → p.GetRetry = maxInt → p.IncreaseRetry.GetRetry = minInt) ∧
    (p.resetNextTry = true → p.IncreaseRetry.GetRetry = p.GetRetry) ∧
    ((CacheGetRandomSatisfiedChannel env trace p).param.GetRetry = p.GetRetry ∨
      ((CacheGetRandomSatisfiedChannel env trace p).param.GetRetry = 0 ∧
        p.TokenGroup = "auto" ∧ env.RetryTimes ≤ p.GetRetry)) ∧
    (p.TokenGroup ≠ "auto" ∨ p.GetRetry < env.RetryTimes →
      (CacheGetRandomSatisfiedChannel env trace p).param.GetRetry = p.GetRetry) := by
  have hinc1 : p.resetNextTry = false → minInt ≤ p.GetRetry → p.GetRetry < maxInt →
      p.IncreaseRetry.GetRetry = p.GetRetry + 1 := by
    intro h h1 h2
    rw [IncreaseRetry_of_clear p h]
    show wrapInt (p.GetRetry + 1) = p.GetRetry + 1
    unfold minInt at h1
    unfold maxInt at h2
    exact wrapInt_eq_self _ (by omega) (by omega)
  have hinc2 : p.resetNextTry = true → p.IncreaseRetry.GetRetry = p.GetRetry := by
    intro h
    simp [RetryParam.IncreaseRetry, h, RetryParam.GetRetry]
  have hwrap : p.resetNextTry = false → p.GetRetry = maxInt →
      p.IncreaseRetry.GetRetry = minInt := by
    intro h hmax
    rw [IncreaseRetry_of_clear p h]
    show wrapInt (p.GetRetry + 1) = minInt
    rw [hmax]
    exact wrapInt_maxInt_succ
  have hcall := call_Retry env trace p
  refine ⟨?_, hinc1, hwrap, hinc2, ?_, ?_⟩
  · intro hcond
    cases hf : p.resetNextTry with
    | true => rw [hinc2 hf]
    | false =>
      rcases hcond with h | ⟨h1, h2⟩
      · rw [hf] at h; exact absurd h (by decide)
      · rw [hinc1 hf h1 h2]; omega
  · rcases hcall with h | ⟨h, ha, hge⟩
    · exact Or.inl (by simp only [RetryParam.GetRetry, h])
    · exact Or.inr ⟨by simp only [RetryParam.GetRetry, h], ha, hge⟩
  · intro hcond
    rcases hcall with h | ⟨_, ha, hge⟩
    · simp only [RetryParam.GetRetry, h]
    · rcases hcond with hne | hlt
      · exact absurd ha hne
      · omega

/-! ## C22: the used-channel set and the priority index only grow -/

/-- C22 as stated fails: IncreasePriorityIndex on a RetryParam whose priority index is
math.MaxInt64 wraps (line 85), and GetPriorityIndex() afterwards is math.MinInt64: lower
than before, and not the value before plus 1. -/
theorem C22_priority_index_wraps_at_MaxInt64 :
    ({ freshExplicit with CurrentPriorityIndex := 9223372036854775807 } : RetryParam).GetPriorityIndex
      = 9223372036854775807 ∧
    (ParamOp.IncreasePriorityIndex.apply
      { freshExplicit with CurrentPriorityIndex := 9223372036854775807 }).GetPriorityIndex
      = -9223372036854775808 ∧
    ¬ (({ freshExplicit with CurrentPriorityIndex := 9223372036854775807 } : RetryParam).GetPriorityIndex
      ≤ (ParamOp.IncreasePriorityIndex.apply
          { freshExplicit with CurrentPriorityIndex := 9223372036854775807 }).GetPriorityIndex) ∧
    (ParamOp.IncreasePriorityIndex.apply
      { freshExplicit with CurrentPriorityIndex := 9223372036854775807 }).GetPriorityIndex
      ≠ ({ freshExplicit with CurrentPriorityIndex := 9223372036854775807 } : RetryParam).GetPriorityIndex
        + 1 := by
  refine ⟨by decide, by decide, by decide, by decide⟩

/-- C22 (amended): for every method of RetryParam (SetRetry, IncreaseRetry,
ResetRetryNextTry, AddUsedChannel, IncreasePriorityIndex) and every selector call: every
id in the used-channel set before is in it after, and, as long as GetPriorityIndex()
before is below math.MaxInt64, GetPriorityIndex() after is >= GetPriorityIndex() before.
Only AddUsedChannel changes the set (it adds its argument), only IncreasePriorityIndex
changes the index (by exactly +1 below math.MaxInt64; at math.MaxInt64 it wraps to
math.MinInt64), and a selector call changes neither. -/
theorem C22_used_set_and_priority_index (env : Env) (trace : List Query) (p : RetryParam)
    (o : ParamOp) :
    (∀ id, p.IsChannelUsed id = true → (o.apply p).IsChannelUsed id = true) ∧
    (o ≠ ParamOp.IncreasePriorityIndex ∨
      (minInt ≤ p.GetPriorityIndex ∧ p.GetPriorityIndex < maxInt) →
      p.GetPriorityIndex ≤ (o.apply p).GetPriorityIndex) ∧
    ((∀ id, o ≠ ParamOp.AddUsedChannel id) → (o.apply p).UsedChannelIds = p.UsedChannelIds) ∧
    (∀ id j, o = ParamOp.AddUsedChannel id →
      ((o.apply p).IsChannelUsed j = true ↔ (j = id ∨ p.IsChannelUsed j = true))) ∧
    (o ≠ ParamOp.IncreasePriorityIndex → (o.apply p).GetPriorityIndex = p.GetPriorityIndex) ∧
    (o = ParamOp.IncreasePriorityIndex → minInt ≤ p.GetPriorityIndex →
      p.GetPriorityIndex < maxInt →
      (o.apply p).GetPriorityIndex = p.GetPriorityIndex + 1) ∧
    (o = ParamOp.IncreasePriorityIndex → p.GetPriorityIndex = maxInt →
      (o.apply p).GetPriorityIndex = minInt) ∧
    (CacheGetRandomSatisfiedChannel env trace p).param.UsedChannelIds = p.UsedChannelIds ∧
    (CacheGetRandomSatisfiedChannel env trace p).param.GetPriorityIndex = p.GetPriorityIndex := by
  obtain ⟨_, _, _, hf, _, _⟩ := call_spec env trace p
  have hused : (∀ id, o ≠ ParamOp.AddUsedChannel id) →
      (o.apply p).UsedChannelIds = p.UsedChannelIds := by
    intro hno
    cases o with
    | SetRetry n => rfl
    | IncreaseRetry =>
      simp only [ParamOp.apply, RetryParam.IncreaseRetry]
      split
      · rfl
      · split <;> rfl
    | ResetRetryNextTry => rfl
    | AddUsedChannel j => exact absurd rfl (hno j)
    | IncreasePriorityIndex => rfl
  have hprio : o ≠ ParamOp.IncreasePriorityIndex →
      (o.apply p).GetPriorityIndex = p.GetPriorityIndex := by
    intro hno
    cases o with
    | SetRetry n => rfl
    | IncreaseRetry =>
      simp only [ParamOp.apply, RetryParam.IncreaseRetry, RetryParam.GetPriorityIndex]
      split
      · rfl
      · split <;> rfl
    | ResetRetryNextTry => rfl
    | AddUsedChannel j =>
      simp only [ParamOp.apply, RetryParam.AddUsedChannel, RetryParam.GetPriorityIndex]
      split <;> rfl
    | IncreasePriorityIndex => exact absurd rfl hno
  have hstep : o = ParamOp.IncreasePriorityIndex → minInt ≤ p.GetPriorityIndex →
      p.GetPriorityIndex < maxInt →
      (o.apply p).GetPriorityIndex = p.GetPriorityIndex + 1 := by
    intro ho h1 h2
    subst ho
    show wrapInt (p.GetPriorityIndex + 1) = p.GetPriorityIndex + 1
    unfold minInt at h1
    unfold maxInt at h2
    exact wrapInt_eq_self _ (by omega) (by omega)
  refine ⟨fun id h => IsChannelUsed_apply o p id h, ?_, hused, ?_, hprio, hstep, ?_,
    hf.2.2.1, ?_⟩
  · intro hcond
    by_cases ho : o = ParamOp.IncreasePriorityIndex
    · rcases hcond with h | ⟨h1, h2⟩
      · exact absurd ho h
      · rw [hstep ho h1 h2]; omega
    · rw [hprio ho]
  · intro id j ho
    subst ho
    cases hU : p.UsedChannelIds <;>
      simp [ParamOp.apply, RetryParam.AddUsedChannel, RetryParam.IsChannelUsed, hU]
  · intro ho hmax
    subst ho
    show wrapInt (p.GetPriorityIndex + 1) = minInt
    rw [hmax]
    exact wrapInt_maxInt_succ
  · simp only [RetryParam.GetPriorityIndex]
    exact hf.2.2.2.1

/-! ## C27: the explicit tier reset is redundant -/

/-- At the start index, or with the counter at 0, the loop and the loop without the
reset agree. -/
theorem autoLoop_eq_autoLoopNoReset (env : Env) (cross : Bool) (s : Int) (sel : String) :
    ∀ (l : List String) (i : Int) (p : RetryParam) (trace : List Query),
      (i ≤ s ∨ p.GetRetry = 0) →
      autoLoop env cross s sel l i p trace = autoLoopNoReset env cross sel l i p trace := by
  intro l
  induction l with
  | nil => intro i p trace _; rfl
  | cons g rest ih =>
    intro i p trace h
    have hpr : priorityRetryAt s i p = p.GetRetry := by
      unfold priorityRetryAt
      rcases h with h | h
      · rw [if_neg (by omega)]
      · split
        · exact h.symm
        · rfl
    simp only [autoLoop, autoLoopNoReset, hpr]
    split
    · split
      · rfl
      · exact ih _ _ _ (Or.inr rfl)
    · rfl

/-- C27: in the auto path the tier argument of every registry query equals the value
GetRetry() has at the moment of the query (a group index i > startGroupIndex is reached
only after SetRetry(0)): the selector with the reset
`if i > startGroupIndex { priorityRetry = 0 }` removed, which always passes GetRetry(),
returns the same result, makes the same queries and leaves the same state, for every
input. -/
theorem C27_tier_reset_is_redundant (env : Env) (trace : List Query) (p : RetryParam) :
    CacheGetRandomSatisfiedChannel env trace p
      = CacheGetRandomSatisfiedChannelNoReset env trace p := by
  simp only [CacheGetRandomSatisfiedChannel, CacheGetRandomSatisfiedChannelNoReset]
  split
  · split
    · rfl
    · split
      · rfl
      · exact autoLoop_eq_autoLoopNoReset env _ _ _ _ _ _ _ (Or.inl (le_refl _))
  · rfl

/-! ## C28: what the cross-group-retry flag can change -/

/-- The value stored under the cross-group-retry key rides through the loop untouched. -/
theorem autoLoop_withCrossGroupRetry (env : Env) (cross : Bool) (s : Int) (sel : String)
    (v : Option CtxValue) :
    ∀ (l : List String) (i : Int) (p : RetryParam) (trace : List Query),
      autoLoop env cross s sel l i (withCrossGroupRetry p v) trace
        = ⟨(autoLoop env cross s sel l i p trace).outcome,
            withCrossGroupRetry (autoLoop env cross s sel l i p trace).param v,
            (autoLoop env cross s sel l i p trace).trace⟩ := by
  intro l
  induction l with
  | nil => intro i p trace; rfl
  | cons g rest ih =>
    intro i p trace
    have hpr : priorityRetryAt s i (withCrossGroupRetry p v) = priorityRetryAt s i p := rfl
    have hm : (withCrossGroupRetry p v).ModelName = p.ModelName := rfl
    have hu : (withCrossGroupRetry p v).UsedChannelIds = p.UsedChannelIds := rfl
    simp only [autoLoop, hpr, hm, hu]
    split
    · split
      · rfl
      · exact ih (i + 1) (movedOn p i)
          (trace ++ [⟨g, p.ModelName, priorityRetryAt s i p, p.UsedChannelIds⟩])
    · split <;> rfl

/-- Two runs of the loop that differ in the flag only: same outcome, same queries, and
the same RetryParam unless a backend was returned at a tier >= RetryTimes, in which case
one run hands over and the other persists the current index. -/
theorem autoLoop_flag_independent (env : Env) (c1 c2 : Bool) (s : Int) (sel : String) :
    ∀ (l : List String) (i : Int) (p : RetryParam) (trace : List Query),
      (autoLoop env c1 s sel l i p trace).outcome = (autoLoop env c2 s sel l i p trace).outcome ∧
      (autoLoop env c1 s sel l i p trace).trace = (autoLoop env c2 s sel l i p trace).trace ∧
      ((autoLoop env c1 s sel l i p trace).param = (autoLoop env c2 s sel l i p trace).param ∨
        ∃ (b : Channel) (g : String) (i2 : Int) (p2 : RetryParam) (pre : List Query) (q : Query),
          (autoLoop env c1 s sel l i p trace).outcome = Outcome.returned (some b) g none ∧
          (autoLoop env c1 s sel l i p trace).trace = pre ++ [q] ∧
          env.RetryTimes ≤ q.retry ∧
          (((autoLoop env c1 s sel l i p trace).param = handedOver p2 g i2 ∧
              (autoLoop env c2 s sel l i p trace).param = selectedAt p2 g i2) ∨
            ((autoLoop env c1 s sel l i p trace).param = selectedAt p2 g i2 ∧
              (autoLoop env c2 s sel l i p trace).param = handedOver p2 g i2))) := by
  intro l
  induction l with
  | nil => intro i p trace; exact ⟨rfl, rfl, Or.inl rfl⟩
  | cons g rest ih =>
    intro i p trace
    cases hq : (env.GetRandomSatisfiedChannel trace
      ⟨g, p.ModelName, priorityRetryAt s i p, p.UsedChannelIds⟩).channel with
    | none =>
      by_cases hlt : priorityRetryAt s i p < env.RetryTimes
      · rw [autoLoop_none_stay env c1 s sel g rest i p trace hq hlt,
          autoLoop_none_stay env c2 s sel g rest i p trace hq hlt]
        exact ⟨rfl, rfl, Or.inl rfl⟩
      · rw [autoLoop_none_move env c1 s sel g rest i p trace hq (not_lt.mp hlt),
          autoLoop_none_move env c2 s sel g rest i p trace hq (not_lt.mp hlt)]
        exact ih _ _ _
    | some b =>
      by_cases hlt : priorityRetryAt s i p < env.RetryTimes
      · rw [autoLoop_match_stay env c1 s sel g rest i p trace b hq (Or.inr hlt),
          autoLoop_match_stay env c2 s sel g rest i p trace b hq (Or.inr hlt)]
        exact ⟨rfl, rfl, Or.inl rfl⟩
      · have hge := not_lt.mp hlt
        cases c1 <;> cases c2
        · exact ⟨rfl, rfl, Or.inl rfl⟩
        · rw [autoLoop_match_stay env false s sel g rest i p trace b hq (Or.inl rfl),
            autoLoop_match_handoff env s sel g rest i p trace b hq hge]
          exact ⟨rfl, rfl, Or.inr ⟨b, g, i, p, trace, _, rfl, rfl, hge, Or.inr ⟨rfl, rfl⟩⟩⟩
        · rw [autoLoop_match_stay env false s sel g rest i p trace b hq (Or.inl rfl),
            autoLoop_match_handoff env s sel g rest i p trace b hq hge]
          exact ⟨rfl, rfl, Or.inr ⟨b, g, i, p, trace, _, rfl, rfl, hge, Or.inl ⟨rfl, rfl⟩⟩⟩
        · exact ⟨rfl, rfl, Or.inl rfl⟩

/-- C28: a single selector call made from the same pre-state against the same registry,
once with the RetryParam p and once with the cross-group-retry key of its store set to
any other value v.  The returned triple (channel, group, error) and the sequence of
registry queries are the same.  The RetryParam left behind is the same too, apart from
the key itself, unless a backend was returned by a last query made at a tier >=
RetryTimes; and even then only the persisted autoGroupIndex, the retry counter and the
deferred-increment flag can differ: every other field and store key agrees. -/
theorem C28_cross_group_flag_independence (env : Env) (trace : List Query) (p : RetryParam)
    (v : Option CtxValue) :
    (CacheGetRandomSatisfiedChannel env trace (withCrossGroupRetry p v)).outcome
      = (CacheGetRandomSatisfiedChannel env trace p).outcome ∧
    (CacheGetRandomSatisfiedChannel env trace (withCrossGroupRetry p v)).trace
      = (CacheGetRandomSatisfiedChannel env trace p).trace ∧
    ((CacheGetRandomSatisfiedChannel env trace (withCrossGroupRetry p v)).param
        = withCrossGroupRetry (CacheGetRandomSatisfiedChannel env trace p).param v ∨
      ∃ (b : Channel) (g : String) (pre : List Query) (q : Query),
        (CacheGetRandomSatisfiedChannel env trace p).outcome = Outcome.returned (some b) g none ∧
        (CacheGetRandomSatisfiedChannel env trace p).trace = pre ++ [q] ∧
        env.RetryTimes ≤ q.retry) ∧
    ((CacheGetRandomSatisfiedChannel env trace (withCrossGroupRetry p v)).param.TokenGroup
        = (CacheGetRandomSatisfiedChannel env trace p).param.TokenGroup ∧
      (CacheGetRandomSatisfiedChannel env trace (withCrossGroupRetry p v)).param.ModelName
        = (CacheGetRandomSatisfiedChannel env trace p).param.ModelName ∧
      (CacheGetRandomSatisfiedChannel env trace (withCrossGroupRetry p v)).param.UsedChannelIds
        = (CacheGetRandomSatisfiedChannel env trace p).param.UsedChannelIds ∧
      (CacheGetRandomSatisfiedChannel env trace
          (withCrossGroupRetry p v)).param.CurrentPriorityIndex
        = (CacheGetRandomSatisfiedChannel env trace p).param.CurrentPriorityIndex ∧
      (CacheGetRandomSatisfiedChannel env trace
          (withCrossGroupRetry p v)).param.Ctx.ContextKeyUserGroup
        = (CacheGetRandomSatisfiedChannel env trace p).param.Ctx.ContextKeyUserGroup ∧
      (CacheGetRandomSatisfiedChannel env trace
          (withCrossGroupRetry p v)).param.Ctx.ContextKeyAutoGroup
        = (CacheGetRandomSatisfiedChannel env trace p).param.Ctx.ContextKeyAutoGroup ∧
      (CacheGetRandomSatisfiedChannel env trace
          (withCrossGroupRetry p v)).param.Ctx.ContextKeyAutoGroupRetryIndex
        = (CacheGetRandomSatisfiedChannel env trace p).param.Ctx.ContextKeyAutoGroupRetryIndex) := by
  by_cases hauto : p.TokenGroup = "auto"
  · by_cases hen : env.GetAutoGroups = []
    · have h : CacheGetRandomSatisfiedChannel env trace (withCrossGroupRetry p v)
          = ⟨(CacheGetRandomSatisfiedChannel env trace p).outcome,
              withCrossGroupRetry (CacheGetRandomSatisfiedChannel env trace p).param v,
              (CacheGetRandomSatisfiedChannel env trace p).trace⟩ := by
        simp [CacheGetRandomSatisfiedChannel, withCrossGroupRetry, hauto, hen]
      rw [h]
      exact ⟨rfl, rfl, Or.inl rfl, rfl, rfl, rfl, rfl, rfl, rfl, rfl⟩
    · by_cases hs : 0 ≤ startGroupIndexOf p.Ctx
      · have h1 := call_eq_autoLoop env trace p hauto hen hs
        have h2 := call_eq_autoLoop env trace (withCrossGroupRetry p v) hauto hen hs
        have hst : startGroupIndexOf (withCrossGroupRetry p v).Ctx = startGroupIndexOf p.Ctx := rfl
        have hug : (withCrossGroupRetry p v).Ctx.ContextKeyUserGroup
            = p.Ctx.ContextKeyUserGroup := rfl
        rw [hst, hug, autoLoop_withCrossGroupRetry] at h2
        obtain ⟨g1, g2, g3⟩ := autoLoop_flag_independent env
          (GetContextKeyBool (withCrossGroupRetry p v).Ctx.ContextKeyTokenCrossGroupRetry)
          (GetContextKeyBool p.Ctx.ContextKeyTokenCrossGroupRetry)
          (startGroupIndexOf p.Ctx) "auto"
          ((env.GetUserAutoGroup (GetContextKeyString p.Ctx.ContextKeyUserGroup)).drop
            (startGroupIndexOf p.Ctx).toNat) (startGroupIndexOf p.Ctx) p trace
        rw [← h1] at g1 g2 g3
        rw [h2]
        refine ⟨g1, g2, ?_, ?_⟩
        · rcases g3 with g3 | ⟨b, g, _, _, pre, q, e1, e2, e3, _⟩
          · exact Or.inl (by rw [g3])
          · exact Or.inr ⟨b, g, pre, q, by rw [← g1]; exact e1, by rw [← g2]; exact e2, e3⟩
        · rcases g3 with g3 | ⟨b, g, i2, p2, pre, q, _, _, _, ⟨e4, e5⟩ | ⟨e4, e5⟩⟩
          · rw [g3]
            exact ⟨rfl, rfl, rfl, rfl, rfl, rfl, rfl⟩
          · rw [e4, e5]
            exact ⟨rfl, rfl, rfl, rfl, rfl, rfl, rfl⟩
          · rw [e4, e5]
            exact ⟨rfl, rfl, rfl, rfl, rfl, rfl, rfl⟩
      · have h : CacheGetRandomSatisfiedChannel env trace (withCrossGroupRetry p v)
            = ⟨(CacheGetRandomSatisfiedChannel env trace p).outcome,
                withCrossGroupRetry (CacheGetRandomSatisfiedChannel env trace p).param v,
                (CacheGetRandomSatisfiedChannel env trace p).trace⟩ := by
          have h1 : ¬ env.GetAutoGroups.length = 0 := by
            simpa [List.length_eq_zero] using hen
          have h2 : startGroupIndexOf p.Ctx < 0 := not_le.mp hs
          have h3 : startGroupIndexOf (withCrossGroupRetry p v).Ctx < 0 := h2
          have ha2 : (withCrossGroupRetry p v).TokenGroup = "auto" := hauto
          by_cases h4 : (env.GetUserAutoGroup
              (GetContextKeyString p.Ctx.ContextKeyUserGroup)).length = 0
          · have h5 : (env.GetUserAutoGroup (GetContextKeyString
                (withCrossGroupRetry p v).Ctx.ContextKeyUserGroup)).length = 0 := h4
            simp only [CacheGetRandomSatisfiedChannel, hauto, ha2, h1, h2, h3, h4, h5, if_true,
              if_false]
          · have h5 : ¬ (env.GetUserAutoGroup (GetContextKeyString
                (withCrossGroupRetry p v).Ctx.ContextKeyUserGroup)).length = 0 := h4
            simp only [CacheGetRandomSatisfiedChannel, hauto, ha2, h1, h2, h3, h4, h5, if_true,
              if_false]
        rw [h]
        exact ⟨rfl, rfl, Or.inl rfl, rfl, rfl, rfl, rfl, rfl, rfl, rfl⟩
  · have h : CacheGetRandomSatisfiedChannel env trace (withCrossGroupRetry p v)
        = ⟨(CacheGetRandomSatisfiedChannel env trace p).outcome,
            withCrossGroupRetry (CacheGetRandomSatisfiedChannel env trace p).param v,
            (CacheGetRandomSatisfiedChannel env trace p).trace⟩ := by
      have ha2 : ¬ (withCrossGroupRetry p v).TokenGroup = "auto" := hauto
      simp only [CacheGetRandomSatisfiedChannel, hauto, ha2, if_false]
      have e1 : (withCrossGroupRetry p v).TokenGroup = p.TokenGroup := rfl
      have e2 : (withCrossGroupRetry p v).ModelName = p.ModelName := rfl
      have e3 : (withCrossGroupRetry p v).GetRetry = p.GetRetry := rfl
      have e4 : (withCrossGroupRetry p v).GetPriorityIndex = p.GetPriorityIndex := rfl
      have e5 : (withCrossGroupRetry p v).UsedChannelIds = p.UsedChannelIds := rfl
      rw [e1, e2, e3, e4, e5]
      split <;> rfl
    rw [h]
    exact ⟨rfl, rfl, Or.inl rfl, rfl, rfl, rfl, rfl, rfl, rfl, rfl⟩

/-! ## C6 (amended): the example flow as the code runs it -/

/-- A round below the tier budget in which the registry has a backend at the current
tier: the call returns it with the current group, and the request stays in the group
with the counter one higher. -/
theorem round_match (env : Env) (ug : Option CtxValue) (m : String) (u : Option (Finset Int))
    (groups : List String) (T : Nat)
    (hen : env.GetAutoGroups ≠ [])
    (hres : env.GetUserAutoGroup (GetContextKeyString ug) = groups)
    (hT : env.RetryTimes = (T : Int))
    (j r : Nat) (g : String) (rest : List String) (p : RetryParam) (trace : List Query)
    (b : Channel)
    (hp : AtTier ug m u j r p) (hd : groups.drop j = g :: rest) (hr : r < T)
    (hq : ∀ tr, (env.GetRandomSatisfiedChannel tr ⟨g, m, (r : Int), u⟩).channel = some b) :
    (CacheGetRandomSatisfiedChannel env trace p).outcome = Outcome.returned (some b) g none ∧
    AtTier ug m u j (r + 1) (CacheGetRandomSatisfiedChannel env trace p).param.IncreaseRetry := by
  obtain ⟨ha, hug, hs, hret, hfl, hm, hu⟩ := hp
  have hpr : priorityRetryAt (j : Int) (j : Int) p = (r : Int) := by
    simp [priorityRetryAt, hret]
  have hlt : priorityRetryAt (j : Int) (j : Int) p < env.RetryTimes := by
    rw [hpr, hT]; exact_mod_cast hr
  have hq2 : (env.GetRandomSatisfiedChannel trace
      ⟨g, p.ModelName, priorityRetryAt (j : Int) (j : Int) p, p.UsedChannelIds⟩).channel
      = some b := by
    rw [hpr, hm, hu]; exact hq trace
  rw [call_eq_autoLoop env trace p ha hen (by omega), hs, Int.toNat_ofNat, hug, hres, hd,
    autoLoop_match_stay env _ (j : Int) "auto" g rest (j : Int) p trace b hq2 (Or.inr hlt)]
  refine ⟨rfl, ?_⟩
  have hw : wrapInt ((r : Int) + 1) = (r : Int) + 1 :=
    wrapInt_eq_self _ (by omega) (by have := env.RetryTimesIsInt; omega)
  change AtTier ug m u j (r + 1) (selectedAt p g (j : Int)).IncreaseRetry
  rw [IncreaseRetry_of_clear _ (show (selectedAt p g (j : Int)).resetNextTry = false from hfl)]
  refine ⟨ha, hug, rfl, ?_, hfl, hm, hu⟩
  show wrapInt (p.GetRetry + 1) = ((r + 1 : Nat) : Int)
  rw [hret, hw]
  push_cast
  rfl

/-- A round below the tier budget in which the registry has nothing at the current tier:
the call returns (nil, "auto", nil), and the request stays in the group with the counter
one higher. -/
theorem round_none (env : Env) (ug : Option CtxValue) (m : String) (u : Option (Finset Int))
    (groups : List String) (T : Nat)
    (hen : env.GetAutoGroups ≠ [])
    (hres : env.GetUserAutoGroup (GetContextKeyString ug) = groups)
    (hT : env.RetryTimes = (T : Int))
    (j r : Nat) (g : String) (rest : List String) (p : RetryParam) (trace : List Query)
    (hp : AtTier ug m u j r p) (hd : groups.drop j = g :: rest) (hr : r < T)
    (hq : ∀ tr, (env.GetRandomSatisfiedChannel tr ⟨g, m, (r : Int), u⟩).channel = none) :
    (CacheGetRandomSatisfiedChannel env trace p).outcome = Outcome.returned none "auto" none ∧
    AtTier ug m u j (r + 1) (CacheGetRandomSatisfiedChannel env trace p).param.IncreaseRetry := by
  obtain ⟨ha, hug, hs, hret, hfl, hm, hu⟩ := hp
  have hpr : priorityRetryAt (j : Int) (j : Int) p = (r : Int) := by
    simp [priorityRetryAt, hret]
  have hlt : priorityRetryAt (j : Int) (j : Int) p < env.RetryTimes := by
    rw [hpr, hT]; exact_mod_cast hr
  have hq2 : (env.GetRandomSatisfiedChannel trace
      ⟨g, p.ModelName, priorityRetryAt (j : Int) (j : Int) p, p.UsedChannelIds⟩).channel
      = none := by
    rw [hpr, hm, hu]; exact hq trace
  rw [call_eq_autoLoop env trace p ha hen (by omega), hs, Int.toNat_ofNat, hug, hres, hd,
    autoLoop_none_stay env _ (j : Int) "auto" g rest (j : Int) p trace hq2 hlt]
  refine ⟨rfl, ?_⟩
  have hw : wrapInt ((r : Int) + 1) = (r : Int) + 1 :=
    wrapInt_eq_self _ (by omega) (by have := env.RetryTimesIsInt; omega)
  change AtTier ug m u j (r + 1) (keptAt p (j : Int)).IncreaseRetry
  rw [IncreaseRetry_of_clear _ (show (keptAt p (j : Int)).resetNextTry = false from hfl)]
  refine ⟨ha, hug, rfl, ?_, hfl, hm, hu⟩
  show wrapInt (p.GetRetry + 1) = ((r + 1 : Nat) : Int)
  rw [hret, hw]
  push_cast
  rfl

/-- A round at the tier budget in which the registry has nothing for the current group
at tier T and a backend for the next group at tier 0: the call moves on, returns that
backend with the next group, and the request then sits in the next group with counter 1. -/
theorem round_move_match (env : Env) (ug : Option CtxValue) (m : String)
    (u : Option (Finset Int)) (groups : List String) (T : Nat)
    (hen : env.GetAutoGroups ≠ [])
    (hres : env.GetUserAutoGroup (GetContextKeyString ug) = groups)
    (hT : env.RetryTimes = (T : Int)) (hT1 : 1 ≤ T)
    (j : Nat) (g g2 : String) (rest : List String) (p : RetryParam) (trace : List Query)
    (b : Channel)
    (hp : AtTier ug m u j T p) (hd : groups.drop j = g :: g2 :: rest)
    (hq : ∀ tr, (env.GetRandomSatisfiedChannel tr ⟨g, m, (T : Int), u⟩).channel = none)
    (hq0 : ∀ tr, (env.GetRandomSatisfiedChannel tr ⟨g2, m, 0, u⟩).channel = some b) :
    (CacheGetRandomSatisfiedChannel env trace p).outcome = Outcome.returned (some b) g2 none ∧
    AtTier ug m u (j + 1) 1 (CacheGetRandomSatisfiedChannel env trace p).param.IncreaseRetry := by
  obtain ⟨ha, hug, hs, hret, hfl, hm, hu⟩ := hp
  have hpr : priorityRetryAt (j : Int) (j : Int) p = (T : Int) := by
    simp [priorityRetryAt, hret]
  have hge : env.RetryTimes ≤ priorityRetryAt (j : Int) (j : Int) p := by
    rw [hpr, hT]
  have hpr2 : priorityRetryAt (j : Int) ((j : Int) + 1) (movedOn p (j : Int)) = 0 := by
    simp [priorityRetryAt]
  have hlt2 : priorityRetryAt (j : Int) ((j : Int) + 1) (movedOn p (j : Int)) < env.RetryTimes := by
    rw [hpr2, hT]; exact_mod_cast hT1
  have hq2 : (env.GetRandomSatisfiedChannel trace
      ⟨g, p.ModelName, priorityRetryAt (j : Int) (j : Int) p, p.UsedChannelIds⟩).channel
      = none := by
    rw [hpr, hm, hu]; exact hq trace
  have hq3 : ∀ tr, (env.GetRandomSatisfiedChannel tr
      ⟨g2, (movedOn p (j : Int)).ModelName,
        priorityRetryAt (j : Int) ((j : Int) + 1) (movedOn p (j : Int)),
        (movedOn p (j : Int)).UsedChannelIds⟩).channel = some b := by
    intro tr
    rw [hpr2]
    show (env.GetRandomSatisfiedChannel tr ⟨g2, p.ModelName, 0, p.UsedChannelIds⟩).channel = some b
    rw [hm, hu]; exact hq0 tr
  rw [call_eq_autoLoop env trace p ha hen (by omega), hs, Int.toNat_ofNat, hug, hres, hd,
    autoLoop_none_move env _ (j : Int) "auto" g (g2 :: rest) (j : Int) p trace hq2 hge]
  change (autoLoop env _ (j : Int) "auto" (g2 :: rest) ((j : Int) + 1) (movedOn p (j : Int))
      _).outcome = _ ∧
    AtTier ug m u (j + 1) 1 (autoLoop env _ (j : Int) "auto" (g2 :: rest) ((j : Int) + 1)
      (movedOn p (j : Int)) _).param.IncreaseRetry
  rw [autoLoop_match_stay env _ (j : Int) "auto" g2 rest ((j : Int) + 1) (movedOn p (j : Int)) _
    b (hq3 _) (Or.inr hlt2)]
  refine ⟨rfl, ?_⟩
  change AtTier ug m u (j + 1) 1
    (selectedAt (movedOn p (j : Int)) g2 ((j : Int) + 1)).IncreaseRetry
  rw [IncreaseRetry_of_clear _
    (show (selectedAt (movedOn p (j : Int)) g2 ((j : Int) + 1)).resetNextTry = false from hfl)]
  refine ⟨ha, hug, ?_, ?_, hfl, hm, hu⟩
  · show ((j : Int) + 1) = ((j + 1 : Nat) : Int)
    push_cast
    rfl
  · show wrapInt ((0 : Int) + 1) = ((1 : Nat) : Int)
    decide

/-- C6 (amended): groups A and B in this order for the user, RetryTimes = 3, the registry
holding a backend at tiers 0 and 1 of every group and none from tier 2 on (two priorities
each), a fresh auto-mode request, IncreaseRetry after every selector call.  The selector
calls return, in this order: A priority 0 (Retry = 0), A priority 1 (Retry = 1),
(nil, "auto", nil) (Retry = 2: A is probed at tier 2, which is empty, and the call stays
in A), B priority 0 (Retry = 3: A is probed at tier 3, the call moves on and probes B at
tier 0), B priority 1 (Retry = 1).  The move to B is made by the fourth call, not the
third.  It holds whether or not cross-group retry is enabled. -/
theorem C6_example_flow_as_implemented (env : Env) (p : RetryParam) (trace : List Query)
    (A B : String) (ch : String → Int → Channel)
    (hT : env.RetryTimes = 3)
    (hen : env.GetAutoGroups ≠ [])
    (hres : env.GetUserAutoGroup (GetContextKeyString p.Ctx.ContextKeyUserGroup) = [A, B])
    (hauto : p.TokenGroup = "auto")
    (hidx : p.Ctx.ContextKeyAutoGroupIndex = none)
    (hretry : p.Retry = none)
    (hflag : p.resetNextTry = false)
    (hreg01 : ∀ tr g m u t, t = 0 ∨ t = 1 →
      (env.GetRandomSatisfiedChannel tr ⟨g, m, t, u⟩).channel = some (ch g t))
    (hreg2 : ∀ tr g m u t, 2 ≤ t →
      (env.GetRandomSatisfiedChannel tr ⟨g, m, t, u⟩).channel = none) :
    roundOutcomes env
        [[ParamOp.IncreaseRetry], [ParamOp.IncreaseRetry], [ParamOp.IncreaseRetry],
          [ParamOp.IncreaseRetry], []] p trace
      = [Outcome.returned (some (ch A 0)) A none,
         Outcome.returned (some (ch A 1)) A none,
         Outcome.returned none "auto" none,
         Outcome.returned (some (ch B 0)) B none,
         Outcome.returned (some (ch B 1)) B none] := by
  have hT3 : env.RetryTimes = ((3 : Nat) : Int) := hT
  have s0 : AtTier p.Ctx.ContextKeyUserGroup p.ModelName p.UsedChannelIds 0 0 p :=
    ⟨hauto, rfl, startGroupIndexOf_none _ hidx, by simp [RetryParam.GetRetry, hretry], hflag,
      rfl, rfl⟩
  obtain ⟨o1, s1⟩ := round_match env _ _ _ [A, B] 3 hen hres hT3 0 0 A [B] p trace (ch A 0)
    s0 rfl (by decide) (fun tr => hreg01 tr A _ _ 0 (Or.inl rfl))
  obtain ⟨o2, s2⟩ := round_match env _ _ _ [A, B] 3 hen hres hT3 0 1 A [B] _
    (CacheGetRandomSatisfiedChannel env trace p).trace (ch A 1)
    s1 rfl (by decide) (fun tr => hreg01 tr A _ _ 1 (Or.inr rfl))
  obtain ⟨o3, s3⟩ := round_none env _ _ _ [A, B] 3 hen hres hT3 0 2 A [B] _
    (CacheGetRandomSatisfiedChannel env (CacheGetRandomSatisfiedChannel env trace p).trace
      (CacheGetRandomSatisfiedChannel env trace p).param.IncreaseRetry).trace
    s2 rfl (by decide) (fun tr => hreg2 tr A _ _ 2 (by decide))
  obtain ⟨o4, s4⟩ := round_move_match env _ _ _ [A, B] 3 hen hres hT3 (by decide) 0 A B [] _
    (CacheGetRandomSatisfiedChannel env
      (CacheGetRandomSatisfiedChannel env (CacheGetRandomSatisfiedChannel env trace p).trace
        (CacheGetRandomSatisfiedChannel env trace p).param.IncreaseRetry).trace
      (CacheGetRandomSatisfiedChannel env (CacheGetRandomSatisfiedChannel env trace p).trace
        (CacheGetRandomSatisfiedChannel env trace p).param.IncreaseRetry).param.IncreaseRetry).trace
    (ch B 0) s3 rfl (fun tr => hreg2 tr A _ _ 3 (by decide))
    (fun tr => hreg01 tr B _ _ 0 (Or.inl rfl))
  simp only [roundOutcomes, List.foldl, ParamOp.apply]
  rw [o1, o2, o3, o4]
  obtain ⟨o5, _⟩ := round_match env _ _ _ [A, B] 3 hen hres hT3 1 1 B [] _
    (CacheGetRandomSatisfiedChannel env
      (CacheGetRandomSatisfiedChannel env
        (CacheGetRandomSatisfiedChannel env (CacheGetRandomSatisfiedChannel env trace p).trace
          (CacheGetRandomSatisfiedChannel env trace p).param.IncreaseRetry).trace
        (CacheGetRandomSatisfiedChannel env (CacheGetRandomSatisfiedChannel env trace p).trace
          (CacheGetRandomSatisfiedChannel env trace p).param.IncreaseRetry).param.IncreaseRetry).trace
      (CacheGetRandomSatisfiedChannel env
        (CacheGetRandomSatisfiedChannel env (CacheGetRandomSatisfiedChannel env trace p).trace
          (CacheGetRandomSatisfiedChannel env trace p).param.IncreaseRetry).trace
        (CacheGetRandomSatisfiedChannel env (CacheGetRandomSatisfiedChannel env trace p).trace
          (CacheGetRandomSatisfiedChannel env trace p).param.IncreaseRetry).param.IncreaseRetry).param.IncreaseRetry).trace
    (ch B 1) s4 rfl (by decide) (fun tr => hreg01 tr B _ _ 1 (Or.inr rfl))
  rw [o5]

/-- C6 (amended) on the documented example with cross-group retry enabled: GroupA
priority 0, GroupA priority 1, (nil, "auto", nil), GroupB priority 0, GroupB priority 1. -/
theorem C6_example_flow_witness :
    roundOutcomes envDocExample
        [[ParamOp.IncreaseRetry], [ParamOp.IncreaseRetry], [ParamOp.IncreaseRetry],
          [ParamOp.IncreaseRetry], []] freshAutoCross []
      = [Outcome.returned (some ⟨0⟩) "GroupA" none,
         Outcome.returned (some ⟨1⟩) "GroupA" none,
         Outcome.returned none "auto" none,
         Outcome.returned (some ⟨0⟩) "GroupB" none,
         Outcome.returned (some ⟨1⟩) "GroupB" none] :=
  C6_example_flow_as_implemented envDocExample freshAutoCross [] "GroupA" "GroupB"
    (fun _ t => ⟨t⟩) rfl (by decide) rfl rfl rfl rfl rfl
    (fun _ _ _ _ t ht => by
      rcases ht with h | h <;> subst h <;> rfl)
    (fun _ _ _ _ t ht => by
      have h : ¬ (0 ≤ t ∧ t < 2) := by omega
      simp [envDocExample, regTwoTiers, h])

end ChannelSelect

namespace TokenTierPricing

/-! ## C23: rules are matched in list order -/

/-- The rule loop returns the result of the first rule of the list that matches, and
the zero value when none does. -/
theorem resolveRules_eq_find (i o : Int) :
    ∀ rules : List TokenTierRule,
      resolveRules i o rules
        = match rules.find? (fun r => matchRule r i o) with
          | some r => resultOfRule r
          | none => zeroResult := by
  intro rules
  induction rules with
  | nil => rfl
  | cons r rest ih =>
    cases h : matchRule r i o with
    | true => simp [resolveRules, List.find?, h]
    | false => simp [resolveRules, List.find?, h, ih]

theorem resultOfRule_Matched (r : TokenTierRule) :
    (resultOfRule r).Matched = true ∧ (resultOfRule r).RuleName = r.Name := by
  unfold resultOfRule
  split <;> exact ⟨rfl, rfl⟩

/-- C23: ResolveTokenTierPrice matches rules in order.  When GlobalEnabled is false the
result is the zero value (Matched = false) for every model and token counts.  When
GlobalEnabled is true and the configuration found for the model is enabled, the result
has Matched = true and RuleName equal to the name of the first rule in Rules (list
order) for which matchRule holds for (inputTokens, outputTokens), and Matched = false
when no rule matches. -/
theorem C23_rules_matched_in_order (cfg : TokenTierPricingConfig) (modelName : String)
    (inputTokens outputTokens : Int) :
    (cfg.GlobalEnabled = false →
      ResolveTokenTierPrice cfg modelName inputTokens outputTokens = zeroResult ∧
      (ResolveTokenTierPrice cfg modelName inputTokens outputTokens).Matched = false) ∧
    (∀ modelPricing : ModelTierPricing,
      cfg.GlobalEnabled = true → findModelPricing cfg modelName = (modelPricing, true) →
      modelPricing.Enabled = true →
      (∀ rule, modelPricing.Rules.find? (fun r => matchRule r inputTokens outputTokens)
          = some rule →
        (ResolveTokenTierPrice cfg modelName inputTokens outputTokens).Matched = true ∧
        (ResolveTokenTierPrice cfg modelName inputTokens outputTokens).RuleName = rule.Name) ∧
      (modelPricing.Rules.find? (fun r => matchRule r inputTokens outputTokens) = none →
        (ResolveTokenTierPrice cfg modelName inputTokens outputTokens).Matched = false)) := by
  constructor
  · intro h
    have : ResolveTokenTierPrice cfg modelName inputTokens outputTokens = zeroResult := by
      simp [ResolveTokenTierPrice, h]
    exact ⟨this, by rw [this]; rfl⟩
  · intro mp hg hf he
    have hres : ResolveTokenTierPrice cfg modelName inputTokens outputTokens
        = resolveRules inputTokens outputTokens mp.Rules := by
      simp [ResolveTokenTierPrice, hg, hf, he]
    rw [hres, resolveRules_eq_find]
    constructor
    · intro rule hr
      rw [hr]
      exact resultOfRule_Matched rule
    · intro hr
      rw [hr]
      rfl

/-- C23 on the default rules enabled for `gpt-*`: 100 input and 300 output tokens match
the second rule, the first in list order that matches. -/
theorem C23_rules_matched_in_order_witness :
    (ResolveTokenTierPrice cfgDefault "gpt-4o" 100 300).Matched = true ∧
    (ResolveTokenTierPrice cfgDefault "gpt-4o" 100 300).RuleName
      = "T2_input_le_32k_output_gt_200" :=
  ((C23_rules_matched_in_order cfgDefault "gpt-4o" 100 300).2
    ⟨true, "claude-3, gpt-*", GetDefaultTierRules⟩ rfl rfl rfl).1 tierT2 rfl

/-! ## C30: the default rules partition the token space -/

theorem matchRule_tierT1 (i o : Int) (hi : 0 ≤ i) (ho : 0 ≤ o) :
    matchRule tierT1 i o = decide (i ≤ 32000 ∧ o ≤ 200) := by
  by_cases h1 : i ≤ 32000 <;> by_cases h2 : o ≤ 200 <;>
    simp [matchRule, tierT1, h1, h2] <;> omega

theorem matchRule_tierT2 (i o : Int) (hi : 0 ≤ i) (ho : 0 ≤ o) :
    matchRule tierT2 i o = decide (i ≤ 32000 ∧ 200 < o) := by
  by_cases h1 : i ≤ 32000 <;> by_cases h2 : 200 < o <;>
    simp [matchRule, tierT2, h1, h2] <;> omega

theorem matchRule_tierT3 (i o : Int) (hi : 0 ≤ i) (ho : 0 ≤ o) :
    matchRule tierT3 i o = decide (32000 < i ∧ i ≤ 128000) := by
  by_cases h1 : 32000 < i <;> by_cases h2 : i ≤ 128000 <;>
    simp [matchRule, tierT3, h1, h2] <;> omega

theorem matchRule_tierT4 (i o : Int) (hi : 0 ≤ i) (ho : 0 ≤ o) :
    matchRule tierT4 i o = decide (128000 < i) := by
  by_cases h1 : 128000 < i <;>
    simp [matchRule, tierT4, h1] <;> omega

/-- For non-negative token counts exactly one default rule matches. -/
theorem default_rules_one_match (i o : Int) (hi : 0 ≤ i) (ho : 0 ≤ o) :
    ∃ r, GetDefaultTierRules.filter (fun r => matchRule r i o) = [r] := by
  simp only [GetDefaultTierRules, List.filter, matchRule_tierT1 i o hi ho,
    matchRule_tierT2 i o hi ho, matchRule_tierT3 i o hi ho, matchRule_tierT4 i o hi ho]
  by_cases h1 : i ≤ 32000
  · by_cases h2 : o ≤ 200
    · refine ⟨tierT1, ?_⟩
      have a2 : ¬ 200 < o := by omega
      have a3 : ¬ 32000 < i := by omega
      have a4 : ¬ 128000 < i := by omega
      simp [h1, h2, a2, a3, a4]
    · refine ⟨tierT2, ?_⟩
      have a2 : 200 < o := by omega
      have a3 : ¬ 32000 < i := by omega
      have a4 : ¬ 128000 < i := by omega
      simp [h1, h2, a2, a3, a4]
  · by_cases h3 : i ≤ 128000
    · refine ⟨tierT3, ?_⟩
      have a3 : 32000 < i := by omega
      have a4 : ¬ 128000 < i := by omega
      simp [h1, h3, a3, a4]
    · refine ⟨tierT4, ?_⟩
      have a3 : 32000 < i := by omega
      have a4 : 128000 < i := by omega
      simp [h1, h3, a3, a4]


/-- C30: the default tier rules partition the token space.  For every inputTokens >= 0
and outputTokens >= 0 exactly one of the four rules returned by GetDefaultTierRules
satisfies matchRule (a maximum of 0 meaning no upper limit); hence the rule chosen does
not depend on the order of the rules: for every reordering of the four rules the first
matching rule, and with it the result of the rule loop of ResolveTokenTierPrice, is the
same. -/
theorem C30_default_rules_partition (inputTokens outputTokens : Int)
    (hi : 0 ≤ inputTokens) (ho : 0 ≤ outputTokens) :
    (∃! r, r ∈ GetDefaultTierRules ∧ matchRule r inputTokens outputTokens = true) ∧
    (GetDefaultTierRules.filter (fun r => matchRule r inputTokens outputTokens)).length = 1 ∧
    (∀ l : List TokenTierRule, l.Perm GetDefaultTierRules →
      l.find? (fun r => matchRule r inputTokens outputTokens)
        = GetDefaultTierRules.find? (fun r => matchRule r inputTokens outputTokens) ∧
      resolveRules inputTokens outputTokens l
        = resolveRules inputTokens outputTokens GetDefaultTierRules) := by
  obtain ⟨r0, h0⟩ := default_rules_one_match inputTokens outputTokens hi ho
  have hfind : ∀ l : List TokenTierRule, l.Perm GetDefaultTierRules →
      l.find? (fun r => matchRule r inputTokens outputTokens) = some r0 := by
    intro l hl
    have hp := hl.filter (fun r => matchRule r inputTokens outputTokens)
    rw [h0] at hp
    rw [← List.filter_head?, List.perm_singleton.mp hp]
    rfl
  refine ⟨⟨r0, ?_, ?_⟩, by rw [h0]; rfl, ?_⟩
  · have : r0 ∈ GetDefaultTierRules.filter (fun r => matchRule r inputTokens outputTokens) := by
      rw [h0]; exact List.mem_singleton.mpr rfl
    exact ⟨(List.mem_filter.mp this).1, (List.mem_filter.mp this).2⟩
  · intro r hr
    have : r ∈ GetDefaultTierRules.filter (fun r => matchRule r inputTokens outputTokens) :=
      List.mem_filter.mpr hr
    rw [h0] at this
    exact List.mem_singleton.mp this
  · intro l hl
    have h1 := hfind l hl
    have h2 := hfind GetDefaultTierRules (List.Perm.refl _)
    exact ⟨by rw [h1, h2], by rw [resolveRules_eq_find, resolveRules_eq_find, h1, h2]⟩

/-- C30 at 100 input and 300 output tokens: one rule matches, and the reversed rule list
resolves to the same result. -/
theorem C30_default_rules_partition_witness :
    (GetDefaultTierRules.filter (fun r => matchRule r 100 300)).length = 1 ∧
    resolveRules 100 300 [tierT4, tierT3, tierT2, tierT1]
      = resolveRules 100 300 GetDefaultTierRules :=
  have h := C30_default_rules_partition 100 300 (by decide) (by decide)
  ⟨h.2.1, (h.2.2 [tierT4, tierT3, tierT2, tierT1]
    (List.reverse_perm [tierT1, tierT2, tierT3, tierT4])).2⟩

end TokenTierPricing
